import Mathlib

/-!
# Transaction-log codec of `pkg/zkfile`

A shallow embedding of `src/pkg/zkfile/txnlog.go`, `errors.go`, `validator.go`
and `zxid.go`.

Modelling conventions.
* A file is the list of its bytes; a byte is a `Fin 256`.
* Go's fixed-width integers are `Nat` (unsigned) and `Int` (signed); the
  conversions `toInt32`, `toInt64`, `ofInt32`, `ofInt64` are the two's
  complement reinterpretations done by `encoding/binary`.
* A reader is the list of bytes not yet consumed together with its offset; a
  writer is the list of bytes written so far.  Operating-system failures of
  `read`, `write`, `create` and `sync` are not modelled.  Two paths name the
  same file exactly when they are equal: a copy whose output path is its input
  path cuts its own input when it creates the output.
* The two `for` loops of the package take a fuel argument; they are started
  with more fuel than the file has bytes and return `none` only if the fuel
  runs out.
-/

namespace zkfile

/-! ## Bytes and big-endian integers (`encoding/binary`) -/

abbrev Byte := Fin 256

/-- Big-endian bytes of `v`, exactly `n` of them (`binary.BigEndian.PutUintN`). -/
def bePut : Nat → Nat → List Byte
  | 0, _ => []
  | k + 1, v => Fin.ofNat (v / 256 ^ k) :: bePut k v

/-- Big-endian value of a byte string (`binary.BigEndian.UintN`). -/
def beUint : List Byte → Nat
  | [] => 0
  | b :: bs => b.val * 256 ^ bs.length + beUint bs

/-- Reinterpretation `int32(u)` of a `uint32`. -/
def toInt32 (u : Nat) : Int := if u < 2 ^ 31 then (u : Int) else (u : Int) - 2 ^ 32

/-- Reinterpretation `int64(u)` of a `uint64`. -/
def toInt64 (u : Nat) : Int := if u < 2 ^ 63 then (u : Int) else (u : Int) - 2 ^ 64

/-- Reinterpretation `uint32(i)` of an `int32`. -/
def ofInt32 (i : Int) : Nat := (i % 2 ^ 32).toNat

/-- Reinterpretation `uint64(i)` of an `int64`. -/
def ofInt64 (i : Int) : Nat := (i % 2 ^ 64).toNat

/-- The Go slice expression `b[lo:hi]`. -/
def slice (b : List Byte) (lo hi : Nat) : List Byte := (b.drop lo).take (hi - lo)

/-- Adler-32 of RFC 1950, as computed by `hash/adler32.Checksum` (a `uint32`). -/
def adler32Checksum (data : List Byte) : Nat :=
  let s := data.foldl
    (fun (s : Nat × Nat) (d : Byte) =>
      let a := (s.1 + d.val) % 65521
      (a, (s.2 + a) % 65521))
    (1, 0)
  (s.2 * 65536 + s.1) % 2 ^ 32

/-! ## Constants (`txnlog.go`) -/

def LogVersion : Nat := 2

def MagicNumber : Nat := 0x5a4b4c47

def MaxRecordSize : Int := 10 * 1024 * 1024

def HeaderSize : Nat := 16

/-! ## ZXID (`zxid.go`) -/

/-- `type ZXID uint64`. -/
abbrev ZXID := Nat

/-! ## Errors (`errors.go`) -/

inductive ErrorCategory where
  | io
  | user
  | zooKeeper
  | validation
  | corruption
  | configuration
  deriving DecidableEq, Repr

/-- A context value (`interface{}`); the package stores strings and integers. -/
inductive CtxVal where
  | str (s : String)
  | int (i : Int)
  deriving DecidableEq, Repr

/-- A Go `error` value: `nil`, the two sentinels of package `io`, an
`*fs.PathError` of package `os`, a `*strconv.NumError`, or a `*BackupError` with its four
fields.  The context map is kept as an association list in insertion order. -/
inductive GoError where
  | nil
  | EOF
  | ErrUnexpectedEOF
  | PathError (Op : String) (Path : String) (Err : String)
  | NumError (Func : String) (Num : String) (Err : String)
  | Backup (Cause : GoError) (Message : String) (Category : ErrorCategory)
      (Context : List (String × CtxVal))
  deriving DecidableEq, Repr

deriving instance DecidableEq for Except

/-- Assignment `m[key] = value` on the association list. -/
def ctxSet : List (String × CtxVal) → String → CtxVal → List (String × CtxVal)
  | [], k, v => [(k, v)]
  | (k', v') :: rest, k, v =>
    if k' = k then (k, v) :: rest else (k', v') :: ctxSet rest k v

def NewIOError (message : String) : GoError :=
  .Backup .nil message .io []

def NewUserError (message : String) : GoError :=
  .Backup .nil message .user []

def NewZooKeeperError (message : String) : GoError :=
  .Backup .nil message .zooKeeper []

def NewValidationError (message : String) : GoError :=
  .Backup .nil message .validation []

def NewCorruptionError (message : String) : GoError :=
  .Backup .nil message .corruption []

def NewConfigurationError (message : String) : GoError :=
  .Backup .nil message .configuration []

namespace GoError

/-- The method `(*BackupError).WithError`. -/
def WithError : GoError → GoError → GoError
  | .Backup _ m c ctx, cause => .Backup cause m c ctx
  | e, _ => e

/-- The method `(*BackupError).WithContext`. -/
def WithContext : GoError → String → CtxVal → GoError
  | .Backup cause m c ctx, k, v => .Backup cause m c (ctxSet ctx k v)
  | e, _, _ => e

/-- The `Category` field of a `*BackupError`. -/
def category? : GoError → Option ErrorCategory
  | .Backup _ _ c _ => some c
  | _ => none

/-- The `Message` field of a `*BackupError`. -/
def message? : GoError → Option String
  | .Backup _ m _ _ => some m
  | _ => none

/-- The method `(*BackupError).Unwrap`. -/
def Unwrap : GoError → GoError
  | .Backup cause _ _ _ => cause
  | _ => .nil

end GoError

def ErrorCategory.String : ErrorCategory → String
  | .io => "IO"
  | .user => "User"
  | .zooKeeper => "ZooKeeper"
  | .validation => "Validation"
  | .corruption => "Corruption"
  | .configuration => "Configuration"

/-- Formatting of a context value with the verb `%v`. -/
def CtxVal.format : CtxVal → String
  | .str s => s
  | .int i => toString i

/-- The braced text of the context pairs in `(*BackupError).Error`, keys in list order. -/
def formatContext (ctx : List (String × CtxVal)) : String :=
  if ctx.isEmpty then ""
  else " \x7b" ++ ", ".intercalate (ctx.map fun kv => kv.1 ++ "=" ++ kv.2.format) ++ "\x7d"

/-- Two hexadecimal digits of a character code below 256, as `strconv.Quote` writes them
after the escape `x`. -/
def quoteHex (n : Nat) : List Char :=
  [Nat.digitChar (n / 16 % 16), Nat.digitChar (n % 16)]

/-- One character as `strconv.Quote` renders it (34 is the double quote, 92 the backslash).
Characters above the ASCII range are taken as printable. -/
def quoteChar (c : Char) : List Char :=
  let bs := Char.ofNat 92
  if c.toNat = 34 ∨ c.toNat = 92 then [bs, c]
  else if c.toNat = 7 then [bs, 'a']
  else if c.toNat = 8 then [bs, 'b']
  else if c.toNat = 12 then [bs, 'f']
  else if c.toNat = 10 then [bs, 'n']
  else if c.toNat = 13 then [bs, 'r']
  else if c.toNat = 9 then [bs, 't']
  else if c.toNat = 11 then [bs, 'v']
  else if c.toNat < 32 ∨ c.toNat = 127 then bs :: 'x' :: quoteHex c.toNat
  else [c]

/-- The library function `strconv.Quote`. -/
def strconvQuote (s : String) : String :=
  String.mk (Char.ofNat 34 :: (s.data.flatMap quoteChar ++ [Char.ofNat 34]))

/-- The method `Error()` of an error value, with the context pairs in insertion order: one of
the orders in which Go may visit the context map (`GoError.Errors` lists them all). -/
def GoError.Error : GoError → String
  | .nil => "<nil>"
  | .EOF => "EOF"
  | .ErrUnexpectedEOF => "unexpected EOF"
  | .PathError op path err => op ++ " " ++ path ++ ": " ++ err
  | .NumError fn num err => "strconv." ++ fn ++ ": parsing " ++ strconvQuote num ++ ": " ++ err
  | .Backup cause m c ctx =>
    "[" ++ c.String ++ "] " ++ m ++ formatContext ctx ++
      (match cause with
        | .nil => ""
        | e => ": " ++ e.Error)

/-! ## Header and record (`txnlog.go`) -/

structure TxnLogHeader where
  Magic : Nat
  Version : Nat
  DbId : Nat
  deriving DecidableEq, Repr

structure Transaction where
  Length : Int
  Data : List Byte
  Checksum : Int
  ClientId : Int
  Cxid : Int
  Zxid : ZXID
  Timestamp : Int
  TxnType : Int
  deriving DecidableEq, Repr

/-- The zero value `&Transaction{}`. -/
def Transaction.zero : Transaction :=
  ⟨0, [], 0, 0, 0, 0, 0, 0⟩

/-- The method `(*Transaction).parse`: the error, and the record after the call. -/
def Transaction.parse (t : Transaction) : Except GoError Transaction :=
  if t.Data.length < 32 then
    .error ((NewCorruptionError "invalid data length").WithContext "length"
      (.int t.Data.length))
  else
    .ok { t with
      ClientId := toInt64 (beUint (slice t.Data 0 8))
      Cxid := toInt32 (beUint (slice t.Data 8 12))
      Zxid := beUint (slice t.Data 12 20)
      Timestamp := toInt64 (beUint (slice t.Data 20 28))
      TxnType := toInt32 (beUint (slice t.Data 28 32)) }

/-! ## Writer -/

structure TxnLogWriter where
  path : String
  file : List Byte
  deriving DecidableEq, Repr

/-- The method `(*TxnLogWriter).writeHeader`. -/
def TxnLogWriter.writeHeader (w : TxnLogWriter) (header : TxnLogHeader) :
    GoError × TxnLogWriter :=
  let w1 := { w with file := w.file ++ bePut 4 (header.Magic % 2 ^ 32) }
  let w2 := { w1 with file := w1.file ++ bePut 4 (header.Version % 2 ^ 32) }
  let w3 := { w2 with file := w2.file ++ bePut 8 (header.DbId % 2 ^ 64) }
  (.nil, w3)

/-- The function `CreateTxnLog`: `os.Create` gives an empty file, then the header is written. -/
def CreateTxnLog (path : String) (header : TxnLogHeader) : Except GoError TxnLogWriter :=
  let writer : TxnLogWriter := { path := path, file := [] }
  match writer.writeHeader header with
  | (.nil, w) => .ok w
  | (err, _) => .error err

/-- The method `(*TxnLogWriter).WriteTransaction`. -/
def TxnLogWriter.WriteTransaction (w : TxnLogWriter) (txn : Transaction) :
    GoError × TxnLogWriter :=
  let w1 := { w with file := w.file ++ bePut 8 (ofInt64 txn.Checksum) }
  let w2 := { w1 with file := w1.file ++ bePut 4 (ofInt32 txn.Length) }
  let w3 := { w2 with file := w2.file ++ txn.Data }
  (.nil, w3)

/-- The method `(*TxnLogWriter).Sync`. -/
def TxnLogWriter.Sync (_w : TxnLogWriter) : GoError := .nil

/-! ## Reader -/

structure TxnLogReader where
  path : String
  rest : List Byte
  pos : Nat
  header : TxnLogHeader
  deriving DecidableEq, Repr

/-- The call `io.ReadFull(r.file, buf)` with `len(buf) = n`, which is also what
`binary.Read` does for a fixed-size value of `n` bytes. -/
def TxnLogReader.readFull (r : TxnLogReader) (n : Nat) :
    Except GoError (List Byte) × TxnLogReader :=
  if n = 0 then (.ok [], r)
  else if r.rest.length = 0 then (.error .EOF, r)
  else if r.rest.length < n then
    (.error .ErrUnexpectedEOF, { r with rest := [], pos := r.pos + r.rest.length })
  else (.ok (r.rest.take n), { r with rest := r.rest.drop n, pos := r.pos + n })

/-- The method `(*TxnLogReader).CurrentPosition`. -/
def TxnLogReader.CurrentPosition (r : TxnLogReader) : Nat := r.pos

/-- The method `(*TxnLogReader).Header`. -/
def TxnLogReader.Header (r : TxnLogReader) : TxnLogHeader := r.header

/-- The method `(*TxnLogReader).readHeader`. -/
def TxnLogReader.readHeader (r : TxnLogReader) : GoError × TxnLogReader :=
  let r := { r with header := ⟨0, 0, 0⟩ }
  match r.readFull 4 with
  | (.error err, r1) =>
    if err = .EOF then
      ((NewCorruptionError "empty file").WithContext "path" (.str r.path), r1)
    else
      (((NewIOError "failed to read magic").WithError err).WithContext "path" (.str r.path), r1)
  | (.ok bs, r1) =>
    let r1 := { r1 with header := { r1.header with Magic := beUint bs } }
    if r1.header.Magic ≠ MagicNumber then
      ((((NewCorruptionError "invalid magic number").WithContext "path" (.str r.path)).WithContext
        "magic" (.int r1.header.Magic)).WithContext "expected" (.int MagicNumber), r1)
    else
      match r1.readFull 4 with
      | (.error err, r2) =>
        (((NewIOError "failed to read version").WithError err).WithContext "path" (.str r.path),
          r2)
      | (.ok bs, r2) =>
        let r2 := { r2 with header := { r2.header with Version := beUint bs } }
        if r2.header.Version ≠ LogVersion then
          ((((NewCorruptionError "unsupported version").WithContext "path"
            (.str r.path)).WithContext "version" (.int r2.header.Version)).WithContext
            "expected" (.int LogVersion), r2)
        else
          match r2.readFull 8 with
          | (.error err, r3) =>
            (((NewIOError "failed to read dbid").WithError err).WithContext "path"
              (.str r.path), r3)
          | (.ok bs, r3) =>
            (.nil, { r3 with header := { r3.header with DbId := beUint bs } })

/-- The function `OpenTxnLog`; `file` is the content of the file at `path`, `none`
when there is no such file. -/
def OpenTxnLog (path : String) (file : Option (List Byte)) : Except GoError TxnLogReader :=
  match file with
  | none =>
    .error (((NewIOError "failed to open txnlog").WithError
      (.PathError "open" path "no such file or directory")).WithContext "path" (.str path))
  | some content =>
    let reader : TxnLogReader := { path := path, rest := content, pos := 0, header := ⟨0, 0, 0⟩ }
    match reader.readHeader with
    | (.nil, r) => .ok r
    | (err, _) => .error err

/-- The method `(*TxnLogReader).ReadTransaction`. -/
def TxnLogReader.ReadTransaction (r : TxnLogReader) :
    Except GoError Transaction × TxnLogReader :=
  let txn := Transaction.zero
  match r.readFull 8 with
  | (.error err, r1) => (.error err, r1)
  | (.ok cs, r1) =>
    let txn := { txn with Checksum := toInt64 (beUint cs) }
    match r1.readFull 4 with
    | (.error _, r2) =>
      (.error ((NewCorruptionError "failed to read length").WithContext "path" (.str r.path)), r2)
    | (.ok ls, r2) =>
      let txn := { txn with Length := toInt32 (beUint ls) }
      if (txn.Length ≤ (0 : Int)) ∨ (txn.Length > MaxRecordSize) then
        (.error ((((NewCorruptionError "invalid record length").WithContext "path"
          (.str r.path)).WithContext "length" (.int txn.Length)).WithContext "max"
          (.int MaxRecordSize)), r2)
      else
        match r2.readFull txn.Length.toNat with
        | (.error _, r3) =>
          (.error (((NewCorruptionError "failed to read body").WithContext "path"
            (.str r.path)).WithContext "length" (.int txn.Length)), r3)
        | (.ok data, r3) =>
          let txn := { txn with Data := data }
          let calculated : Int := (adler32Checksum txn.Data : Nat)
          if calculated ≠ txn.Checksum then
            (.error ((((NewCorruptionError "checksum mismatch").WithContext "path"
              (.str r.path)).WithContext "expected" (.int txn.Checksum)).WithContext
              "calculated" (.int calculated)), r3)
          else
            match txn.parse with
            | .error err =>
              (.error (((NewCorruptionError "failed to parse transaction").WithError
                err).WithContext "path" (.str r.path)), r3)
            | .ok txn => (.ok txn, r3)

/-! ## Validation (`validator.go`, `txnlog.go`) -/

structure ValidationResult where
  IsValid : Bool
  ValidTransactionCount : Nat
  LastValidPos : Nat
  LastValidZxid : ZXID
  CorruptionType : String
  Transactions : List ZXID
  deriving DecidableEq, Repr

/-- The `for` loop of `ValidateTxnLog`.  The index expression
`result.Transactions[txnCount-1]` is in range whenever it is evaluated, the
slice having `txnCount` elements. -/
def validateLoop : Nat → TxnLogReader → ValidationResult → Nat → Option ValidationResult
  | 0, _, _, _ => none
  | fuel + 1, reader, result, txnCount =>
    let pos := reader.CurrentPosition
    match reader.ReadTransaction with
    | (.error err, _) =>
      if err = .EOF then some result
      else
        let result := { result with
          IsValid := false
          LastValidPos := pos
          CorruptionType := err.Error }
        if txnCount > 0 then
          some { result with LastValidZxid := result.Transactions.getD (txnCount - 1) 0 }
        else some result
    | (.ok txn, reader) =>
      let txnCount := txnCount + 1
      validateLoop fuel reader
        { result with
          ValidTransactionCount := txnCount
          LastValidPos := pos
          LastValidZxid := txn.Zxid
          Transactions := result.Transactions ++ [txn.Zxid] }
        txnCount

/-- The function `ValidateTxnLog` on the file at `path` (`none`: no such file). -/
def ValidateTxnLog (path : String) (file : Option (List Byte)) :
    Option (Except GoError ValidationResult) :=
  match OpenTxnLog path file with
  | .error err =>
    some (.error (((NewIOError "failed to open log").WithError err).WithContext "path"
      (.str path)))
  | .ok reader =>
    let result : ValidationResult :=
      { IsValid := true, ValidTransactionCount := 0, LastValidPos := 0, LastValidZxid := 0,
        CorruptionType := "", Transactions := [] }
    (validateLoop (reader.rest.length + 1) reader result 0).map .ok

/-! ## Filtered copy and repair (`txnlog.go`) -/

/-- What a filtered copy returns (`count`, `err`) and the file it leaves at the
output path (`none`: the call did not create it). -/
structure CopyResult where
  count : Nat
  err : GoError
  output : Option (List Byte)
  deriving DecidableEq, Repr

/-- The `for` loop of `copyTxnLogWithFilter`: `.error` when a write failed, else
the writer and `copiedCount` at the `break`. -/
def copyLoop : Nat → TxnLogReader → TxnLogWriter → (ZXID → Bool) → Nat →
    Option (Except (GoError × TxnLogWriter) (TxnLogWriter × Nat))
  | 0, _, _, _, _ => none
  | fuel + 1, reader, writer, filter, copiedCount =>
    match reader.ReadTransaction with
    | (.error _, _) => some (.ok (writer, copiedCount))
    | (.ok txn, reader) =>
      if !filter txn.Zxid then copyLoop fuel reader writer filter copiedCount
      else
        match writer.WriteTransaction txn with
        | (.nil, writer) => copyLoop fuel reader writer filter (copiedCount + 1)
        | (err, writer) => some (.error (err, writer))

/-- The reader of `copyTxnLogWithFilter` once `CreateTxnLog(outputPath, ...)` has
run.  Two paths name the same file exactly when they are equal.  At different
paths the reader is untouched.  At equal paths `os.Create` has cut the file the
reader holds open and the writer has put the header there, so that what the
reader has left to read is what the new file holds beyond the reader's offset. -/
def readerAfterCreate (inputPath outputPath : String) (reader : TxnLogReader)
    (writer : TxnLogWriter) : TxnLogReader :=
  if outputPath = inputPath then { reader with rest := writer.file.drop reader.pos }
  else reader

/-- The function `copyTxnLogWithFilter`; `input` is the file at `inputPath` before
the call.  At equal paths the reader is at offset 16 of a file of 16 bytes when
the loop starts, the first read meets the end of the file and the loop ends
before any write, so that the loop itself never reads what it wrote. -/
def copyTxnLogWithFilter (inputPath outputPath : String) (input : Option (List Byte))
    (filter : ZXID → Bool) : Option CopyResult :=
  match OpenTxnLog inputPath input with
  | .error err => some { count := 0, err := err, output := none }
  | .ok reader =>
    match CreateTxnLog outputPath reader.Header with
    | .error err => some { count := 0, err := err, output := none }
    | .ok writer =>
      let reader := readerAfterCreate inputPath outputPath reader writer
      match copyLoop (reader.rest.length + 1) reader writer filter 0 with
      | none => none
      | some (.error (err, writer)) => some { count := 0, err := err, output := some writer.file }
      | some (.ok (writer, copiedCount)) =>
        if copiedCount = 0 then
          some { count := 0
                 err := (NewUserError "no transactions to copy").WithContext "input_path"
                   (.str inputPath)
                 output := some writer.file }
        else
          match writer.Sync with
          | .nil => some { count := copiedCount, err := .nil, output := some writer.file }
          | err =>
            some { count := 0
                   err := ((NewIOError "failed to sync").WithError err).WithContext
                     "output_path" (.str outputPath)
                   output := some writer.file }

/-- The function `CopyTxnLogUntilZxid`. -/
def CopyTxnLogUntilZxid (inputPath outputPath : String) (input : Option (List Byte))
    (maxZxid : ZXID) : Option CopyResult :=
  copyTxnLogWithFilter inputPath outputPath input (fun zxid => decide (zxid ≤ maxZxid))

/-- The function `CopyTxnLogFromZxid`. -/
def CopyTxnLogFromZxid (inputPath outputPath : String) (input : Option (List Byte))
    (minZxid : ZXID) : Option CopyResult :=
  copyTxnLogWithFilter inputPath outputPath input (fun zxid => decide (zxid ≥ minZxid))

/-- What `RepairTxnLog` returns (`result`, `err`) and the file it leaves at the
output path (`none`: the call did not create it). -/
structure RepairResult where
  result : Option ValidationResult
  err : GoError
  output : Option (List Byte)
  deriving DecidableEq, Repr

/-- The function `RepairTxnLog`; `input` is the file at `inputPath`. -/
def RepairTxnLog (inputPath outputPath : String) (input : Option (List Byte)) :
    Option RepairResult :=
  match ValidateTxnLog inputPath input with
  | none => none
  | some (.error err) => some { result := none, err := err, output := none }
  | some (.ok result) =>
    if result.IsValid then some { result := some result, err := .nil, output := none }
    else if result.ValidTransactionCount = 0 then
      some { result := some result
             err := (NewCorruptionError "no valid transactions found").WithContext "path"
               (.str inputPath)
             output := none }
    else
      match CopyTxnLogUntilZxid inputPath outputPath input result.LastValidZxid with
      | none => none
      | some copied =>
        if copied.err ≠ .nil then
          some { result := some result, err := copied.err, output := copied.output }
        else
          match ValidateTxnLog outputPath copied.output with
          | none => none
          | some (.error err) =>
            some { result := some result
                   err := ((NewIOError "repaired file validation failed").WithError
                     err).WithContext "output_path" (.str outputPath)
                   output := copied.output }
          | some (.ok repairedResult) =>
            if !repairedResult.IsValid then
              some { result := some result
                     err := (NewCorruptionError
                       "repair file validation failed, file still corrupted").WithContext
                       "output_path" (.str outputPath)
                     output := copied.output }
            else some { result := some repairedResult, err := .nil, output := copied.output }

/-! ## Files written by the writer, and what is read back -/

/-- The sixteen bytes `writeHeader` emits for `h`. -/
def headerBytes (h : TxnLogHeader) : List Byte :=
  bePut 4 (h.Magic % 2 ^ 32) ++ bePut 4 (h.Version % 2 ^ 32) ++ bePut 8 (h.DbId % 2 ^ 64)

/-- The frame `WriteTransaction` emits for `t`: checksum, length, body. -/
def frame (t : Transaction) : List Byte :=
  bePut 8 (ofInt64 t.Checksum) ++ bePut 4 (ofInt32 t.Length) ++ t.Data

/-- The frames of a list of records, one after the other. -/
def frames : List Transaction → List Byte
  | [] => []
  | t :: ts => frame t ++ frames ts

/-- A header the reader accepts: the magic number, version 2, a 64-bit `db_id`. -/
def TxnLogHeader.valid (h : TxnLogHeader) : Prop :=
  h.Magic = MagicNumber ∧ h.Version = LogVersion ∧ h.DbId < 2 ^ 64

instance (h : TxnLogHeader) : Decidable h.valid :=
  inferInstanceAs (Decidable (_ ∧ _ ∧ _))

/-- A record whose `Length` is the byte count of its body, whose body has between
32 bytes and `MaxRecordSize` bytes, and whose `Checksum` is the Adler-32 of the body. -/
def Transaction.wellFormed (t : Transaction) : Prop :=
  t.Length = (t.Data.length : Int) ∧ 32 ≤ t.Data.length ∧
    (t.Data.length : Int) ≤ MaxRecordSize ∧ t.Checksum = (adler32Checksum t.Data : Int)

instance (t : Transaction) : Decidable t.wellFormed :=
  inferInstanceAs (Decidable (_ ∧ _ ∧ _ ∧ _))

/-- The record with the checksum, length and body of `R` and the five meta fields
decoded from the body of `R`. -/
def Transaction.readBack (R : Transaction) : Transaction :=
  { Length := R.Length
    Data := R.Data
    Checksum := R.Checksum
    ClientId := toInt64 (beUint (slice R.Data 0 8))
    Cxid := toInt32 (beUint (slice R.Data 8 12))
    Zxid := beUint (slice R.Data 12 20)
    Timestamp := toInt64 (beUint (slice R.Data 20 28))
    TxnType := toInt32 (beUint (slice R.Data 28 32)) }

/-- Successive calls of `WriteTransaction`, stopping at the first error. -/
def writeAll (w : TxnLogWriter) : List Transaction → GoError × TxnLogWriter
  | [] => (.nil, w)
  | t :: ts =>
    match w.WriteTransaction t with
    | (.nil, w) => writeAll w ts
    | (err, w) => (err, w)

/-- The file left by `CreateTxnLog` followed by `WriteTransaction` on each record. -/
def writeLog (path : String) (h : TxnLogHeader) (ts : List Transaction) :
    Except GoError (List Byte) :=
  match CreateTxnLog path h with
  | .error err => .error err
  | .ok w =>
    match writeAll w ts with
    | (.nil, w) => .ok w.file
    | (err, _) => .error err

/-- The results of `n` successive calls of `ReadTransaction`. -/
def readTimes : Nat → TxnLogReader → List (Except GoError Transaction)
  | 0, _ => []
  | n + 1, r => (r.ReadTransaction).1 :: readTimes n (r.ReadTransaction).2

/-- One successful iteration of the loop of `ValidateTxnLog` on the record `t`,
acting on the triple (result, reader offset, `txnCount`). -/
def validateStep (s : ValidationResult × Nat × Nat) (t : Transaction) :
    ValidationResult × Nat × Nat :=
  ({ s.1 with
      ValidTransactionCount := s.2.2 + 1
      LastValidPos := s.2.1
      LastValidZxid := t.Zxid
      Transactions := s.1.Transactions ++ [t.Zxid] },
    s.2.1 + 8 + 4 + t.Data.length,
    s.2.2 + 1)

/-- The result with which `ValidateTxnLog` enters its loop. -/
def initialResult : ValidationResult :=
  { IsValid := true, ValidTransactionCount := 0, LastValidPos := 0, LastValidZxid := 0,
    CorruptionType := "", Transactions := [] }

/-! ## Sample inputs -/

/-- A header with `db_id` 12345. -/
def sampleHeader : TxnLogHeader := ⟨MagicNumber, LogVersion, 12345⟩

/-- A 32-byte body: client 1, cxid 1, the given ZXID, timestamp 1000, type 1. -/
def sampleBody (zxid : ZXID) : List Byte :=
  bePut 8 1 ++ bePut 4 1 ++ bePut 8 zxid ++ bePut 8 1000 ++ bePut 4 1

/-- The record a caller builds for `sampleBody zxid`: length 32, Adler-32 checksum. -/
def sampleRecord (zxid : ZXID) : Transaction :=
  { Length := 32
    Data := sampleBody zxid
    Checksum := (adler32Checksum (sampleBody zxid) : Nat)
    ClientId := 1
    Cxid := 1
    Zxid := zxid
    Timestamp := 1000
    TxnType := 1 }

/-- Write the records to a new file with `CreateTxnLog` and `WriteTransaction`,
reopen the file with `OpenTxnLog` and call `ReadTransaction` `n` times. -/
def writeThenRead (path : String) (h : TxnLogHeader) (ts : List Transaction) (n : Nat) :
    Except GoError (List (Except GoError Transaction)) :=
  match writeLog path h ts with
  | .error err => .error err
  | .ok file =>
    match OpenTxnLog path (some file) with
    | .error err => .error err
    | .ok reader => .ok (readTimes n reader)

/-- A record whose `Length` field (33) is not the byte count of its 32-byte body. -/
def mislabelledRecord : Transaction :=
  { sampleRecord 256 with Length := 33 }

/-- A record whose body has 10485761 bytes, one more than `MaxRecordSize`. -/
def oversizedRecord : Transaction :=
  { Length := 10485761
    Data := List.replicate 10485761 0
    Checksum := (adler32Checksum (List.replicate 10485761 0) : Nat)
    ClientId := 0
    Cxid := 0
    Zxid := 0
    Timestamp := 0
    TxnType := 0 }

/-- The sample record 256 with `2 ^ 32` added to its stored checksum: the low 32
bits of the checksum are the Adler-32 of the body, the 64-bit value is not. -/
def highBitsRecord : Transaction :=
  { sampleRecord 256 with Checksum := (adler32Checksum (sampleBody 256) : Nat) + 2 ^ 32 }

/-- The sample record 256 with the stored checksum 99999. -/
def wrongChecksumRecord : Transaction :=
  { sampleRecord 256 with Checksum := 99999 }

/-- A record with a ten-byte body, its length and its Adler-32 checksum. -/
def shortRecord : Transaction :=
  { Length := 10
    Data := bePut 10 0
    Checksum := (adler32Checksum (bePut 10 0) : Nat)
    ClientId := 0
    Cxid := 0
    Zxid := 0
    Timestamp := 0
    TxnType := 0 }

/-! ## File names (`zxid.go`)

The standard-library string functions used by `zxid.go` are written out on lists of
characters: `filepath.Base` (Unix separator), `strings.Split` with a one-character separator,
`strconv.ParseUint` for a base between 2 and 36, and the verb `%x` of `fmt.Sprintf`. -/

inductive FileType where
  | TxnLog
  | Snapshot
  | Unknown
  deriving DecidableEq, Repr

/-- Lower-case hexadecimal digits of `n`, least significant first; `fuel` bounds their number. -/
def hexDigitsRev : Nat → Nat → List Char
  | 0, _ => []
  | fuel + 1, n =>
    Nat.digitChar (n % 16) :: (if n / 16 = 0 then [] else hexDigitsRev fuel (n / 16))

/-- The text `fmt.Sprintf("%x", v)` of a `uint64` value (at most 16 digits). -/
def fmtHex (v : Nat) : List Char := (hexDigitsRev 16 v).reverse

/-- The method `ZXID.Hex`: `fmt.Sprintf("%x", uint64(z))`. -/
def ZXID.Hex (z : ZXID) : String := String.mk (fmtHex (z % 2 ^ 64))

/-- The characters of `filepath.Base path`: `"."` for the empty path, else the trailing
slashes are stripped and the part after the last remaining slash is kept, `"/"` when nothing
remains. -/
def baseChars (path : List Char) : List Char :=
  if path = [] then ['.']
  else
    let stripped := (path.reverse.dropWhile fun c => c = '/').reverse
    let last := (stripped.reverse.takeWhile fun c => c ≠ '/').reverse
    if last = [] then ['/'] else last

/-- The library function `filepath.Base`. -/
def filepath.Base (path : String) : String := String.mk (baseChars path.data)

/-- The pieces of a character list between the occurrences of `sep`. -/
def splitChars (sep : Char) : List Char → List (List Char)
  | [] => [[]]
  | c :: cs =>
    if c = sep then [] :: splitChars sep cs
    else
      match splitChars sep cs with
      | [] => [[c]]
      | p :: ps => (c :: p) :: ps

/-- The library function `strings.Split` for a separator of one character. -/
def strings.Split (s : String) (sep : Char) : List String :=
  (splitChars sep s.data).map String.mk

/-- The library function `strings.HasPrefix`. -/
def strings.HasPrefix (s pre : String) : Bool := pre.data.isPrefixOf s.data

/-- The error `strconv.syntaxError fn str`. -/
def syntaxError (fn str : String) : GoError := .NumError fn str "invalid syntax"

/-- The error `strconv.rangeError fn str`. -/
def rangeError (fn str : String) : GoError := .NumError fn str "value out of range"

/-- The digit value `strconv.ParseUint` gives to one input byte: `c - 48` for a decimal digit,
`lower(c) - 97 + 10` when `lower(c) = c | 0x20` is a letter, none in the default branch.  The
bytes of a character above the ASCII range are all above 127 and fall in the default branch. -/
def digitVal (c : Char) : Option Nat :=
  let n := c.toNat
  if 48 ≤ n ∧ n ≤ 57 then some (n - 48)
  else if n < 128 ∧ 97 ≤ (n ||| 32) ∧ (n ||| 32) ≤ 122 then some ((n ||| 32) - 97 + 10)
  else none

/-- The digit loop of `strconv.ParseUint`; `n` is the `uint64` accumulator. -/
def parseUintLoop (s0 : String) (base cutoff maxVal : Nat) : List Char → Nat → Nat × GoError
  | [], n => (n, .nil)
  | c :: cs, n =>
    match digitVal c with
    | none => (0, syntaxError "ParseUint" s0)
    | some d =>
      if d ≥ base then (0, syntaxError "ParseUint" s0)
      else if n ≥ cutoff then (maxVal, rangeError "ParseUint" s0)
      else
        let n16 := n * base % 2 ^ 64
        let n1 := (n16 + d) % 2 ^ 64
        if n1 < n16 ∨ n1 > maxVal then (maxVal, rangeError "ParseUint" s0)
        else parseUintLoop s0 base cutoff maxVal cs n1

/-- The library function `strconv.ParseUint(s, base, bitSize)` for `2 ≤ base ≤ 36` and
`1 ≤ bitSize ≤ 64`. -/
def strconv.ParseUint (s : String) (base bitSize : Nat) : Nat × GoError :=
  if s = "" then (0, syntaxError "ParseUint" s)
  else
    let cutoff := (2 ^ 64 - 1) / base + 1
    let maxVal := (2 ^ bitSize % 2 ^ 64 + (2 ^ 64 - 1)) % 2 ^ 64
    parseUintLoop s base cutoff maxVal s.data 0

def DetermineFileType (filename : String) : FileType :=
  let base := filepath.Base filename
  if strings.HasPrefix base "log." then .TxnLog
  else if strings.HasPrefix base "snapshot." then .Snapshot
  else .Unknown

def FormatZxidFileName (fileType : FileType) (zxid : ZXID) : String :=
  match fileType with
  | .TxnLog => "log." ++ ZXID.Hex zxid
  | .Snapshot => "snapshot." ++ ZXID.Hex zxid
  | .Unknown => ""

def ParseZxidFromFileName (filename : String) : ZXID × GoError :=
  let base := filepath.Base filename
  let parts := strings.Split base '.'
  if parts.length < 2 then
    (0, (NewUserError "invalid file name").WithContext "filename" (.str filename))
  else
    let zxidStr := parts.getD (parts.length - 1) ""
    let r := strconv.ParseUint zxidStr 16 64
    if r.2 ≠ .nil then
      (0, (((NewUserError "failed to parse zxid").WithError r.2).WithContext
        "filename" (.str filename)).WithContext "zxid_str" (.str zxidStr))
    else (r.1, .nil)

/-! ### Reading of the file-name grammar

The words of the specification for the text after the last dot: a hexadecimal digit in either
case, and the base-16 value of a string of such digits. -/

/-- A hexadecimal digit, upper or lower case. -/
def isHexDigit (c : Char) : Prop :=
  ('0'.toNat ≤ c.toNat ∧ c.toNat ≤ '9'.toNat) ∨ ('a'.toNat ≤ c.toNat ∧ c.toNat ≤ 'f'.toNat) ∨
    ('A'.toNat ≤ c.toNat ∧ c.toNat ≤ 'F'.toNat)

instance (c : Char) : Decidable (isHexDigit c) := by
  unfold isHexDigit; infer_instance

/-- The value of a hexadecimal digit. -/
def hexDigitValue (c : Char) : Nat :=
  if c.toNat ≤ '9'.toNat then c.toNat - '0'.toNat
  else if 'a'.toNat ≤ c.toNat then c.toNat - 'a'.toNat + 10
  else c.toNat - 'A'.toNat + 10

/-- The base-16 value of the digits `s` read after an accumulated value `n`. -/
def hexValueFrom (n : Nat) (s : List Char) : Nat :=
  s.foldl (fun a c => 16 * a + hexDigitValue c) n

/-- The base-16 value of a string of hexadecimal digits. -/
def hexValue (s : List Char) : Nat := hexValueFrom 0 s

/-! ## Files and directories (`file_utils.go`, `snapshot.go`, `txnlog.go`)

A file at a path is its content, `none` when there is no such file; a directory is the list
of its entries as `os.ReadDir` returns them, `none` when there is no such directory.
Failures of the operating system other than a missing file or directory are not modelled. -/

/-- The struct `FileInfo`. -/
structure FileInfo where
  Size : Nat
  Path : String
  Name : String
  deriving DecidableEq, Repr

/-- The size that `os.Stat(path)` reports, or its error for a missing file. -/
def osStat (path : String) (file : Option (List Byte)) : Except GoError Nat :=
  match file with
  | none => .error (.PathError "stat" path "no such file or directory")
  | some content => .ok content.length

def GetFileInfo (path : String) (file : Option (List Byte)) : Except GoError FileInfo :=
  match osStat path file with
  | .error err =>
    .error (((NewIOError "failed to stat file").WithError err).WithContext "path" (.str path))
  | .ok size => .ok { Path := path, Name := filepath.Base path, Size := size }

def ValidateSnapshot (path : String) (file : Option (List Byte)) : GoError :=
  match GetFileInfo path file with
  | .error err => err
  | .ok info =>
    if info.Size = 0 then
      (NewCorruptionError "empty snapshot file").WithContext "path" (.str path)
    else .nil

/-- The struct `TxnLogInfo`. -/
structure TxnLogInfo where
  Name : String
  StartZxid : ZXID
  EndZxid : ZXID
  Size : Nat
  Status : String
  TransactionCount : Nat
  Note : String
  deriving DecidableEq, Repr

/-- The function `GetTxnLogInfo`; `file` is the file at `path`. -/
def GetTxnLogInfo (path : String) (file : Option (List Byte)) :
    Option (Except GoError TxnLogInfo) :=
  match osStat path file with
  | .error err =>
    some (.error (((NewIOError "failed to stat file").WithError err).WithContext "path"
      (.str path)))
  | .ok size =>
    let parsed := ParseZxidFromFileName path
    let startZxid := parsed.1
    if parsed.2 ≠ .nil then some (.error parsed.2)
    else
      match ValidateTxnLog path file with
      | none => none
      | some (.error err) => some (.error err)
      | some (.ok result) =>
        let status := if !result.IsValid then "corrupted" else "valid"
        let endZxid :=
          if result.Transactions.length > 0 then
            result.Transactions.getD (result.Transactions.length - 1) 0
          else startZxid
        some (.ok { Name := filepath.Base path, StartZxid := startZxid, EndZxid := endZxid,
                    Size := size, Status := status,
                    TransactionCount := result.ValidTransactionCount, Note := "" })

/-- A directory entry (`os.DirEntry`): its name and whether it is a directory. -/
structure DirEntry where
  Name : String
  IsDir : Bool
  deriving DecidableEq, Repr

/-- The result of `os.ReadDir(dir)`. -/
def osReadDir (dir : String) (entries : Option (List DirEntry)) :
    Except GoError (List DirEntry) :=
  match entries with
  | none => .error (.PathError "open" dir "no such file or directory")
  | some es => .ok es

/-- The two library functions that enter through their contracts only: `filepath.Join` of two
elements, and `sort.Slice` with the comparison given on the elements instead of their
indices. -/
structure Lib where
  Join : String → String → String
  SortSlice : List String → (String → String → Bool) → List String

/-- The contract of `sort.Slice` for a comparison by a numeric key: the result is a
rearrangement of the slice in which the keys do not decrease.  Equal keys may come in any
order (the sort is not stable). -/
def Lib.sortsByKey (lib : Lib) : Prop :=
  ∀ (key : String → Nat) (l : List String),
    (lib.SortSlice l fun a b => decide (key a < key b)).Perm l ∧
    (lib.SortSlice l fun a b => decide (key a < key b)).Pairwise fun a b => key a ≤ key b

/-- The contract of `filepath.Join` for the name of a directory entry: the last element of
the joined path is that name. -/
def Lib.joinKeepsName (lib : Lib) (dir name : String) : Prop :=
  filepath.Base (lib.Join dir name) = name

/-- The comparison closure handed to `sort.Slice` by the two listing functions; parse errors
are dropped, leaving ZXID 0. -/
def zxidLess (a b : String) : Bool :=
  decide ((ParseZxidFromFileName a).1 < (ParseZxidFromFileName b).1)

/-- The function `ListTxnLogFiles`; `entries` is the directory at `dir`. -/
def ListTxnLogFiles (lib : Lib) (dir : String) (entries : Option (List DirEntry)) :
    Except GoError (List String) :=
  match osReadDir dir entries with
  | .error err =>
    .error (((NewIOError "failed to read directory").WithError err).WithContext "dir"
      (.str dir))
  | .ok es =>
    let txnlogs := (es.filter fun entry =>
      !entry.IsDir && strings.HasPrefix entry.Name "log.").map fun entry =>
        lib.Join dir entry.Name
    .ok (lib.SortSlice txnlogs zxidLess)

/-- The function `ListSnapshotFiles`; `entries` is the directory at `dir`. -/
def ListSnapshotFiles (lib : Lib) (dir : String) (entries : Option (List DirEntry)) :
    Except GoError (List String) :=
  match osReadDir dir entries with
  | .error err =>
    .error (((NewIOError "failed to read directory").WithError err).WithContext "dir"
      (.str dir))
  | .ok es =>
    let snapshots := (es.filter fun entry =>
      !entry.IsDir && strings.HasPrefix entry.Name "snapshot.").map fun entry =>
        lib.Join dir entry.Name
    .ok (lib.SortSlice snapshots zxidLess)

/-- The function `GetLatestSnapshot`: the path, its ZXID and the error. -/
def GetLatestSnapshot (lib : Lib) (dir : String) (entries : Option (List DirEntry)) :
    String × ZXID × GoError :=
  match ListSnapshotFiles lib dir entries with
  | .error err => ("", 0, err)
  | .ok snapshots =>
    if snapshots.length = 0 then
      ("", 0, (NewIOError "no snapshot files found").WithContext "dir" (.str dir))
    else
      let latest := snapshots.getD (snapshots.length - 1) ""
      let parsed := ParseZxidFromFileName latest
      if parsed.2 ≠ .nil then ("", 0, parsed.2) else (latest, parsed.1, .nil)

/-- The files and directories that the engines work on. -/
structure FileSystem where
  file : String → Option (List Byte)
  dir : String → Option (List DirEntry)

/-- The file system with `content` written at `path`.  Directory listings are left as they
were. -/
def FileSystem.write (fs : FileSystem) (path : String) (content : List Byte) : FileSystem :=
  { fs with file := fun p => if p = path then some content else fs.file p }

/-- The function `CopyFile`: the destination receives the bytes of the source. -/
def CopyFile (fs : FileSystem) (src dst : String) : GoError × FileSystem :=
  match fs.file src with
  | none =>
    (((NewIOError "failed to open source file").WithError
      (.PathError "open" src "no such file or directory")).WithContext "src" (.str src), fs)
  | some content => (.nil, fs.write dst content)

def RemoveFile (fs : FileSystem) (path : String) : GoError × FileSystem :=
  match fs.file path with
  | none =>
    (((NewIOError "failed to remove file").WithError
      (.PathError "remove" path "no such file or directory")).WithContext "path" (.str path),
      fs)
  | some _ => (.nil, { fs with file := fun p => if p = path then none else fs.file p })

/-! ## Validation of a backup (`validator.go`) -/

/-- Assignment `results[key] = value` on a map kept as an association list. -/
def mapSet {α : Type} : List (String × α) → String → α → List (String × α)
  | [], k, v => [(k, v)]
  | (k', v') :: rest, k, v =>
    if k' = k then (k, v) :: rest else (k', v') :: mapSet rest k v

/-- The loop of `ValidateBackupFiles` over the transaction logs. -/
def validateTxnLogs (fs : FileSystem) :
    List String → List (String × ValidationResult) →
      Option (Except GoError (List (String × ValidationResult)))
  | [], results => some (.ok results)
  | txnlog :: rest, results =>
    match ValidateTxnLog txnlog (fs.file txnlog) with
    | none => none
    | some (.error err) => some (.error err)
    | some (.ok result) => validateTxnLogs fs rest (mapSet results txnlog result)

/-- The loop of `ValidateBackupFiles` over the snapshots. -/
def validateSnapshots (fs : FileSystem) :
    List String → List (String × ValidationResult) → List (String × ValidationResult)
  | [], results => results
  | snapshot :: rest, results =>
    let err := ValidateSnapshot snapshot (fs.file snapshot)
    if err = .nil then
      validateSnapshots fs rest (mapSet results snapshot
        { IsValid := true, ValidTransactionCount := 0, LastValidPos := 0, LastValidZxid := 0,
          CorruptionType := "", Transactions := [] })
    else
      validateSnapshots fs rest (mapSet results snapshot
        { IsValid := false, ValidTransactionCount := 0, LastValidPos := 0, LastValidZxid := 0,
          CorruptionType := err.Error, Transactions := [] })

/-- The function `ValidateBackupFiles`; the result map is an association list in insertion
order. -/
def ValidateBackupFiles (lib : Lib) (fs : FileSystem) (snapshotDir txnlogDir : String) :
    Option (Except GoError (List (String × ValidationResult))) :=
  match ListTxnLogFiles lib txnlogDir (fs.dir txnlogDir) with
  | .error err => some (.error err)
  | .ok txnlogs =>
    match ListSnapshotFiles lib snapshotDir (fs.dir snapshotDir) with
    | .error err => some (.error err)
    | .ok snapshots =>
      match validateTxnLogs fs txnlogs [] with
      | none => none
      | some (.error err) => some (.error err)
      | some (.ok results) => some (.ok (validateSnapshots fs snapshots results))

/-! ## Engines (`engine/backup.go`, `engine/restore.go`) -/

/-- The counters that `UpdateValidation` stores in the backup information. -/
structure ValidationInfo where
  TotalFiles : Nat
  ValidFiles : Nat
  CorruptedFiles : Nat
  RepairedFiles : Nat
  deriving DecidableEq, Repr

/-- The loop of `BackupEngine.verifyBackup` over the results, visited in list order (Go leaves
the order of a map unspecified).  The counters are `validFiles`, `repairedFiles` and
`corruptedFiles`. -/
def verifyLoop : List (String × ValidationResult) → Nat → Nat → Nat → FileSystem →
    Option (Nat × Nat × Nat × FileSystem)
  | [], validFiles, repairedFiles, corruptedFiles, fs =>
    some (validFiles, repairedFiles, corruptedFiles, fs)
  | (path, result) :: rest, validFiles, repairedFiles, corruptedFiles, fs =>
    if result.IsValid then verifyLoop rest (validFiles + 1) repairedFiles corruptedFiles fs
    else if DetermineFileType path = .TxnLog then
      let repairedPath := path ++ ".repaired"
      match RepairTxnLog path repairedPath (fs.file path) with
      | none => none
      | some repair =>
        let fs1 :=
          match repair.output with
          | some out => fs.write repairedPath out
          | none => fs
        if repair.err = .nil then
          let fs2 := (RemoveFile fs1 path).2
          let fs3 := (CopyFile fs2 repairedPath path).2
          let fs4 := (RemoveFile fs3 repairedPath).2
          verifyLoop rest validFiles (repairedFiles + 1) (corruptedFiles + 1) fs4
        else verifyLoop rest validFiles repairedFiles (corruptedFiles + 1) fs1
    else verifyLoop rest validFiles repairedFiles (corruptedFiles + 1) fs

/-- The method `BackupEngine.verifyBackup`: its error, or the validation counters it stores
and the files it leaves. -/
def verifyBackup (lib : Lib) (fs : FileSystem) (backupDir : String) :
    Option (Except GoError (ValidationInfo × FileSystem)) :=
  let txnlogDir := lib.Join backupDir "txnlogs"
  let snapshotDir := lib.Join backupDir "snapshots"
  match ValidateBackupFiles lib fs snapshotDir txnlogDir with
  | none => none
  | some (.error err) => some (.error err)
  | some (.ok results) =>
    match verifyLoop results 0 0 0 fs with
    | none => none
    | some (validFiles, repairedFiles, corruptedFiles, fs') =>
      some (.ok ({ TotalFiles := validFiles + corruptedFiles, ValidFiles := validFiles,
                   CorruptedFiles := corruptedFiles, RepairedFiles := repairedFiles }, fs'))

/-- The struct `RestoreConfig`. -/
structure RestoreConfig where
  BackupDir : String
  ZkDataDir : String
  ZkLogDir : String
  Force : Bool
  DryRun : Bool
  SkipVerify : Bool
  TruncateToZxid : String
  Verbose : Bool
  deriving DecidableEq, Repr

/-- The loop of `RestoreEngine.restoreTxnLogs`. -/
def restoreLoop (lib : Lib) (config : RestoreConfig) :
    List String → FileSystem → GoError × FileSystem
  | [], fs => (.nil, fs)
  | txnlog :: rest, fs =>
    let dst := lib.Join config.ZkLogDir (filepath.Base txnlog)
    match CopyFile fs txnlog dst with
    | (.nil, fs') => restoreLoop lib config rest fs'
    | (err, fs') => (err, fs')

/-- The method `RestoreEngine.restoreTxnLogs`. -/
def restoreTxnLogs (lib : Lib) (config : RestoreConfig) (fs : FileSystem) :
    GoError × FileSystem :=
  let txnlogDir := lib.Join config.BackupDir "txnlogs"
  match ListTxnLogFiles lib txnlogDir (fs.dir txnlogDir) with
  | .error err => (err, fs)
  | .ok txnlogs => restoreLoop lib config txnlogs fs

/-! ## Closing (`txnlog.go`) -/

/-- An `*os.File` as far as closing goes: its name and whether it was closed. -/
structure OsFile where
  name : String
  closed : Bool
  deriving DecidableEq, Repr

/-- The method `(*os.File).Close`: a second call returns the error `os.ErrClosed` in a
`*PathError`. -/
def OsFile.Close (f : OsFile) : GoError × OsFile :=
  if f.closed then (.PathError "close" f.name "file already closed", f)
  else (.nil, { f with closed := true })

/-- The method `(*TxnLogWriter).Close` on the field `file` (`none` is the nil pointer): the
error and the field after the call. -/
def TxnLogWriter.Close (file : Option OsFile) : GoError × Option OsFile :=
  match file with
  | some f => (f.Close.1, some f.Close.2)
  | none => (.nil, none)

/-- The method `(*TxnLogReader).Close` on the field `file`. -/
def TxnLogReader.Close (file : Option OsFile) : GoError × Option OsFile :=
  match file with
  | some f => (f.Close.1, some f.Close.2)
  | none => (.nil, none)

/-! ## Sample library functions and files -/

/-- An instance of the library functions for evaluations: the join of a clean directory path
and a plain name, and an insertion sort. -/
def sampleLib : Lib :=
  { Join := fun dir name => dir ++ "/" ++ name
    SortSlice := fun l less => l.insertionSort fun a b => less b a = false }

/-- A backup in `/backup` whose only log `log.100` is an empty file. -/
def brokenBackup : FileSystem :=
  { file := fun p => if p = "/backup/txnlogs/log.100" then some [] else none
    dir := fun d =>
      if d = "/backup/txnlogs" then some [⟨"log.100", false⟩]
      else if d = "/backup/snapshots" then some []
      else none }

/-- A backup in `/backup` with no log and the empty snapshot `snapshot.100`. -/
def emptySnapshotBackup : FileSystem :=
  { file := fun p => if p = "/backup/snapshots/snapshot.100" then some [] else none
    dir := fun d =>
      if d = "/backup/txnlogs" then some []
      else if d = "/backup/snapshots" then some [⟨"snapshot.100", false⟩]
      else none }

/-- A backup in `/backup` whose log `log.100` holds the records 256 and 257. -/
def sampleBackup : FileSystem :=
  { file := fun p =>
      if p = "/backup/txnlogs/log.100" then
        some (headerBytes sampleHeader ++ frames [sampleRecord 256, sampleRecord 257])
      else none
    dir := fun d =>
      if d = "/backup/txnlogs" then some [⟨"log.100", false⟩]
      else if d = "/backup/snapshots" then some []
      else none }

/-- A restore of `/backup` into `/zk` with `truncate_to_zxid` set to 0x100. -/
def sampleRestoreConfig : RestoreConfig :=
  { BackupDir := "/backup", ZkDataDir := "/zk/data", ZkLogDir := "/zk/log", Force := true,
    DryRun := false, SkipVerify := true, TruncateToZxid := "100", Verbose := false }

/-! ## The texts of an error, in any order of the context (`errors.go`) -/

/-- The texts that `(*BackupError).Error` may return.  The context is a Go map and `Error`
ranges over it, in an order that Go leaves unspecified: the pairs may come in any
arrangement.  `GoError.Error` is the text with the pairs in insertion order. -/
def GoError.Errors : GoError → List String
  | .Backup cause m c ctx =>
    let causes :=
      match cause with
      | .nil => [""]
      | e => e.Errors.map fun s => ": " ++ s
    ctx.permutations'.flatMap fun p =>
      causes.map fun cs => "[" ++ c.String ++ "] " ++ m ++ formatContext p ++ cs
  | e => [e.Error]

/-! ## Backup metadata (`metadata/backup_info.go`, `metadata/report.go`) -/

/-- The struct `zkfile.SnapshotInfo`. -/
structure SnapshotInfo where
  Name : String
  Zxid : ZXID
  Size : Nat
  Checksum : String
  deriving DecidableEq, Repr

namespace metadata

/-- The struct `ZxidInfo`. -/
structure ZxidInfo where
  Hex : String
  Decimal : Nat
  deriving DecidableEq, Repr

/-- The struct `ZooKeeperInfo`. -/
structure ZooKeeperInfo where
  Version : String
  Host : String
  DataDir : String
  LogDir : String
  deriving DecidableEq, Repr

/-- The struct `FilesInfo`; the slices hold non-nil pointers. -/
structure FilesInfo where
  TxnLogs : List TxnLogInfo
  Snapshots : List SnapshotInfo
  deriving DecidableEq, Repr

/-- The struct `ValidationInfo`. -/
structure ValidationInfo where
  Enabled : Bool
  TotalFiles : Nat
  ValidFiles : Nat
  CorruptedFiles : Nat
  RepairedFiles : Nat
  UnrecoverableFiles : Nat
  deriving DecidableEq, Repr

/-- The struct `StatisticsInfo`.  `DurationSeconds` is a `float64`, kept as its 64 bits; no
function below reads it. -/
structure StatisticsInfo where
  TotalSize : Int
  CompressedSize : Int
  DurationSeconds : Nat
  deriving DecidableEq, Repr

/-- The struct `BackupInfo`.  `BackupTimestamp` is an instant in nanoseconds since the Unix
epoch. -/
structure BackupInfo where
  Version : String
  BackupID : String
  BackupTimestamp : Int
  BackupZxid : ZxidInfo
  ZooKeeper : ZooKeeperInfo
  Files : FilesInfo
  Validation : ValidationInfo
  Statistics : StatisticsInfo
  deriving DecidableEq, Repr

/-- The two functions that the manifest calls and that are not in the source tree: the helper
`utils.FormatBytes` and the library call `Time.Format(time.RFC3339)`. -/
structure Formats where
  FormatBytes : Nat → String
  FormatRFC3339 : Int → String

/-- The line that `GenerateManifest` writes for a snapshot. -/
def snapshotLine (lib : Formats) (s : SnapshotInfo) : String :=
  "- " ++ s.Name ++ " (ZXID: 0x" ++ ZXID.Hex s.Zxid ++ ", Size: " ++ lib.FormatBytes s.Size ++
    ")\n"

/-- The line that `GenerateManifest` writes for a transaction log. -/
def txnLogLine (lib : Formats) (t : TxnLogInfo) : String :=
  "- " ++ t.Name ++ " (ZXID: 0x" ++ ZXID.Hex t.StartZxid ++ " - 0x" ++ ZXID.Hex t.EndZxid ++
    ", Txns: " ++ toString t.TransactionCount ++ ", Size: " ++ lib.FormatBytes t.Size ++
    ", Status: " ++ t.Status ++ ")\n"

/-- The method `(*BackupInfo).GenerateManifest`; `sb` is the string builder. -/
def GenerateManifest (lib : Formats) (bi : BackupInfo) : String :=
  let sb := ""
  let sb := sb ++ "# ZooKeeper Backup Manifest\n\n"
  let sb := sb ++ ("Backup ID: " ++ bi.BackupID ++ "\n")
  let sb := sb ++ ("Timestamp: " ++ lib.FormatRFC3339 bi.BackupTimestamp ++ "\n")
  let sb := sb ++ ("ZXID: 0x" ++ bi.BackupZxid.Hex ++ "\n\n")
  let sb := sb ++ "## Snapshot Files\n\n"
  let sb := bi.Files.Snapshots.foldl (fun sb s => sb ++ snapshotLine lib s) sb
  let sb := sb ++ "\n## TxnLog Files\n\n"
  let sb := bi.Files.TxnLogs.foldl (fun sb t => sb ++ txnLogLine lib t) sb
  sb

end metadata

/-- The call `strings.Contains(s, sub)`, on characters. -/
def strings.Contains (s sub : String) : Prop := sub.data <:+: s.data

instance (s sub : String) : Decidable (strings.Contains s sub) :=
  inferInstanceAs (Decidable (sub.data <:+: s.data))

/-- The lines of a text: the pieces between its line feeds. -/
def textLines (s : String) : List String := strings.Split s '\n'

/-- The quotient `n / d` rounded to the nearest whole number, a half going to the even
neighbour. -/
def roundHalfEven (n d : Nat) : Nat :=
  let q := n / d
  let r := n % d
  if 2 * r < d then q
  else if 2 * r > d then q + 1
  else if q % 2 = 0 then q else q + 1

/-- Modelled from the spec: the helper `utils.FormatBytes`, whose file is not in the source
tree, after spec §6 ("Byte sizes are printed as `<N> B` for < 1 KiB, else `<N.N> <unit>`
with units `KB, MB, GB, TB` (power-of-1024, one decimal)") and the tables of
`TestFormatBytes`.  The decimal is the quotient by the unit rounded to the nearest tenth;
sizes of 1024 TB and more stay in TB. -/
def utils.FormatBytes (bytes : Nat) : String :=
  if bytes < 1024 then toString bytes ++ " B"
  else
    let exp : Nat :=
      if bytes < 1024 ^ 2 then 1 else if bytes < 1024 ^ 3 then 2
      else if bytes < 1024 ^ 4 then 3 else 4
    let unit : String :=
      if exp = 1 then "KB" else if exp = 2 then "MB" else if exp = 3 then "GB" else "TB"
    let tenths := roundHalfEven (bytes * 10) (1024 ^ exp)
    toString (tenths / 10) ++ "." ++ toString (tenths % 10) ++ " " ++ unit

/-- A number in decimal, with zeros in front up to `width` digits. -/
def zeroPad (width n : Nat) : String :=
  String.mk (List.replicate (width - (toString n).length) '0') ++ toString n

/-- The call `t.Format(time.RFC3339)` of the library for an instant `t` in UTC, given in
nanoseconds since the Unix epoch, for the years 0 to 9999: the civil date of the day and the
time of day, with the zone `Z`. -/
def time.FormatRFC3339 (nanos : Int) : String :=
  let secs := nanos.fdiv 1000000000
  let days := secs.fdiv 86400
  let rem := (secs.fmod 86400).toNat
  let z := (days + 719468).toNat
  let era := z / 146097
  let doe := z % 146097
  let yoe := (doe - doe / 1460 + doe / 36524 - doe / 146096) / 365
  let doy := doe - (365 * yoe + yoe / 4 - yoe / 100)
  let mp := (5 * doy + 2) / 153
  let d := doy - (153 * mp + 2) / 5 + 1
  let m := if mp < 10 then mp + 3 else mp - 9
  let y := yoe + era * 400 + (if m ≤ 2 then 1 else 0)
  zeroPad 4 y ++ "-" ++ zeroPad 2 m ++ "-" ++ zeroPad 2 d ++ "T" ++ zeroPad 2 (rem / 3600) ++
    ":" ++ zeroPad 2 (rem / 60 % 60) ++ ":" ++ zeroPad 2 (rem % 60) ++ "Z"

/-- The formats of the manifest: `utils.FormatBytes` and the RFC 3339 text of an instant in
UTC. -/
def sampleFormats : metadata.Formats :=
  { FormatBytes := utils.FormatBytes
    FormatRFC3339 := time.FormatRFC3339 }

/-- The backup information of the manifest test: one snapshot and one log, taken on
1 January 2024 at 00:00:00 UTC. -/
def sampleBackupInfo : metadata.BackupInfo :=
  { Version := "1.0", BackupID := "test-backup-456", BackupTimestamp := 1704067200000000000
    BackupZxid := ⟨"200000000", 0x200000000⟩
    ZooKeeper := ⟨"", "", "", ""⟩
    Files :=
      { TxnLogs := [⟨"log.200000000", 0x200000000, 0x200000020, 10240, "valid", 20, ""⟩]
        Snapshots := [⟨"snapshot.200000000", 0x200000000, 5120, ""⟩] }
    Validation := ⟨true, 0, 0, 0, 0, 0⟩
    Statistics := ⟨0, 0, 0⟩ }

/-- The text of the line that `GenerateManifest` writes for a snapshot, without its line
feed. -/
def metadata.snapshotEntry (lib : metadata.Formats) (s : SnapshotInfo) : String :=
  "- " ++ s.Name ++ " (ZXID: 0x" ++ ZXID.Hex s.Zxid ++ ", Size: " ++ lib.FormatBytes s.Size ++ ")"

/-- The text of the line that `GenerateManifest` writes for a transaction log, without its
line feed. -/
def metadata.txnLogEntry (lib : metadata.Formats) (t : TxnLogInfo) : String :=
  "- " ++ t.Name ++ " (ZXID: 0x" ++ ZXID.Hex t.StartZxid ++ " - 0x" ++ ZXID.Hex t.EndZxid ++
    ", Txns: " ++ toString t.TransactionCount ++ ", Size: " ++ lib.FormatBytes t.Size ++
    ", Status: " ++ t.Status ++ ")"

/-- A backup with one snapshot whose file name holds a line feed followed by "- ". -/
def lineFeedBackupInfo : metadata.BackupInfo :=
  { Version := "1.0", BackupID := "test-backup-456", BackupTimestamp := 1704067200000000000
    BackupZxid := ⟨"1f", 0x1f⟩
    ZooKeeper := ⟨"", "", "", ""⟩
    Files := { TxnLogs := [], Snapshots := [⟨"snapshot.x\n- y.1f", 0x1f, 5120, ""⟩] }
    Validation := ⟨true, 0, 0, 0, 0, 0⟩
    Statistics := ⟨0, 0, 0⟩ }

/-- A text without a line feed. -/
def oneLine (s : String) : Prop := '\n' ∉ s.data

instance (s : String) : Decidable (oneLine s) :=
  inferInstanceAs (Decidable ('\n' ∉ s.data))

/-! ## The library sort (`sort.Slice` of Go 1.19 and later, `sort/zsortfunc.go`) -/

namespace sort

/-- The call `data.Less(i, j)`, which hands the two indices to the closure given to
`sort.Slice`; `less` is that closure on the elements at the indices.  The sort keeps its
indices in range. -/
def lessAt {α : Type} (less : α → α → Bool) (xs : List α) (i j : Nat) : Bool :=
  match xs[i]?, xs[j]? with
  | some x, some y => less x y
  | _, _ => false

/-- The call `data.Swap(i, j)`. -/
def swapAt {α : Type} (xs : List α) (i j : Nat) : List α :=
  match xs[i]?, xs[j]? with
  | some x, some y => (xs.set i y).set j x
  | _, _ => xs

/-- The inner loop `for j := i; j > a && data.Less(j, j-1); j--` of `insertionSort_func`,
from `j` on. -/
def insertionInner {α : Type} (less : α → α → Bool) (a : Nat) : Nat → List α → List α
  | 0, xs => xs
  | j + 1, xs =>
    if a < j + 1 ∧ lessAt less xs (j + 1) j = true then
      insertionInner less a j (swapAt xs (j + 1) j)
    else xs

/-- The function `insertionSort_func` on `data[a:b]`. -/
def insertionSort_func {α : Type} (less : α → α → Bool) (xs : List α) (a b : Nat) : List α :=
  (List.range' (a + 1) (b - (a + 1))).foldl (fun xs i => insertionInner less a i xs) xs

/-- The function `siftDown_func`, from `root` on; the root at least doubles in each pass. -/
def siftDown_func {α : Type} (less : α → α → Bool) :
    Nat → List α → Nat → Nat → Nat → List α
  | 0, xs, _, _, _ => xs
  | fuel + 1, xs, root, hi, first =>
    let child := 2 * root + 1
    if child ≥ hi then xs
    else
      let child :=
        if child + 1 < hi ∧ lessAt less xs (first + child) (first + child + 1) = true then
          child + 1
        else child
      if lessAt less xs (first + root) (first + child) = false then xs
      else siftDown_func less fuel (swapAt xs (first + root) (first + child)) child hi first

/-- The function `heapSort_func` on `data[a:b]`. -/
def heapSort_func {α : Type} (less : α → α → Bool) (xs : List α) (a b : Nat) : List α :=
  let first := a
  let lo := 0
  let hi := b - a
  let xs := (List.range ((hi - 1) / 2 + 1)).reverse.foldl
    (fun xs i => siftDown_func less hi xs i hi first) xs
  (List.range hi).reverse.foldl
    (fun xs i => siftDown_func less hi (swapAt xs first (first + i)) lo i first) xs

/-- The type `sortedHint`. -/
inductive sortedHint where
  | unknownHint
  | increasingHint
  | decreasingHint
  deriving DecidableEq, Repr

/-- The function `order2_func`; the counter `swaps` is returned with the two indices. -/
def order2_func {α : Type} (less : α → α → Bool) (xs : List α) (a b swaps : Nat) :
    Nat × Nat × Nat :=
  if lessAt less xs b a then (b, a, swaps + 1) else (a, b, swaps)

/-- The function `median_func`. -/
def median_func {α : Type} (less : α → α → Bool) (xs : List α) (a b c swaps : Nat) :
    Nat × Nat :=
  match order2_func less xs a b swaps with
  | (a, b, swaps) =>
    match order2_func less xs b c swaps with
    | (b, _, swaps) =>
      match order2_func less xs a b swaps with
      | (_, b, swaps) => (b, swaps)

/-- The function `medianAdjacent_func`. -/
def medianAdjacent_func {α : Type} (less : α → α → Bool) (xs : List α) (a swaps : Nat) :
    Nat × Nat :=
  median_func less xs (a - 1) a (a + 1) swaps

/-- The function `choosePivot_func` on `data[a:b]`. -/
def choosePivot_func {α : Type} (less : α → α → Bool) (xs : List α) (a b : Nat) :
    Nat × sortedHint :=
  let l := b - a
  let i := a + l / 4 * 1
  let j := a + l / 4 * 2
  let k := a + l / 4 * 3
  let chosen : Nat × Nat :=
    if l ≥ 8 then
      if l ≥ 50 then
        match medianAdjacent_func less xs i 0 with
        | (i, swaps) =>
          match medianAdjacent_func less xs j swaps with
          | (j, swaps) =>
            match medianAdjacent_func less xs k swaps with
            | (k, swaps) => median_func less xs i j k swaps
      else median_func less xs i j k 0
    else (j, 0)
  if chosen.2 = 0 then (chosen.1, .increasingHint)
  else if chosen.2 = 4 * 3 then (chosen.1, .decreasingHint)
  else (chosen.1, .unknownHint)

/-- The loop of `reverseRange_func`. -/
def reverseLoop {α : Type} : Nat → List α → Nat → Nat → List α
  | 0, xs, _, _ => xs
  | fuel + 1, xs, i, j => if i < j then reverseLoop fuel (swapAt xs i j) (i + 1) (j - 1) else xs

/-- The function `reverseRange_func` on `data[a:b]`. -/
def reverseRange_func {α : Type} (xs : List α) (a b : Nat) : List α :=
  reverseLoop (b - a) xs a (b - 1)

/-- A loop `for i <= j && p(i) \x7b i++ \x7d`: the index it ends at. -/
def scanUp (p : Nat → Bool) : Nat → Nat → Nat → Nat
  | 0, i, _ => i
  | fuel + 1, i, j => if i ≤ j ∧ p i = true then scanUp p fuel (i + 1) j else i

/-- A loop `for i <= j && p(j) \x7b j-- \x7d`: the index it ends at. -/
def scanDown (p : Nat → Bool) : Nat → Nat → Nat → Nat
  | 0, _, j => j
  | fuel + 1, i, j => if i ≤ j ∧ p j = true then scanDown p fuel i (j - 1) else j

/-- The loop `for j := i - 1; j >= 1; j--` of `partialInsertionSort_func`, from `j` on. -/
def shiftLeft {α : Type} (less : α → α → Bool) : Nat → List α → List α
  | 0, xs => xs
  | j + 1, xs =>
    if lessAt less xs (j + 1) j = false then xs else shiftLeft less j (swapAt xs (j + 1) j)

/-- The loop `for j := i + 1; j < b; j++` of `partialInsertionSort_func`, from `j` on. -/
def shiftRight {α : Type} (less : α → α → Bool) (b : Nat) : Nat → List α → Nat → List α
  | 0, xs, _ => xs
  | fuel + 1, xs, j =>
    if j < b then
      if lessAt less xs j (j - 1) = false then xs
      else shiftRight less b fuel (swapAt xs j (j - 1)) (j + 1)
    else xs

/-- The loop `for j := 0; j < maxSteps; j++` of `partialInsertionSort_func`, with `steps`
passes left. -/
def partialSteps {α : Type} (less : α → α → Bool) (a b : Nat) :
    Nat → List α → Nat → List α × Bool
  | 0, xs, _ => (xs, false)
  | steps + 1, xs, i =>
    let i := scanUp (fun i => !lessAt less xs i (i - 1)) b i (b - 1)
    if i = b then (xs, true)
    else if b - a < 50 then (xs, false)
    else
      let xs := swapAt xs i (i - 1)
      let xs := if i - a ≥ 2 then shiftLeft less (i - 1) xs else xs
      let xs := if b - i ≥ 2 then shiftRight less b b xs (i + 1) else xs
      partialSteps less a b steps xs i

/-- The function `partialInsertionSort_func` on `data[a:b]`: the slice and whether it is
sorted at the end. -/
def partialInsertionSort_func {α : Type} (less : α → α → Bool) (xs : List α) (a b : Nat) :
    List α × Bool :=
  partialSteps less a b 5 xs (a + 1)

/-- The outer loop of `partitionEqual_func`. -/
def partitionEqualLoop {α : Type} (less : α → α → Bool) (a : Nat) :
    Nat → List α → Nat → Nat → List α × Nat
  | 0, xs, i, _ => (xs, i)
  | fuel + 1, xs, i, j =>
    let i := scanUp (fun i => !lessAt less xs a i) xs.length i j
    let j := scanDown (fun j => lessAt less xs a j) xs.length i j
    if i > j then (xs, i)
    else partitionEqualLoop less a fuel (swapAt xs i j) (i + 1) (j - 1)

/-- The function `partitionEqual_func` on `data[a:b]`: the slice and `newpivot`. -/
def partitionEqual_func {α : Type} (less : α → α → Bool) (xs : List α) (a b pivot : Nat) :
    List α × Nat :=
  partitionEqualLoop less a (b - a) (swapAt xs a pivot) (a + 1) (b - 1)

/-- The second, outer loop of `partition_func`. -/
def partitionLoop {α : Type} (less : α → α → Bool) (a : Nat) :
    Nat → List α → Nat → Nat → List α × Nat
  | 0, xs, _, j => (xs, j)
  | fuel + 1, xs, i, j =>
    let i := scanUp (fun i => lessAt less xs i a) xs.length i j
    let j := scanDown (fun j => !lessAt less xs j a) xs.length i j
    if i > j then (xs, j)
    else partitionLoop less a fuel (swapAt xs i j) (i + 1) (j - 1)

/-- The function `partition_func` on `data[a:b]`: the slice, `newpivot` and
`alreadyPartitioned`. -/
def partition_func {α : Type} (less : α → α → Bool) (xs : List α) (a b pivot : Nat) :
    List α × Nat × Bool :=
  let xs := swapAt xs a pivot
  let i := scanUp (fun i => lessAt less xs i a) xs.length (a + 1) (b - 1)
  let j := scanDown (fun j => !lessAt less xs j a) xs.length i (b - 1)
  if i > j then (swapAt xs j a, j, true)
  else
    match partitionLoop less a (b - a) (swapAt xs i j) (i + 1) (j - 1) with
    | (xs, j) => (swapAt xs j a, j, false)

/-- The function `bits.Len`: the number of bits of `n`. -/
def bitsLen : Nat → Nat → Nat
  | 0, _ => 0
  | fuel + 1, n => if n = 0 then 0 else 1 + bitsLen fuel (n / 2)

/-- The method `(*xorshift).Next` on 64 bits. -/
def xorshiftNext (r : Nat) : Nat :=
  let r := r ^^^ (r <<< 13 % 2 ^ 64)
  let r := r ^^^ (r >>> 17)
  let r := r ^^^ (r <<< 5 % 2 ^ 64)
  r

/-- The function `breakPatterns_func` on `data[a:b]`. -/
def breakPatterns_func {α : Type} (xs : List α) (a b : Nat) : List α :=
  let length := b - a
  if length ≥ 8 then
    let modulus := 2 ^ bitsLen length length
    let idx := a + (length / 4) * 2 - 1
    let step := fun (st : List α × Nat) (i : Nat) =>
      let random := xorshiftNext st.2
      let other := random % modulus
      let other := if other ≥ length then other - length else other
      (swapAt st.1 (idx - 1 + i) (a + other), random)
    ((List.range 3).foldl step (xs, length)).1
  else xs

/-- The function `pdqsort_func` on `data[a:b]`; `wasBalanced` and `wasPartitioned` are its
two loop variables, `true` at the start of a call.  Each pass of the loop and each call
works on a shorter range, so that the fuel, which starts above the length of the slice, does
not run out. -/
def pdqsort_func {α : Type} (less : α → α → Bool) :
    Nat → List α → Nat → Nat → Nat → Bool → Bool → List α
  | 0, xs, _, _, _, _, _ => xs
  | fuel + 1, xs, a, b, limit, wasBalanced, wasPartitioned =>
    let length := b - a
    if length ≤ 12 then insertionSort_func less xs a b
    else if limit = 0 then heapSort_func less xs a b
    else
      let xs := if wasBalanced then xs else breakPatterns_func xs a b
      let limit := if wasBalanced then limit else limit - 1
      let chosen := choosePivot_func less xs a b
      let decreasing := decide (chosen.2 = .decreasingHint)
      let xs := if decreasing then reverseRange_func xs a b else xs
      let pivot := if decreasing then (b - 1) - (chosen.1 - a) else chosen.1
      let hint := if decreasing then sortedHint.increasingHint else chosen.2
      let attempt :=
        if wasBalanced ∧ wasPartitioned ∧ hint = .increasingHint then
          partialInsertionSort_func less xs a b
        else (xs, false)
      if attempt.2 then attempt.1
      else
        let xs := attempt.1
        if a > 0 ∧ lessAt less xs (a - 1) pivot = false then
          let mid := partitionEqual_func less xs a b pivot
          pdqsort_func less fuel mid.1 mid.2 b limit wasBalanced wasPartitioned
        else
          match partition_func less xs a b pivot with
          | (xs, mid, alreadyPartitioned) =>
            let leftLen := mid - a
            let rightLen := b - mid
            let balanceThreshold := length / 8
            if leftLen < rightLen then
              pdqsort_func less fuel (pdqsort_func less fuel xs a mid limit true true)
                (mid + 1) b limit (decide (leftLen ≥ balanceThreshold)) alreadyPartitioned
            else
              pdqsort_func less fuel (pdqsort_func less fuel xs (mid + 1) b limit true true)
                a mid limit (decide (rightLen ≥ balanceThreshold)) alreadyPartitioned

/-- The function `sort.Slice`, with the comparison given on the elements instead of their
indices. -/
def Slice {α : Type} (xs : List α) (less : α → α → Bool) : List α :=
  pdqsort_func less (xs.length + 1) xs 0 xs.length (bitsLen xs.length xs.length) true true

/-- The insertion of `x` into a list kept in descending order of position: `x` passes the
elements that it is less than. -/
def insertDesc {α : Type} (less : α → α → Bool) (x : α) : List α → List α
  | [] => [x]
  | y :: r => if less x y then y :: insertDesc less x r else x :: y :: r

end sort

/-- The library with `sort.Slice` as Go 1.19 and later implement it; `filepath.Join` stays a
parameter. -/
def goLib (join : String → String → String) : Lib :=
  { Join := join
    SortSlice := fun l less => sort.Slice l less }

/-- The entries of a directory of thirteen files, in the order of `os.ReadDir` (by name):
eleven logs and two backup copies whose names do not parse, left with ZXID 0. -/
def thirteenLogs : List DirEntry :=
  [⟨"log.100", false⟩, ⟨"log.100.bak", false⟩, ⟨"log.200", false⟩, ⟨"log.300", false⟩,
    ⟨"log.400", false⟩, ⟨"log.500", false⟩, ⟨"log.500.bak", false⟩, ⟨"log.600", false⟩,
    ⟨"log.700", false⟩, ⟨"log.800", false⟩, ⟨"log.900", false⟩, ⟨"log.a00", false⟩,
    ⟨"log.b00", false⟩]

/-- The same directory with snapshots for logs. -/
def thirteenSnapshots : List DirEntry :=
  [⟨"snapshot.100", false⟩, ⟨"snapshot.100.bak", false⟩, ⟨"snapshot.200", false⟩,
    ⟨"snapshot.300", false⟩, ⟨"snapshot.400", false⟩, ⟨"snapshot.500", false⟩,
    ⟨"snapshot.500.bak", false⟩, ⟨"snapshot.600", false⟩, ⟨"snapshot.700", false⟩,
    ⟨"snapshot.800", false⟩, ⟨"snapshot.900", false⟩, ⟨"snapshot.a00", false⟩,
    ⟨"snapshot.b00", false⟩]

/-! # Properties -/

/-! ## Big-endian encoding -/

theorem bePut_length (n v : Nat) : (bePut n v).length = n := by
  induction n with
  | zero => rfl
  | succ k ih => simp [bePut, ih]

theorem ofNat_val_byte (v : Nat) : ((Fin.ofNat v : Byte)).val = v % 256 := rfl

theorem beUint_bePut (n v : Nat) : beUint (bePut n v) = v % 256 ^ n := by
  induction n with
  | zero => simp [bePut, beUint, Nat.mod_one]
  | succ k ih =>
    simp only [bePut, beUint, bePut_length, ih, ofNat_val_byte]
    rw [Nat.mod_pow_succ]
    ring

theorem beUint_lt (bs : List Byte) : beUint bs < 256 ^ bs.length := by
  induction bs with
  | nil => simp [beUint]
  | cons b bs ih =>
    simp only [beUint, List.length_cons, pow_succ]
    have hb : b.val ≤ 255 := by omega
    nlinarith [Nat.mul_le_mul_right (256 ^ bs.length) hb]

theorem bePut_add_mul (k v m : Nat) : bePut k (v + m * 256 ^ k) = bePut k v := by
  induction k generalizing m with
  | zero => rfl
  | succ j ih =>
    simp only [bePut]
    have h1 : (v + m * 256 ^ (j + 1)) / 256 ^ j = v / 256 ^ j + m * 256 := by
      have h : v + m * 256 ^ (j + 1) = v + (m * 256) * 256 ^ j := by ring
      rw [h, Nat.add_mul_div_right _ _ (by positivity)]
    have h2 : v + m * 256 ^ (j + 1) = v + (m * 256) * 256 ^ j := by ring
    congr 1
    · apply Fin.ext
      rw [ofNat_val_byte, ofNat_val_byte, h1]
      omega
    · rw [h2, ih]

theorem bePut_beUint (bs : List Byte) : bePut bs.length (beUint bs) = bs := by
  induction bs with
  | nil => rfl
  | cons b bs ih =>
    simp only [List.length_cons, bePut, beUint]
    have hlt := beUint_lt bs
    congr 1
    · apply Fin.ext
      rw [ofNat_val_byte, Nat.add_comm, Nat.add_mul_div_right _ _ (by positivity),
        Nat.div_eq_of_lt hlt]
      omega
    · rw [Nat.add_comm, bePut_add_mul, ih]

theorem toInt64_ofInt64 (c : Int) (h1 : -2 ^ 63 ≤ c) (h2 : c < 2 ^ 63) :
    toInt64 (ofInt64 c) = c := by
  unfold toInt64 ofInt64
  split <;> omega

theorem toInt32_ofInt32 (c : Int) (h1 : -2 ^ 31 ≤ c) (h2 : c < 2 ^ 31) :
    toInt32 (ofInt32 c) = c := by
  unfold toInt32 ofInt32
  split <;> omega

theorem ofInt64_toInt64 (u : Nat) (h : u < 2 ^ 64) : ofInt64 (toInt64 u) = u := by
  unfold toInt64 ofInt64
  split <;> omega

theorem ofInt32_toInt32 (u : Nat) (h : u < 2 ^ 32) : ofInt32 (toInt32 u) = u := by
  unfold toInt32 ofInt32
  split <;> omega

theorem ofInt64_lt (c : Int) : ofInt64 c < 2 ^ 64 := by
  unfold ofInt64; omega

theorem ofInt32_lt (c : Int) : ofInt32 c < 2 ^ 32 := by
  unfold ofInt32; omega

theorem adler32Checksum_lt (d : List Byte) : adler32Checksum d < 2 ^ 32 := by
  unfold adler32Checksum
  exact Nat.mod_lt _ (by norm_num)

/-! ## One call of `ReadTransaction` -/

theorem readFull_append (r : TxnLogReader) (a t : List Byte) (h : r.rest = a ++ t)
    (ha : a ≠ []) :
    r.readFull a.length = (.ok a, { r with rest := t, pos := r.pos + a.length }) := by
  have hpos : 0 < a.length := List.length_pos.mpr ha
  unfold TxnLogReader.readFull
  rw [if_neg (by omega), if_neg (by rw [h, List.length_append]; omega),
    if_neg (by rw [h, List.length_append]; omega)]
  simp [h]

theorem readFull_short (r : TxnLogReader) (n : Nat) (h : r.rest.length < n) :
    ∃ e r', r.readFull n = (.error e, r') ∧ (e = .EOF ↔ r.rest = []) := by
  unfold TxnLogReader.readFull
  rw [if_neg (by omega)]
  by_cases h0 : r.rest.length = 0
  · rw [if_pos h0]
    exact ⟨_, _, rfl, by simp [List.length_eq_zero.mp h0]⟩
  · rw [if_neg h0, if_pos h]
    refine ⟨_, _, rfl, ?_⟩
    constructor
    · intro h; cases h
    · intro h; simp [h] at h0

theorem readFull_enough (r : TxnLogReader) (n : Nat) (hn : 0 < n) (h : n ≤ r.rest.length) :
    r.readFull n = (.ok (r.rest.take n), { r with rest := r.rest.drop n, pos := r.pos + n }) := by
  unfold TxnLogReader.readFull
  rw [if_neg (by omega), if_neg (by omega), if_neg (by omega)]

theorem Transaction.parse_ok (t : Transaction) (h : 32 ≤ t.Data.length) :
    t.parse = .ok { t with
      ClientId := toInt64 (beUint (slice t.Data 0 8))
      Cxid := toInt32 (beUint (slice t.Data 8 12))
      Zxid := beUint (slice t.Data 12 20)
      Timestamp := toInt64 (beUint (slice t.Data 20 28))
      TxnType := toInt32 (beUint (slice t.Data 28 32)) } := by
  unfold Transaction.parse
  rw [if_neg (by omega)]

/-- What `ReadTransaction` does on a reader with at least twelve unread bytes, in
terms of the decoded checksum `c` and length `l`. -/
theorem ReadTransaction_frame (r : TxnLogReader) (cs ls rest : List Byte)
    (hcs : cs.length = 8) (hls : ls.length = 4) (h : r.rest = cs ++ ls ++ rest) :
    r.ReadTransaction =
      (let c := toInt64 (beUint cs)
       let l := toInt32 (beUint ls)
       let r2 : TxnLogReader := { r with rest := rest, pos := r.pos + 8 + 4 }
       if l ≤ 0 ∨ l > MaxRecordSize then
         (.error ((((NewCorruptionError "invalid record length").WithContext "path"
           (.str r.path)).WithContext "length" (.int l)).WithContext "max"
           (.int MaxRecordSize)), r2)
       else
         match r2.readFull l.toNat with
         | (.error _, r3) =>
           (.error (((NewCorruptionError "failed to read body").WithContext "path"
             (.str r.path)).WithContext "length" (.int l)), r3)
         | (.ok data, r3) =>
           if (adler32Checksum data : Int) ≠ c then
             (.error ((((NewCorruptionError "checksum mismatch").WithContext "path"
               (.str r.path)).WithContext "expected" (.int c)).WithContext
               "calculated" (.int (adler32Checksum data : Int))), r3)
           else
             match ({ Transaction.zero with Checksum := c, Length := l, Data := data }
               : Transaction).parse with
             | .error err =>
               (.error (((NewCorruptionError "failed to parse transaction").WithError
                 err).WithContext "path" (.str r.path)), r3)
             | .ok txn => (.ok txn, r3)) := by
  have hcs' : cs ≠ [] := by intro h0; simp [h0] at hcs
  have hls' : ls ≠ [] := by intro h0; simp [h0] at hls
  have h1 := readFull_append r cs (ls ++ rest) (by simp [h]) hcs'
  rw [hcs] at h1
  have h2 := readFull_append { r with rest := ls ++ rest, pos := r.pos + 8 } ls rest rfl hls'
  rw [hls] at h2
  unfold TxnLogReader.ReadTransaction
  simp only [h1, h2]

theorem ReadTransaction_lt8 (r : TxnLogReader) (h : r.rest.length < 8) :
    ∃ e r', r.ReadTransaction = (.error e, r') ∧ (e = .EOF ↔ r.rest = []) ∧
      (e = .EOF ∨ e = .ErrUnexpectedEOF) := by
  unfold TxnLogReader.ReadTransaction TxnLogReader.readFull
  rw [if_neg (by omega)]
  by_cases h0 : r.rest.length = 0
  · rw [if_pos h0]
    exact ⟨_, _, rfl, by simp [List.length_eq_zero.mp h0], Or.inl rfl⟩
  · rw [if_neg h0, if_pos h]
    refine ⟨_, _, rfl, ?_, Or.inr rfl⟩
    constructor
    · intro h; cases h
    · intro h; simp [h] at h0

theorem ReadTransaction_lt12 (r : TxnLogReader) (h8 : 8 ≤ r.rest.length)
    (h : r.rest.length < 12) :
    ∃ r', r.ReadTransaction =
      (.error ((NewCorruptionError "failed to read length").WithContext "path" (.str r.path)),
        r') := by
  have h1 := readFull_enough r 8 (by omega) h8
  obtain ⟨e, r2, h2, -⟩ := readFull_short
    { r with rest := r.rest.drop 8, pos := r.pos + 8 } 4 (by simp; omega)
  unfold TxnLogReader.ReadTransaction
  simp only [h1, h2]
  exact ⟨_, rfl⟩

theorem ReadTransaction_wellFormed (r : TxnLogReader) (R : Transaction) (tail : List Byte)
    (hR : R.wellFormed) (h : r.rest = frame R ++ tail) :
    r.ReadTransaction =
      (.ok R.readBack, { r with rest := tail, pos := r.pos + 8 + 4 + R.Data.length }) := by
  obtain ⟨hlen, h32, hmax, hck⟩ := hR
  have hmax' : (R.Data.length : Int) ≤ 10485760 := by simpa [MaxRecordSize] using hmax
  have hck_lt := adler32Checksum_lt R.Data
  have hc : toInt64 (beUint (bePut 8 (ofInt64 R.Checksum))) = R.Checksum := by
    rw [beUint_bePut, Nat.mod_eq_of_lt (by have := ofInt64_lt R.Checksum; omega),
      toInt64_ofInt64 _ (by omega) (by omega)]
  have hl : toInt32 (beUint (bePut 4 (ofInt32 R.Length))) = R.Length := by
    rw [beUint_bePut, Nat.mod_eq_of_lt (by have := ofInt32_lt R.Length; omega),
      toInt32_ofInt32 _ (by omega) (by omega)]
  have hframe := ReadTransaction_frame r (bePut 8 (ofInt64 R.Checksum))
    (bePut 4 (ofInt32 R.Length)) (R.Data ++ tail) (bePut_length _ _) (bePut_length _ _)
    (by simp [h, frame])
  rw [hframe]
  simp only [hc, hl]
  have hD : R.Data ≠ [] := by intro h0; simp [h0] at h32
  have hrf := readFull_append
    { r with rest := R.Data ++ tail, pos := r.pos + 8 + 4 } R.Data tail rfl hD
  have hto : R.Length.toNat = R.Data.length := by omega
  rw [if_neg (by simp only [MaxRecordSize]; omega), hto, hrf]
  simp only
  rw [if_neg (by simp [hck])]
  rw [Transaction.parse_ok
    ({ Transaction.zero with Checksum := R.Checksum, Length := R.Length, Data := R.Data })
    h32]
  rfl
theorem bePut_toInt64 (cs : List Byte) (h : cs.length = 8) :
    bePut 8 (ofInt64 (toInt64 (beUint cs))) = cs := by
  have hlt := beUint_lt cs
  rw [h] at hlt
  rw [ofInt64_toInt64 _ (by omega)]
  have := bePut_beUint cs
  rwa [h] at this

theorem bePut_toInt32 (ls : List Byte) (h : ls.length = 4) :
    bePut 4 (ofInt32 (toInt32 (beUint ls))) = ls := by
  have hlt := beUint_lt ls
  rw [h] at hlt
  rw [ofInt32_toInt32 _ (by omega)]
  have := bePut_beUint ls
  rwa [h] at this

/-- A successful `ReadTransaction` consumed exactly the frame of the record it
returns, and that record is well formed with its meta decoded from its body. -/
theorem ReadTransaction_ok_inv (r r' : TxnLogReader) (t : Transaction)
    (h : r.ReadTransaction = (.ok t, r')) :
    t.wellFormed ∧ t.readBack = t ∧ r.rest = frame t ++ r'.rest ∧
      r' = { r with rest := r'.rest, pos := r.pos + 8 + 4 + t.Data.length } := by
  by_cases h8 : r.rest.length < 8
  · obtain ⟨e, r1, he, -⟩ := ReadTransaction_lt8 r h8
    rw [he] at h; cases h
  by_cases h12 : r.rest.length < 12
  · obtain ⟨r1, he⟩ := ReadTransaction_lt12 r (by omega) h12
    rw [he] at h; cases h
  have hsplit : r.rest = r.rest.take 8 ++ (r.rest.drop 8).take 4 ++ r.rest.drop 12 := by
    have e1 : r.rest.drop 12 = (r.rest.drop 8).drop 4 := by rw [List.drop_drop]
    rw [e1, List.append_assoc, List.take_append_drop, List.take_append_drop]
  have hcs : (r.rest.take 8).length = 8 := by rw [List.length_take]; omega
  have hls : ((r.rest.drop 8).take 4).length = 4 := by
    rw [List.length_take, List.length_drop]; omega
  rw [ReadTransaction_frame r _ _ _ hcs hls hsplit] at h
  generalize hcdef : toInt64 (beUint (r.rest.take 8)) = c at h
  generalize hldef : toInt32 (beUint ((r.rest.drop 8).take 4)) = l at h
  simp only at h
  by_cases hrange : l ≤ 0 ∨ l > MaxRecordSize
  · rw [if_pos hrange] at h; cases h
  rw [if_neg hrange] at h
  have hl0 : 0 < l := by omega
  have hlmax : l ≤ MaxRecordSize := by omega
  by_cases hbody : (r.rest.drop 12).length < l.toNat
  · obtain ⟨e, r3, he, -⟩ := readFull_short
      { r with rest := r.rest.drop 12, pos := r.pos + 8 + 4 } l.toNat hbody
    rw [he] at h; cases h
  have hrf := readFull_enough { r with rest := r.rest.drop 12, pos := r.pos + 8 + 4 } l.toNat
    (by omega) (by simpa using hbody)
  rw [hrf] at h
  simp only at h
  by_cases hck : (adler32Checksum ((r.rest.drop 12).take l.toNat) : Int) ≠ c
  · rw [if_pos hck] at h; cases h
  rw [if_neg hck] at h
  have hdlen : ((r.rest.drop 12).take l.toNat).length = l.toNat := by
    rw [List.length_take]; omega
  split at h
  · cases h
  rename_i txn heq
  simp only [Prod.mk.injEq, Except.ok.injEq] at h
  obtain ⟨ht, hr'⟩ := h
  subst ht
  unfold Transaction.parse at heq
  split at heq
  · cases heq
  rename_i h32
  simp only [hdlen, not_lt] at h32
  simp only [Except.ok.injEq] at heq
  subst heq
  have hrest : r'.rest = (r.rest.drop 12).drop l.toNat := by rw [← hr']
  refine ⟨⟨?_, ?_, ?_, ?_⟩, rfl, ?_, ?_⟩
  · simp only [hdlen]; omega
  · simp only [hdlen]; exact h32
  · simp only [hdlen]; omega
  · simp only; push_neg at hck; exact hck.symm
  · simp only [frame, hrest, ← hcdef, ← hldef]
    rw [bePut_toInt64 _ hcs, bePut_toInt32 _ hls, List.append_assoc, List.append_assoc,
      List.take_append_drop]
    rw [List.append_assoc] at hsplit
    exact hsplit
  · rw [← hr']
    simp only [hdlen]

theorem ReadTransaction_nil (r : TxnLogReader) (h : r.rest = []) :
    r.ReadTransaction = (.error .EOF, r) := by
  unfold TxnLogReader.ReadTransaction TxnLogReader.readFull
  simp [h]

/-- The three ways `ReadTransaction` fails: the sentinel `io.EOF` with no byte
left, `io.ErrUnexpectedEOF` with one to seven bytes left, a corruption error
otherwise. -/
theorem ReadTransaction_error_cases (r r' : TxnLogReader) (e : GoError)
    (h : r.ReadTransaction = (.error e, r')) :
    (e = .EOF ∧ r.rest = []) ∨
      (e = .ErrUnexpectedEOF ∧ r.rest ≠ [] ∧ r.rest.length < 8) ∨
      (e.category? = some .corruption ∧ 8 ≤ r.rest.length) := by
  by_cases h8 : r.rest.length < 8
  · obtain ⟨e1, r1, he, hiff, hor⟩ := ReadTransaction_lt8 r h8
    rw [he] at h
    simp only [Prod.mk.injEq, Except.error.injEq] at h
    obtain ⟨rfl, -⟩ := h
    rcases hor with rfl | rfl
    · exact Or.inl ⟨rfl, hiff.mp rfl⟩
    · refine Or.inr (Or.inl ⟨rfl, ?_, h8⟩)
      intro h0
      have := hiff.mpr h0
      cases this
  refine Or.inr (Or.inr ⟨?_, by omega⟩)
  by_cases h12 : r.rest.length < 12
  · obtain ⟨r1, he⟩ := ReadTransaction_lt12 r (by omega) h12
    rw [he] at h
    simp only [Prod.mk.injEq, Except.error.injEq] at h
    obtain ⟨rfl, -⟩ := h
    rfl
  have hsplit : r.rest = r.rest.take 8 ++ (r.rest.drop 8).take 4 ++ r.rest.drop 12 := by
    have e1 : r.rest.drop 12 = (r.rest.drop 8).drop 4 := by rw [List.drop_drop]
    rw [e1, List.append_assoc, List.take_append_drop, List.take_append_drop]
  have hcs : (r.rest.take 8).length = 8 := by rw [List.length_take]; omega
  have hls : ((r.rest.drop 8).take 4).length = 4 := by
    rw [List.length_take, List.length_drop]; omega
  rw [ReadTransaction_frame r _ _ _ hcs hls hsplit] at h
  simp only at h
  split at h
  · simp only [Prod.mk.injEq, Except.error.injEq] at h
    obtain ⟨rfl, -⟩ := h
    rfl
  split at h
  · simp only [Prod.mk.injEq, Except.error.injEq] at h
    obtain ⟨rfl, -⟩ := h
    rfl
  split at h
  · simp only [Prod.mk.injEq, Except.error.injEq] at h
    obtain ⟨rfl, -⟩ := h
    rfl
  split at h
  · simp only [Prod.mk.injEq, Except.error.injEq] at h
    obtain ⟨rfl, -⟩ := h
    rfl
  · cases h

theorem ReadTransaction_error_ne_EOF (r r' : TxnLogReader) (e : GoError)
    (h : r.ReadTransaction = (.error e, r')) (hne : r.rest ≠ []) : e ≠ .EOF := by
  rcases ReadTransaction_error_cases r r' e h with ⟨-, h0⟩ | ⟨rfl, -, -⟩ | ⟨hc, -⟩
  · exact absurd h0 hne
  · intro h; cases h
  · intro h; rw [h] at hc; cases hc

/-! ## Opening a file -/

theorem OpenTxnLog_valid (path : String) (h : TxnLogHeader) (body : List Byte)
    (hh : h.valid) :
    OpenTxnLog path (some (headerBytes h ++ body)) =
      .ok { path := path, rest := body, pos := 16, header := h } := by
  obtain ⟨hm, hv, hd⟩ := hh
  have e1 : h.Magic % 2 ^ 32 = h.Magic := Nat.mod_eq_of_lt (by rw [hm]; decide)
  have e2 : h.Version % 2 ^ 32 = h.Version := Nat.mod_eq_of_lt (by rw [hv]; decide)
  have e3 : h.DbId % 2 ^ 64 = h.DbId := Nat.mod_eq_of_lt hd
  have hb1 : bePut 4 h.Magic ≠ [] := by
    intro h0; have := bePut_length 4 h.Magic; rw [h0] at this; cases this
  have hb2 : bePut 4 h.Version ≠ [] := by
    intro h0; have := bePut_length 4 h.Version; rw [h0] at this; cases this
  have hb3 : bePut 8 h.DbId ≠ [] := by
    intro h0; have := bePut_length 8 h.DbId; rw [h0] at this; cases this
  have hrest : headerBytes h ++ body =
      bePut 4 h.Magic ++ (bePut 4 h.Version ++ bePut 8 h.DbId ++ body) := by
    unfold headerBytes
    rw [e1, e2, e3]
    simp only [List.append_assoc]
  have r1 := readFull_append
    { path := path, rest := headerBytes h ++ body, pos := 0, header := ⟨0, 0, 0⟩ }
    (bePut 4 h.Magic) (bePut 4 h.Version ++ bePut 8 h.DbId ++ body) hrest hb1
  have r2 := readFull_append
    { path := path, rest := bePut 4 h.Version ++ bePut 8 h.DbId ++ body, pos := 0 + 4,
      header := ⟨h.Magic, 0, 0⟩ }
    (bePut 4 h.Version) (bePut 8 h.DbId ++ body) (List.append_assoc _ _ _) hb2
  have r3 := readFull_append
    { path := path, rest := bePut 8 h.DbId ++ body, pos := 0 + 4 + 4,
      header := ⟨h.Magic, h.Version, 0⟩ }
    (bePut 8 h.DbId) body rfl hb3
  rw [bePut_length] at r1 r2 r3
  have m1 : beUint (bePut 4 h.Magic) = h.Magic := by
    rw [beUint_bePut]; exact Nat.mod_eq_of_lt (by rw [hm]; decide)
  have m2 : beUint (bePut 4 h.Version) = h.Version := by
    rw [beUint_bePut]; exact Nat.mod_eq_of_lt (by rw [hv]; decide)
  have m3 : beUint (bePut 8 h.DbId) = h.DbId := by
    rw [beUint_bePut]; exact Nat.mod_eq_of_lt (by omega)
  unfold OpenTxnLog TxnLogReader.readHeader
  have hn1 : ¬ (h.Magic ≠ MagicNumber) := fun h' => h' hm
  have hn2 : ¬ (h.Version ≠ LogVersion) := fun h' => h' hv
  simp only [r1, m1, if_neg hn1, r2, m2, if_neg hn2, r3, m3]

/-! ## The loop of `ValidateTxnLog` -/

theorem frames_length_ge (Rs : List Transaction) : Rs.length ≤ (frames Rs).length := by
  induction Rs with
  | nil => simp [frames]
  | cons R Rs ih =>
    simp only [frames, frame, List.length_append, List.length_cons, bePut_length]
    omega

theorem validateLoop_frames (Rs : List Transaction) (hRs : ∀ R ∈ Rs, R.wellFormed) :
    ∀ (fuel : Nat) (r : TxnLogReader) (res : ValidationResult) (cnt : Nat) (tail : List Byte),
      r.rest = frames Rs ++ tail →
      validateLoop (Rs.length + fuel) r res cnt =
        validateLoop fuel
          { r with
            rest := tail
            pos := ((Rs.map Transaction.readBack).foldl validateStep (res, r.pos, cnt)).2.1 }
          ((Rs.map Transaction.readBack).foldl validateStep (res, r.pos, cnt)).1
          ((Rs.map Transaction.readBack).foldl validateStep (res, r.pos, cnt)).2.2 := by
  induction Rs with
  | nil =>
    intro fuel r res cnt tail h
    simp only [frames, List.nil_append] at h
    simp only [List.length_nil, Nat.zero_add, List.map_nil, List.foldl_nil, ← h]
  | cons R Rs ih =>
    intro fuel r res cnt tail h
    have hR : R.wellFormed := hRs R (List.mem_cons_self _ _)
    have hRs' : ∀ R' ∈ Rs, R'.wellFormed := fun R' hm => hRs R' (List.mem_cons_of_mem _ hm)
    have hfuel : (R :: Rs).length + fuel = (Rs.length + fuel) + 1 := by
      simp only [List.length_cons]; omega
    have hread := ReadTransaction_wellFormed r R (frames Rs ++ tail) hR
      (by rw [h, frames, List.append_assoc])
    rw [hfuel, validateLoop]
    simp only [hread, TxnLogReader.CurrentPosition]
    rw [ih hRs' fuel _ _ _ tail rfl]
    rfl

theorem validateLoop_eof (fuel : Nat) (r : TxnLogReader) (res : ValidationResult) (cnt : Nat)
    (h : r.rest = []) : validateLoop (fuel + 1) r res cnt = some res := by
  rw [validateLoop]
  simp only [ReadTransaction_nil r h, if_true]

theorem validateLoop_error (fuel : Nat) (r r' : TxnLogReader) (res : ValidationResult)
    (cnt : Nat) (e : GoError) (h : r.ReadTransaction = (.error e, r')) (hne : e ≠ .EOF) :
    validateLoop (fuel + 1) r res cnt =
      some { res with
        IsValid := false
        LastValidPos := r.pos
        CorruptionType := e.Error
        LastValidZxid :=
          if cnt > 0 then res.Transactions.getD (cnt - 1) 0 else res.LastValidZxid } := by
  rw [validateLoop]
  simp only [h, if_neg hne, TxnLogReader.CurrentPosition]
  split <;> rfl

theorem validateScan_fields (ts : List Transaction) :
    ∀ (res : ValidationResult) (pos cnt : Nat),
      (ts.foldl validateStep (res, pos, cnt)).1.IsValid = res.IsValid ∧
      (ts.foldl validateStep (res, pos, cnt)).1.CorruptionType = res.CorruptionType ∧
      (ts.foldl validateStep (res, pos, cnt)).1.Transactions =
        res.Transactions ++ ts.map (fun t => t.Zxid) ∧
      (ts.foldl validateStep (res, pos, cnt)).2.2 = cnt + ts.length ∧
      (ts.foldl validateStep (res, pos, cnt)).2.1 =
        pos + (ts.map (fun t => 8 + 4 + t.Data.length)).sum ∧
      (ts.foldl validateStep (res, pos, cnt)).1.ValidTransactionCount =
        (if ts = [] then res.ValidTransactionCount else cnt + ts.length) ∧
      (ts.foldl validateStep (res, pos, cnt)).1.LastValidZxid =
        ((ts.getLast?).map (fun t => t.Zxid)).getD res.LastValidZxid := by
  induction ts with
  | nil => intro res pos cnt; simp
  | cons t ts ih =>
    intro res pos cnt
    simp only [List.foldl_cons]
    obtain ⟨h1, h2, h3, h4, h5, h6, h7⟩ := ih (validateStep (res, pos, cnt) t).1
      (validateStep (res, pos, cnt) t).2.1 (validateStep (res, pos, cnt) t).2.2
    refine ⟨?_, ?_, ?_, ?_, ?_, ?_, ?_⟩
    · rw [h1]; rfl
    · rw [h2]; rfl
    · rw [h3]; simp [validateStep]
    · rw [h4]; simp only [validateStep, List.length_cons]; omega
    · rw [h5]; simp only [validateStep, List.map_cons, List.sum_cons]; omega
    · rw [h6]
      by_cases hts : ts = []
      · simp [hts, validateStep]
      · simp only [hts, if_false, validateStep, List.length_cons, reduceCtorEq]
        omega
    · rw [h7]
      cases ts with
      | nil => simp [validateStep]
      | cons t' ts' =>
        rw [List.getLast?_cons_cons, List.getLast?_eq_getLast _ (List.cons_ne_nil _ _)]
        rfl

/-! ## `ValidateTxnLog` on a header, well-formed records and a tail -/

theorem ValidateTxnLog_frames (path : String) (h : TxnLogHeader) (Rs : List Transaction)
    (tail : List Byte) (hh : h.valid) (hRs : ∀ R ∈ Rs, R.wellFormed) :
    ValidateTxnLog path (some (headerBytes h ++ (frames Rs ++ tail))) =
      (validateLoop ((frames Rs ++ tail).length - Rs.length + 1)
        { path := path, rest := tail
          pos := ((Rs.map Transaction.readBack).foldl validateStep (initialResult, 16, 0)).2.1
          header := h }
        ((Rs.map Transaction.readBack).foldl validateStep (initialResult, 16, 0)).1
        ((Rs.map Transaction.readBack).foldl validateStep (initialResult, 16, 0)).2.2).map
        .ok := by
  have hlen : Rs.length ≤ (frames Rs ++ tail).length := by
    have := frames_length_ge Rs
    rw [List.length_append]; omega
  have hfuel : (frames Rs ++ tail).length + 1 =
      Rs.length + ((frames Rs ++ tail).length - Rs.length + 1) := by omega
  unfold ValidateTxnLog
  rw [OpenTxnLog_valid path h _ hh]
  simp only
  rw [hfuel, validateLoop_frames Rs hRs _ _ _ _ tail rfl]
  rfl

theorem getD_map_getLast (f : Transaction → ZXID) (l : List Transaction) (hne : l ≠ []) :
    (l.map f).getD (l.length - 1) 0 = f (l.getLast hne) := by
  rw [List.getLast_eq_getElem, List.getD_eq_getElem?_getD, List.getElem?_map,
    List.getElem?_eq_getElem (by have := List.length_pos.mpr hne; omega)]
  rfl

theorem getLast?_map_readBack (Rs : List Transaction) (hne : Rs ≠ []) (d : ZXID) :
    (((Rs.map Transaction.readBack).getLast?).map (fun t => t.Zxid)).getD d =
      (Rs.getLast hne).readBack.Zxid := by
  rw [List.getLast?_eq_getLast _ (by simpa using hne), List.getLast_map]
  rfl

/-- Validation of a valid header followed by well-formed records and nothing else. -/
theorem ValidateTxnLog_valid (path : String) (h : TxnLogHeader) (Rs : List Transaction)
    (hh : h.valid) (hRs : ∀ R ∈ Rs, R.wellFormed) :
    ∃ res, ValidateTxnLog path (some (headerBytes h ++ frames Rs)) = some (.ok res) ∧
      res.IsValid = true ∧ res.ValidTransactionCount = Rs.length ∧
      res.Transactions = Rs.map (fun R => R.readBack.Zxid) ∧
      (∀ hne : Rs ≠ [], res.LastValidZxid = (Rs.getLast hne).readBack.Zxid) := by
  have hv := ValidateTxnLog_frames path h Rs [] hh hRs
  rw [List.append_nil] at hv
  rw [hv, validateLoop_eof _ _ _ _ rfl]
  obtain ⟨h1, -, h3, -, -, h6, h7⟩ :=
    validateScan_fields (Rs.map Transaction.readBack) initialResult 16 0
  refine ⟨_, rfl, ?_, ?_, ?_, ?_⟩
  · rw [h1]; rfl
  · rw [h6]
    by_cases hnil : Rs = []
    · simp [hnil, initialResult]
    · simp [hnil]
  · rw [h3]; simp [initialResult]
  · intro hne
    rw [h7, getLast?_map_readBack Rs hne]

/-- C2: a valid header followed by `n` valid records and end of file validates with
`is_valid = true`, `valid_count = n`, the records' ZXIDs in file order, and the
last record's ZXID as `last_valid_zxid` when there is a record. -/
theorem validate_valid_log (path : String) (h : TxnLogHeader) (Rs : List Transaction)
    (hh : h.valid) (hRs : ∀ R ∈ Rs, R.wellFormed) :
    ∃ res, ValidateTxnLog path (some (headerBytes h ++ frames Rs)) = some (.ok res) ∧
      res.IsValid = true ∧ res.ValidTransactionCount = Rs.length ∧
      res.Transactions = Rs.map (fun R => R.readBack.Zxid) ∧
      (∀ hne : Rs ≠ [], res.LastValidZxid = (Rs.getLast hne).readBack.Zxid) := by
  have hv := ValidateTxnLog_frames path h Rs [] hh hRs
  rw [List.append_nil] at hv
  rw [hv, validateLoop_eof _ _ _ _ rfl]
  obtain ⟨h1, -, h3, -, -, h6, h7⟩ :=
    validateScan_fields (Rs.map Transaction.readBack) initialResult 16 0
  refine ⟨_, rfl, ?_, ?_, ?_, ?_⟩
  · rw [h1]; rfl
  · rw [h6]
    by_cases hnil : Rs = []
    · simp [hnil, initialResult]
    · simp [hnil]
  · rw [h3]; simp [initialResult]
  · intro hne
    rw [h7, getLast?_map_readBack Rs hne]

/-- The sample log of two records validates as C2 says. -/
theorem validate_valid_log_witness :
    ∃ res, ValidateTxnLog "log.100"
        (some (headerBytes sampleHeader ++ frames [sampleRecord 256, sampleRecord 257])) =
        some (.ok res) ∧
      res.IsValid = true ∧ res.ValidTransactionCount = 2 ∧ res.Transactions = [256, 257] ∧
      (∀ _ : [sampleRecord 256, sampleRecord 257] ≠ [], res.LastValidZxid = 257) :=
  validate_valid_log "log.100" sampleHeader [sampleRecord 256, sampleRecord 257]
    (by decide) (by decide)

/-- Bytes that do not begin with the frame of a well-formed record are not read
as a record. -/
theorem ReadTransaction_not_frame (r : TxnLogReader) (hg : r.rest ≠ [])
    (hbad : ∀ R tail, R.wellFormed → r.rest ≠ frame R ++ tail) :
    ∃ e r', r.ReadTransaction = (.error e, r') ∧ e ≠ .EOF := by
  rcases hres : r.ReadTransaction with ⟨res, r'⟩
  cases res with
  | error e => exact ⟨e, r', rfl, ReadTransaction_error_ne_EOF r r' e hres hg⟩
  | ok t =>
    obtain ⟨hwf, -, hrest, -⟩ := ReadTransaction_ok_inv r r' t hres
    exact absurd hrest (hbad t r'.rest hwf)

theorem validate_corrupt_tail (path : String) (h : TxnLogHeader) (Rs : List Transaction)
    (g : List Byte) (hh : h.valid) (hRs : ∀ R ∈ Rs, R.wellFormed) (hg : g ≠ [])
    (hbad : ∀ R tail, R.wellFormed → g ≠ frame R ++ tail) :
    ∃ res, ValidateTxnLog path (some (headerBytes h ++ (frames Rs ++ g))) = some (.ok res) ∧
      res.IsValid = false ∧ res.ValidTransactionCount = Rs.length ∧
      res.Transactions = Rs.map (fun R => R.readBack.Zxid) ∧
      (∀ hne : Rs ≠ [], res.LastValidZxid = (Rs.getLast hne).readBack.Zxid) ∧
      (Rs = [] → res.LastValidZxid = 0) := by
  obtain ⟨h1, -, h3, h4, -, h6, h7⟩ :=
    validateScan_fields (Rs.map Transaction.readBack) initialResult 16 0
  obtain ⟨e, r', hread, hne⟩ := ReadTransaction_not_frame
    { path := path, rest := g
      pos := ((Rs.map Transaction.readBack).foldl validateStep (initialResult, 16, 0)).2.1
      header := h } hg hbad
  rw [ValidateTxnLog_frames path h Rs g hh hRs, validateLoop_error _ _ _ _ _ _ hread hne]
  refine ⟨_, rfl, ?_, ?_, ?_, ?_, ?_⟩
  · rfl
  · show ((Rs.map Transaction.readBack).foldl validateStep
      (initialResult, 16, 0)).1.ValidTransactionCount = _
    rw [h6]
    by_cases hnil : Rs = []
    · simp [hnil, initialResult]
    · simp [hnil]
  · show ((Rs.map Transaction.readBack).foldl validateStep
      (initialResult, 16, 0)).1.Transactions = _
    rw [h3]; simp [initialResult]
  · intro hnil
    have hpos : 0 < Rs.length := List.length_pos.mpr hnil
    show (if _ > 0 then _ else _) = _
    rw [h4, if_pos (by simp only [List.length_map]; omega)]
    rw [h3]
    simp only [initialResult, List.nil_append, List.length_map, Nat.zero_add, List.map_map]
    exact getD_map_getLast (fun t => t.readBack.Zxid) Rs hnil
  · intro hnil
    subst hnil
    rfl

/-- C3 as stated fails: appending the frame of a valid record to a valid log of one
record gives a log that validates with `is_valid = true` and `valid_count = 2`. -/
theorem validate_appended_counterexample :
    frame (sampleRecord 257) ≠ [] ∧
    ValidateTxnLog "log.100"
        (some (headerBytes sampleHeader ++ frames [sampleRecord 256] ++
          frame (sampleRecord 257))) =
      some (.ok
        { IsValid := true, ValidTransactionCount := 2, LastValidPos := 60,
          LastValidZxid := 257, CorruptionType := "", Transactions := [256, 257] }) := by
  decide

/-- C3, amended: when non-empty bytes that do not begin with the frame of a valid
record are appended to a valid log of `n` records, validation returns
`is_valid = false`, `valid_count = n`, and the last record's ZXID as
`last_valid_zxid` when `n ≥ 1`. -/
theorem validate_appended_garbage (path : String) (h : TxnLogHeader) (Rs : List Transaction)
    (g : List Byte) (hh : h.valid) (hRs : ∀ R ∈ Rs, R.wellFormed) (hg : g ≠ [])
    (hbad : ∀ R tail, R.wellFormed → g ≠ frame R ++ tail) :
    ∃ res, ValidateTxnLog path (some (headerBytes h ++ frames Rs ++ g)) = some (.ok res) ∧
      res.IsValid = false ∧ res.ValidTransactionCount = Rs.length ∧
      (∀ hne : Rs ≠ [], res.LastValidZxid = (Rs.getLast hne).readBack.Zxid) := by
  obtain ⟨res, h1, h2, h3, -, h5, -⟩ := validate_corrupt_tail path h Rs g hh hRs hg hbad
  rw [List.append_assoc]
  exact ⟨res, h1, h2, h3, h5⟩

/-- The sample log of one record followed by three stray bytes. -/
theorem validate_appended_garbage_witness :
    ∃ res, ValidateTxnLog "log.100"
        (some (headerBytes sampleHeader ++ frames [sampleRecord 256] ++ [1, 2, 3])) =
        some (.ok res) ∧
      res.IsValid = false ∧ res.ValidTransactionCount = 1 ∧
      (∀ _ : [sampleRecord 256] ≠ [], res.LastValidZxid = 256) :=
  validate_appended_garbage "log.100" sampleHeader [sampleRecord 256] [1, 2, 3]
    (by decide) (by decide) (by decide)
    (by
      intro R tail hR heq
      have hlen := congrArg List.length heq
      have h32 := hR.2.1
      simp only [frame, List.length_append, bePut_length, List.length_cons,
        List.length_nil] at hlen
      omega)

/-! ## The loop of `copyTxnLogWithFilter` -/

theorem frame_ne_nil (R : Transaction) : frame R ≠ [] := by
  intro h
  have := congrArg List.length h
  simp [frame, bePut_length] at this

/-- Bytes that do not begin with the frame of a well-formed record make
`ReadTransaction` fail. -/
theorem ReadTransaction_fails (r : TxnLogReader)
    (hbad : ∀ R tail, R.wellFormed → r.rest ≠ frame R ++ tail) :
    ∃ e r', r.ReadTransaction = (.error e, r') := by
  rcases hres : r.ReadTransaction with ⟨res, r'⟩
  cases res with
  | error e => exact ⟨e, r', rfl⟩
  | ok t =>
    obtain ⟨hwf, -, hrest, -⟩ := ReadTransaction_ok_inv r r' t hres
    exact absurd hrest (hbad t r'.rest hwf)

theorem frame_readBack (R : Transaction) : frame R.readBack = frame R := rfl

theorem copyLoop_frames (filter : ZXID → Bool) (Rs : List Transaction)
    (hRs : ∀ R ∈ Rs, R.wellFormed) :
    ∀ (fuel : Nat) (r : TxnLogReader) (w : TxnLogWriter) (c : Nat) (tail : List Byte),
      r.rest = frames Rs ++ tail →
      ∃ p, copyLoop (Rs.length + fuel) r w filter c =
        copyLoop fuel { r with rest := tail, pos := p }
          { w with file := w.file ++ frames (Rs.filter fun R => filter R.readBack.Zxid) }
          filter (c + (Rs.filter fun R => filter R.readBack.Zxid).length) := by
  induction Rs with
  | nil =>
    intro fuel r w c tail h
    simp only [frames, List.nil_append] at h
    refine ⟨r.pos, ?_⟩
    simp only [List.length_nil, Nat.zero_add, List.filter_nil, frames, List.append_nil,
      Nat.add_zero, ← h]
  | cons R Rs ih =>
    intro fuel r w c tail h
    have hR : R.wellFormed := hRs R (List.mem_cons_self _ _)
    have hRs' : ∀ R' ∈ Rs, R'.wellFormed := fun R' hm => hRs R' (List.mem_cons_of_mem _ hm)
    have hfuel : (R :: Rs).length + fuel = (Rs.length + fuel) + 1 := by
      simp only [List.length_cons]; omega
    have hread := ReadTransaction_wellFormed r R (frames Rs ++ tail) hR
      (by rw [h, frames, List.append_assoc])
    rw [hfuel, copyLoop]
    simp only [hread]
    by_cases hf : filter R.readBack.Zxid = true
    · obtain ⟨p, hp⟩ := ih hRs' fuel
        { r with rest := frames Rs ++ tail, pos := r.pos + 8 + 4 + R.Data.length }
        { w with file := w.file ++ frame R } (c + 1) tail rfl
      refine ⟨p, ?_⟩
      simp only [hf, Bool.not_true, Bool.false_eq_true, if_false,
        TxnLogWriter.WriteTransaction]
      rw [List.filter_cons, if_pos hf]
      have hw : w.file ++ bePut 8 (ofInt64 R.readBack.Checksum) ++
          bePut 4 (ofInt32 R.readBack.Length) ++ R.readBack.Data = w.file ++ frame R := by
        simp only [frame, Transaction.readBack, List.append_assoc]
      rw [hw, hp]
      simp only [frames, List.length_cons, List.append_assoc]
      congr 1
      omega
    · obtain ⟨p, hp⟩ := ih hRs' fuel
        { r with rest := frames Rs ++ tail, pos := r.pos + 8 + 4 + R.Data.length }
        w c tail rfl
      refine ⟨p, ?_⟩
      simp only [hf, Bool.not_false, if_true]
      rw [List.filter_cons, if_neg hf, hp]

theorem copyLoop_stop (fuel : Nat) (r r' : TxnLogReader) (w : TxnLogWriter)
    (filter : ZXID → Bool) (c : Nat) (e : GoError) (h : r.ReadTransaction = (.error e, r')) :
    copyLoop (fuel + 1) r w filter c = some (.ok (w, c)) := by
  rw [copyLoop]
  simp only [h]

theorem CreateTxnLog_eq (path : String) (h : TxnLogHeader) :
    CreateTxnLog path h = .ok { path := path, file := headerBytes h } := by
  simp only [CreateTxnLog, TxnLogWriter.writeHeader, headerBytes, List.nil_append]

theorem readerAfterCreate_ne (inputPath outputPath : String) (r : TxnLogReader)
    (w : TxnLogWriter) (h : inputPath ≠ outputPath) :
    readerAfterCreate inputPath outputPath r w = r := by
  unfold readerAfterCreate
  rw [if_neg (fun e => h e.symm)]

/-- A filtered copy whose output path is its input path: creating the output cuts
the input to the header before the first record is read, the copy fails with "no
transactions to copy" and the file is left with the header alone. -/
theorem copyTxnLogWithFilter_same (path : String) (h : TxnLogHeader) (rest : List Byte)
    (filter : ZXID → Bool) (hh : h.valid) :
    copyTxnLogWithFilter path path (some (headerBytes h ++ rest)) filter =
      some { count := 0
             err := (NewUserError "no transactions to copy").WithContext "input_path"
               (.str path)
             output := some (headerBytes h) } := by
  have hlen : (headerBytes h).length = 16 := by
    simp only [headerBytes, List.length_append, bePut_length]
  have hdrop : (headerBytes h).drop 16 = [] := List.drop_of_length_le (by omega)
  obtain ⟨e, r', hstop⟩ := ReadTransaction_fails
    { path := path, rest := [], pos := 16, header := h }
    (fun R t _ heq => frame_ne_nil R (List.append_eq_nil.mp heq.symm).1)
  unfold copyTxnLogWithFilter
  rw [OpenTxnLog_valid path h _ hh]
  simp only [TxnLogReader.Header, CreateTxnLog_eq, readerAfterCreate, if_true, hdrop,
    List.length_nil, Nat.zero_add]
  rw [copyLoop_stop _ _ _ _ _ _ _ hstop]
  simp only [if_true]

/-- What a filtered copy to another path does on a valid header, well-formed
records and a tail that is not read as a record. -/
theorem copyTxnLogWithFilter_frames (inputPath outputPath : String) (h : TxnLogHeader)
    (Rs : List Transaction) (tail : List Byte) (filter : ZXID → Bool)
    (hpath : inputPath ≠ outputPath) (hh : h.valid)
    (hRs : ∀ R ∈ Rs, R.wellFormed)
    (hbad : ∀ R t, R.wellFormed → tail ≠ frame R ++ t) :
    copyTxnLogWithFilter inputPath outputPath (some (headerBytes h ++ (frames Rs ++ tail)))
        filter =
      some (if (Rs.filter fun R => filter R.readBack.Zxid).length = 0 then
          { count := 0
            err := (NewUserError "no transactions to copy").WithContext "input_path"
              (.str inputPath)
            output := some (headerBytes h) }
        else
          { count := (Rs.filter fun R => filter R.readBack.Zxid).length
            err := .nil
            output := some
              (headerBytes h ++ frames (Rs.filter fun R => filter R.readBack.Zxid)) }) := by
  have hlen : Rs.length ≤ (frames Rs ++ tail).length := by
    have := frames_length_ge Rs
    rw [List.length_append]; omega
  have hfuel : (frames Rs ++ tail).length + 1 =
      Rs.length + (((frames Rs ++ tail).length - Rs.length) + 1) := by omega
  obtain ⟨p, hp⟩ := copyLoop_frames filter Rs hRs
    (((frames Rs ++ tail).length - Rs.length) + 1)
    { path := inputPath, rest := frames Rs ++ tail, pos := 16, header := h }
    { path := outputPath, file := headerBytes h } 0 tail rfl
  obtain ⟨e, r', hstop⟩ := ReadTransaction_fails
    { path := inputPath, rest := tail, pos := p, header := h } hbad
  unfold copyTxnLogWithFilter
  rw [OpenTxnLog_valid inputPath h _ hh]
  simp only [TxnLogReader.Header, CreateTxnLog_eq]
  rw [readerAfterCreate_ne inputPath outputPath _ _ hpath]
  simp only []
  rw [hfuel, hp, copyLoop_stop _ _ _ _ _ _ _ hstop]
  simp only [Nat.zero_add, TxnLogWriter.Sync]
  split
  · rename_i h0
    rw [List.length_eq_zero.mp h0]
    simp only [frames, List.append_nil]
  · rfl

/-! ## Repair -/

/-- Repair of a corrupt log whose valid prefix is non-empty and has no ZXID above
that of its last record: the output is the header and the valid prefix. -/
theorem RepairTxnLog_frames (inputPath outputPath : String) (h : TxnLogHeader)
    (Rs : List Transaction) (g : List Byte) (hpath : inputPath ≠ outputPath) (hh : h.valid)
    (hRs : ∀ R ∈ Rs, R.wellFormed) (hne : Rs ≠ [])
    (hord : ∀ R ∈ Rs, R.readBack.Zxid ≤ (Rs.getLast hne).readBack.Zxid)
    (hg : g ≠ []) (hbad : ∀ R tail, R.wellFormed → g ≠ frame R ++ tail) :
    ∃ res, ValidateTxnLog outputPath (some (headerBytes h ++ frames Rs)) = some (.ok res) ∧
      res.IsValid = true ∧ res.ValidTransactionCount = Rs.length ∧
      RepairTxnLog inputPath outputPath (some (headerBytes h ++ (frames Rs ++ g))) =
        some { result := some res, err := .nil, output := some (headerBytes h ++ frames Rs) } := by
  obtain ⟨res0, hv0, hvalid0, hcount0, -, hlast0, -⟩ :=
    validate_corrupt_tail inputPath h Rs g hh hRs hg hbad
  obtain ⟨res, hv, hvalid, hcount, -, -⟩ := ValidateTxnLog_valid outputPath h Rs hh hRs
  refine ⟨res, hv, hvalid, hcount, ?_⟩
  have hpos : 0 < Rs.length := List.length_pos.mpr hne
  have hkeep : (Rs.filter fun R => decide (R.readBack.Zxid ≤ res0.LastValidZxid)) = Rs := by
    rw [List.filter_eq_self]
    intro R hR
    rw [hlast0 hne]
    exact decide_eq_true (hord R hR)
  have hcopy := copyTxnLogWithFilter_frames inputPath outputPath h Rs g
    (fun zxid => decide (zxid ≤ res0.LastValidZxid)) hpath hh hRs hbad
  rw [hkeep, if_neg (by omega)] at hcopy
  unfold RepairTxnLog
  rw [hv0]
  simp only [hvalid0, Bool.false_eq_true, if_false, hcount0]
  rw [if_neg (by omega)]
  unfold CopyTxnLogUntilZxid
  rw [hcopy]
  simp only [ne_eq, not_true_eq_false, if_false, hv, hvalid, Bool.not_true,
    Bool.false_eq_true]

/-- C4 as stated fails in three ways.  With records whose ZXIDs are 5 then 3 and
three stray bytes, the repaired file holds one record, not two; with no valid
record before the stray bytes, repair fails and writes no output; and with the
output path equal to the input path, creating the output cuts the input before
its records are read, repair fails with "no transactions to copy" and the file
is left with its header alone. -/
theorem repair_counterexample :
    (sampleRecord 5).wellFormed ∧ (sampleRecord 3).wellFormed ∧
    RepairTxnLog "log.5" "log.5.repaired"
        (some (headerBytes sampleHeader ++ frames [sampleRecord 5, sampleRecord 3] ++
          [1, 2, 3])) =
      some
        { result := some
            { IsValid := true, ValidTransactionCount := 1, LastValidPos := 16,
              LastValidZxid := 3, CorruptionType := "", Transactions := [3] }
          err := .nil
          output := some (headerBytes sampleHeader ++ frames [sampleRecord 3]) } ∧
    ValidateTxnLog "log.5.repaired"
        (some (headerBytes sampleHeader ++ frames [sampleRecord 3])) =
      some (.ok
        { IsValid := true, ValidTransactionCount := 1, LastValidPos := 16,
          LastValidZxid := 3, CorruptionType := "", Transactions := [3] }) ∧
    (RepairTxnLog "log.5" "log.5.repaired"
        (some (headerBytes sampleHeader ++ frames [] ++ [1, 2, 3]))).map
        (fun r => (r.err.message?, r.output)) =
      some (some "no valid transactions found", none) ∧
    (RepairTxnLog "log.100" "log.100"
        (some (headerBytes sampleHeader ++ frames [sampleRecord 256, sampleRecord 257] ++
          [1, 2, 3]))).map (fun r => (r.err.message?, r.output)) =
      some (some "no transactions to copy", some (headerBytes sampleHeader)) := by
  decide

/-- C4, amended: for an input made of a valid header, `n ≥ 1` valid records none of
whose ZXIDs exceeds that of the last one, and non-empty trailing bytes that do not
begin with the frame of a valid record, and an output path other than the input
path, `RepairTxnLog` succeeds and leaves an output file that validates with
`is_valid = true` and `valid_count = n`. -/
theorem repair_output_validates (inputPath outputPath : String) (h : TxnLogHeader)
    (Rs : List Transaction) (g : List Byte) (hpath : inputPath ≠ outputPath) (hh : h.valid)
    (hRs : ∀ R ∈ Rs, R.wellFormed) (hne : Rs ≠ [])
    (hord : ∀ R ∈ Rs, R.readBack.Zxid ≤ (Rs.getLast hne).readBack.Zxid)
    (hg : g ≠ []) (hbad : ∀ R tail, R.wellFormed → g ≠ frame R ++ tail) :
    ∃ rr out res,
      RepairTxnLog inputPath outputPath (some (headerBytes h ++ frames Rs ++ g)) = some rr ∧
      rr.err = .nil ∧ rr.output = some out ∧
      ValidateTxnLog outputPath (some out) = some (.ok res) ∧
      res.IsValid = true ∧ res.ValidTransactionCount = Rs.length := by
  obtain ⟨res, hv, hvalid, hcount, hrep⟩ :=
    RepairTxnLog_frames inputPath outputPath h Rs g hpath hh hRs hne hord hg hbad
  rw [List.append_assoc]
  exact ⟨_, _, res, hrep, rfl, rfl, hv, hvalid, hcount⟩

/-- Repair of the sample log of records 256 and 257 followed by three stray bytes. -/
theorem repair_output_validates_witness :
    ∃ rr out res,
      RepairTxnLog "log.100" "log.100.repaired"
        (some (headerBytes sampleHeader ++ frames [sampleRecord 256, sampleRecord 257] ++
          [1, 2, 3])) = some rr ∧
      rr.err = .nil ∧ rr.output = some out ∧
      ValidateTxnLog "log.100.repaired" (some out) = some (.ok res) ∧
      res.IsValid = true ∧ res.ValidTransactionCount = 2 :=
  repair_output_validates "log.100" "log.100.repaired" sampleHeader
    [sampleRecord 256, sampleRecord 257] [1, 2, 3] (by decide) (by decide) (by decide)
    (by decide) (by decide) (by decide)
    (by
      intro R tail hR heq
      have hlen := congrArg List.length heq
      have h32 := hR.2.1
      simp only [frame, List.length_append, bePut_length, List.length_cons,
        List.length_nil] at hlen
      omega)

/-! ## Every file with a valid header is a header, well-formed records and a tail -/

theorem OpenTxnLog_ok_inv (path : String) (content : List Byte) (reader : TxnLogReader)
    (h : OpenTxnLog path (some content) = .ok reader) :
    reader.header.valid ∧ content = headerBytes reader.header ++ reader.rest ∧
      reader.pos = 16 ∧ reader.path = path := by
  unfold OpenTxnLog TxnLogReader.readHeader at h
  simp only at h
  by_cases h4 : content.length < 4
  · obtain ⟨e, r1, he, -⟩ := readFull_short
      { path := path, rest := content, pos := 0, header := ⟨0, 0, 0⟩ } 4 h4
    rw [he] at h
    simp only at h
    by_cases he0 : e = .EOF
    · rw [if_pos he0] at h
      simp [NewIOError, NewCorruptionError, GoError.WithError, GoError.WithContext] at h
    · rw [if_neg he0] at h
      simp [NewIOError, NewCorruptionError, GoError.WithError, GoError.WithContext] at h
  have e1 := readFull_enough { path := path, rest := content, pos := 0, header := ⟨0, 0, 0⟩ } 4
    (by omega) (by simpa using h4)
  rw [e1] at h
  simp only at h
  by_cases hm : beUint (content.take 4) ≠ MagicNumber
  · rw [if_pos hm] at h
    simp [NewIOError, NewCorruptionError, GoError.WithError, GoError.WithContext] at h
  rw [if_neg hm] at h
  by_cases h8 : (content.drop 4).length < 4
  · obtain ⟨e, r1, he, -⟩ := readFull_short
      { path := path, rest := content.drop 4, pos := 0 + 4,
        header := ⟨beUint (content.take 4), 0, 0⟩ } 4 h8
    rw [he] at h
    simp [NewIOError, NewCorruptionError, GoError.WithError, GoError.WithContext] at h
  have e2 := readFull_enough
    { path := path, rest := content.drop 4, pos := 0 + 4,
      header := ⟨beUint (content.take 4), 0, 0⟩ } 4 (by omega) (by simpa using h8)
  rw [e2] at h
  simp only at h
  by_cases hv : beUint ((content.drop 4).take 4) ≠ LogVersion
  · rw [if_pos hv] at h
    simp [NewIOError, NewCorruptionError, GoError.WithError, GoError.WithContext] at h
  rw [if_neg hv] at h
  by_cases h16 : ((content.drop 4).drop 4).length < 8
  · obtain ⟨e, r1, he, -⟩ := readFull_short
      { path := path, rest := (content.drop 4).drop 4, pos := 0 + 4 + 4,
        header := ⟨beUint (content.take 4), beUint ((content.drop 4).take 4), 0⟩ } 8 h16
    rw [he] at h
    simp [NewIOError, NewCorruptionError, GoError.WithError, GoError.WithContext] at h
  have e3 := readFull_enough
    { path := path, rest := (content.drop 4).drop 4, pos := 0 + 4 + 4,
      header := ⟨beUint (content.take 4), beUint ((content.drop 4).take 4), 0⟩ } 8
    (by omega) (by simpa using h16)
  rw [e3] at h
  simp only [Except.ok.injEq] at h
  subst h
  push_neg at hm hv
  have l1 : (content.take 4).length = 4 := by
    rw [List.length_take]; omega
  have l2 : ((content.drop 4).take 4).length = 4 := by
    rw [List.length_take]; omega
  have l3 : (((content.drop 4).drop 4).take 8).length = 8 := by
    rw [List.length_take]; omega
  have b1 := bePut_beUint (content.take 4)
  have b2 := bePut_beUint ((content.drop 4).take 4)
  have b3 := bePut_beUint (((content.drop 4).drop 4).take 8)
  have lt1 := beUint_lt (content.take 4)
  have lt2 := beUint_lt ((content.drop 4).take 4)
  have lt3 := beUint_lt (((content.drop 4).drop 4).take 8)
  rw [l1] at b1 lt1
  rw [l2] at b2 lt2
  rw [l3] at b3 lt3
  refine ⟨⟨hm, hv, by simpa using lt3⟩, ?_, rfl, rfl⟩
  simp only [headerBytes]
  rw [Nat.mod_eq_of_lt (by omega), Nat.mod_eq_of_lt (by omega), Nat.mod_eq_of_lt (by omega),
    b1, b2, b3, List.append_assoc, List.append_assoc, List.take_append_drop,
    List.take_append_drop, List.take_append_drop]

theorem frames_decompose (n : Nat) :
    ∀ bytes : List Byte, bytes.length ≤ n →
      ∃ Rs tail, bytes = frames Rs ++ tail ∧ (∀ R ∈ Rs, R.wellFormed) ∧
        (∀ R t, R.wellFormed → tail ≠ frame R ++ t) := by
  induction n with
  | zero =>
    intro bytes hlen
    have hnil : bytes = [] := List.length_eq_zero.mp (by omega)
    subst hnil
    refine ⟨[], [], rfl, by simp, ?_⟩
    intro R t _ heq
    exact frame_ne_nil R (List.append_eq_nil.mp heq.symm).1
  | succ n ih =>
    intro bytes hlen
    rcases hres : (TxnLogReader.mk "" bytes 0 ⟨0, 0, 0⟩).ReadTransaction with ⟨res, r'⟩
    cases res with
    | error e =>
      refine ⟨[], bytes, rfl, by simp, ?_⟩
      intro R t hR heq
      rw [ReadTransaction_wellFormed _ R t hR heq] at hres
      cases hres
    | ok txn =>
      obtain ⟨hwf, -, hrest, -⟩ := ReadTransaction_ok_inv _ r' txn hres
      simp only at hrest
      have hpos : 0 < (frame txn).length := List.length_pos.mpr (frame_ne_nil txn)
      have hshort : r'.rest.length ≤ n := by
        have := congrArg List.length hrest
        rw [List.length_append] at this
        omega
      obtain ⟨Rs, tail, hdec, hall, hbad⟩ := ih r'.rest hshort
      refine ⟨txn :: Rs, tail, ?_, ?_, hbad⟩
      · rw [hrest, hdec, frames, List.append_assoc]
      · intro R hR
        rcases List.mem_cons.mp hR with rfl | hR'
        · exact hwf
        · exact hall R hR'

/-- A file that `ValidateTxnLog` accepts for scanning is a valid header, then the
frames of well-formed records whose ZXIDs the result lists, then a tail that is
not read as a record; the result is valid exactly when the tail is empty. -/
theorem ValidateTxnLog_ok_inv (path : String) (content : List Byte) (res : ValidationResult)
    (h : ValidateTxnLog path (some content) = some (.ok res)) :
    ∃ hd Rs tail, hd.valid ∧ content = headerBytes hd ++ (frames Rs ++ tail) ∧
      (∀ R ∈ Rs, R.wellFormed) ∧ (∀ R t, R.wellFormed → tail ≠ frame R ++ t) ∧
      res.Transactions = Rs.map (fun R => R.readBack.Zxid) ∧
      res.ValidTransactionCount = Rs.length ∧
      (res.IsValid = true ↔ tail = []) := by
  rcases hopen : OpenTxnLog path (some content) with e | reader
  · unfold ValidateTxnLog at h
    rw [hopen] at h
    cases h
  obtain ⟨hvalid, hcontent, -, -⟩ := OpenTxnLog_ok_inv path content reader hopen
  obtain ⟨Rs, tail, hdec, hall, hbad⟩ := frames_decompose reader.rest.length reader.rest
    (Nat.le_refl _)
  refine ⟨reader.header, Rs, tail, hvalid, by rw [hcontent, hdec], hall, hbad, ?_⟩
  rw [hcontent, hdec] at h
  by_cases ht : tail = []
  · subst ht
    obtain ⟨res', hv, h1, h2, h3, -⟩ := ValidateTxnLog_valid path reader.header Rs hvalid hall
    rw [List.append_nil, hv] at h
    simp only [Option.some.injEq, Except.ok.injEq] at h
    subst h
    exact ⟨h3, h2, by simp [h1]⟩
  · obtain ⟨res', hv, h1, h2, h3, -⟩ :=
      validate_corrupt_tail path reader.header Rs tail hvalid hall ht hbad
    rw [hv] at h
    simp only [Option.some.injEq, Except.ok.injEq] at h
    subst h
    exact ⟨h3, h2, by simp [h1, ht]⟩

/-! ## Filtered copy of an arbitrary file with a valid header -/

/-- The filtered copy of a file that `ValidateTxnLog` scans with result `res`
keeps well-formed records `Rs` whose ZXIDs are those of `res` that pass the
filter: with none kept it fails and leaves the header, otherwise it leaves the
header and the frames of `Rs`. -/
theorem copyTxnLogWithFilter_zxids (inputPath outputPath : String) (content : List Byte)
    (filter : ZXID → Bool) (res : ValidationResult) (hpath : inputPath ≠ outputPath)
    (hval : ValidateTxnLog inputPath (some content) = some (.ok res)) :
    ∃ hd Rs, hd.valid ∧ (∀ R ∈ Rs, R.wellFormed) ∧
      res.Transactions.filter filter = Rs.map (fun R => R.readBack.Zxid) ∧
      copyTxnLogWithFilter inputPath outputPath (some content) filter =
        some (if Rs.length = 0 then
            { count := 0
              err := (NewUserError "no transactions to copy").WithContext "input_path"
                (.str inputPath)
              output := some (headerBytes hd) }
          else
            { count := Rs.length, err := .nil, output := some (headerBytes hd ++ frames Rs) }) := by
  obtain ⟨hd, Rs0, tail, hvalid, hcontent, hall, hbad, htx, -, -⟩ :=
    ValidateTxnLog_ok_inv inputPath content res hval
  refine ⟨hd, Rs0.filter fun R => filter R.readBack.Zxid, hvalid, ?_, ?_, ?_⟩
  · intro R hR
    exact hall R (List.mem_filter.mp hR).1
  · rw [htx, List.filter_map]
    rfl
  · rw [hcontent]
    exact copyTxnLogWithFilter_frames inputPath outputPath hd Rs0 tail filter hpath hvalid hall
      hbad

theorem filter_ne_nil_of_exists (filter : ZXID → Bool) (zs : List ZXID)
    (h : ∃ z ∈ zs, filter z = true) : (zs.filter filter).length ≠ 0 := by
  obtain ⟨z, hz, hf⟩ := h
  have hmem : z ∈ zs.filter filter := List.mem_filter.mpr ⟨hz, hf⟩
  intro h0
  rw [List.length_eq_zero.mp h0] at hmem
  cases hmem

theorem copyTxnLogWithFilter_some (inputPath outputPath : String) (content : List Byte)
    (filter : ZXID → Bool) (res : ValidationResult) (hpath : inputPath ≠ outputPath)
    (hval : ValidateTxnLog inputPath (some content) = some (.ok res))
    (hex : ∃ z ∈ res.Transactions, filter z = true) :
    ∃ out res',
      copyTxnLogWithFilter inputPath outputPath (some content) filter =
        some { count := (res.Transactions.filter filter).length, err := .nil,
               output := some out } ∧
      ValidateTxnLog outputPath (some out) = some (.ok res') ∧ res'.IsValid = true ∧
      res'.Transactions = res.Transactions.filter filter := by
  obtain ⟨hd, Rs, hvalid, hall, hzx, hcopy⟩ :=
    copyTxnLogWithFilter_zxids inputPath outputPath content filter res hpath hval
  have hlen : (res.Transactions.filter filter).length = Rs.length := by
    rw [hzx, List.length_map]
  have hne : Rs.length ≠ 0 := by
    rw [← hlen]; exact filter_ne_nil_of_exists filter _ hex
  rw [if_neg hne] at hcopy
  obtain ⟨res', hv, h1, -, h3, -⟩ := ValidateTxnLog_valid outputPath hd Rs hvalid hall
  refine ⟨headerBytes hd ++ frames Rs, res', ?_, hv, h1, ?_⟩
  · rw [hcopy, hlen]
  · rw [h3, hzx]

theorem copyTxnLogWithFilter_none (inputPath outputPath : String) (content : List Byte)
    (filter : ZXID → Bool) (res : ValidationResult) (hpath : inputPath ≠ outputPath)
    (hval : ValidateTxnLog inputPath (some content) = some (.ok res))
    (hall : ∀ z ∈ res.Transactions, filter z = false) :
    ∃ out,
      copyTxnLogWithFilter inputPath outputPath (some content) filter =
        some { count := 0
               err := (NewUserError "no transactions to copy").WithContext "input_path"
                 (.str inputPath)
               output := some out } := by
  obtain ⟨hd, Rs, -, -, hzx, hcopy⟩ :=
    copyTxnLogWithFilter_zxids inputPath outputPath content filter res hpath hval
  have hnil : res.Transactions.filter filter = [] := by
    rw [List.filter_eq_nil_iff]
    intro z hz
    rw [hall z hz]
    exact Bool.false_ne_true
  have hlen : Rs.length = 0 := by
    rw [hnil] at hzx
    have := congrArg List.length hzx
    simpa using this.symm
  rw [if_pos hlen] at hcopy
  exact ⟨_, hcopy⟩

set_option maxRecDepth 100000 in
/-- C5 as stated fails when the output path is the input path.  The log of the
records 256, 257, 258 copied onto itself with bound 257, where records match
either filter: creating the output cuts the input to its header before the
first record is read, both copies return count 0 and the error
"no transactions to copy", and the file is left with its header alone. -/
theorem copy_same_path_counterexample :
    ValidateTxnLog "log.100"
        (some (headerBytes sampleHeader ++
          frames [sampleRecord 256, sampleRecord 257, sampleRecord 258])) =
      some (.ok
        { IsValid := true, ValidTransactionCount := 3, LastValidPos := 104,
          LastValidZxid := 258, CorruptionType := "",
          Transactions := [256, 257, 258] }) ∧
    CopyTxnLogUntilZxid "log.100" "log.100"
        (some (headerBytes sampleHeader ++
          frames [sampleRecord 256, sampleRecord 257, sampleRecord 258])) 257 =
      some { count := 0
             err := (NewUserError "no transactions to copy").WithContext "input_path"
               (.str "log.100")
             output := some (headerBytes sampleHeader) } ∧
    CopyTxnLogFromZxid "log.100" "log.100"
        (some (headerBytes sampleHeader ++
          frames [sampleRecord 256, sampleRecord 257, sampleRecord 258])) 257 =
      some { count := 0
             err := (NewUserError "no transactions to copy").WithContext "input_path"
               (.str "log.100")
             output := some (headerBytes sampleHeader) } := by
  decide

/-- C5, amended: for an input log with a valid header whose readable records have
the ZXIDs `res.Transactions`, and an output path other than the input path, when
some record matches, `CopyTxnLogUntilZxid` writes a log whose record ZXIDs are
exactly those `≤ Z` in the original order and `CopyTxnLogFromZxid` one whose
record ZXIDs are exactly those `≥ Z`, and each returns the number of records
written. -/
theorem copy_zxid_subsequence (inputPath outputPath : String) (content : List Byte)
    (Z : ZXID) (res : ValidationResult) (hpath : inputPath ≠ outputPath)
    (hval : ValidateTxnLog inputPath (some content) = some (.ok res)) :
    ((∃ z ∈ res.Transactions, z ≤ Z) →
      ∃ out res',
        CopyTxnLogUntilZxid inputPath outputPath (some content) Z =
          some { count := (res.Transactions.filter fun z => decide (z ≤ Z)).length
                 err := .nil, output := some out } ∧
        ValidateTxnLog outputPath (some out) = some (.ok res') ∧ res'.IsValid = true ∧
        res'.Transactions = res.Transactions.filter fun z => decide (z ≤ Z)) ∧
    ((∃ z ∈ res.Transactions, z ≥ Z) →
      ∃ out res',
        CopyTxnLogFromZxid inputPath outputPath (some content) Z =
          some { count := (res.Transactions.filter fun z => decide (z ≥ Z)).length
                 err := .nil, output := some out } ∧
        ValidateTxnLog outputPath (some out) = some (.ok res') ∧ res'.IsValid = true ∧
        res'.Transactions = res.Transactions.filter fun z => decide (z ≥ Z)) := by
  constructor
  · rintro ⟨z, hz, hle⟩
    exact copyTxnLogWithFilter_some inputPath outputPath content
      (fun z => decide (z ≤ Z)) res hpath hval ⟨z, hz, decide_eq_true hle⟩
  · rintro ⟨z, hz, hge⟩
    exact copyTxnLogWithFilter_some inputPath outputPath content
      (fun z => decide (z ≥ Z)) res hpath hval ⟨z, hz, decide_eq_true hge⟩

set_option maxRecDepth 100000 in
/-- Copies of the sample log of records 256, 257, 258 followed by three stray
bytes, with bound 257. -/
theorem copy_zxid_subsequence_witness :
    (∃ out res',
      CopyTxnLogUntilZxid "log.100" "log.out"
          (some (headerBytes sampleHeader ++
            frames [sampleRecord 256, sampleRecord 257, sampleRecord 258] ++ [1, 2, 3])) 257 =
        some { count := 2, err := .nil, output := some out } ∧
      ValidateTxnLog "log.out" (some out) = some (.ok res') ∧ res'.IsValid = true ∧
      res'.Transactions = [256, 257]) ∧
    (∃ out res',
      CopyTxnLogFromZxid "log.100" "log.out"
          (some (headerBytes sampleHeader ++
            frames [sampleRecord 256, sampleRecord 257, sampleRecord 258] ++ [1, 2, 3])) 257 =
        some { count := 2, err := .nil, output := some out } ∧
      ValidateTxnLog "log.out" (some out) = some (.ok res') ∧ res'.IsValid = true ∧
      res'.Transactions = [257, 258]) :=
  have hval : ValidateTxnLog "log.100"
      (some (headerBytes sampleHeader ++
        frames [sampleRecord 256, sampleRecord 257, sampleRecord 258] ++ [1, 2, 3])) =
      some (.ok
        { IsValid := false, ValidTransactionCount := 3, LastValidPos := 148,
          LastValidZxid := 258, CorruptionType := "unexpected EOF",
          Transactions := [256, 257, 258] }) := by decide
  ⟨(copy_zxid_subsequence "log.100" "log.out" _ 257 _ (by decide) hval).1 (by decide),
    (copy_zxid_subsequence "log.100" "log.out" _ 257 _ (by decide) hval).2 (by decide)⟩

theorem copyTxnLogWithFilter_err_iff (inputPath outputPath : String) (content : List Byte)
    (filter : ZXID → Bool) (res : ValidationResult) (hpath : inputPath ≠ outputPath)
    (hval : ValidateTxnLog inputPath (some content) = some (.ok res)) :
    ∃ cr, copyTxnLogWithFilter inputPath outputPath (some content) filter = some cr ∧
      (cr.err ≠ .nil ↔ ∀ z ∈ res.Transactions, filter z = false) ∧
      (cr.err ≠ .nil →
        cr.err.category? = some .user ∧ cr.err.message? = some "no transactions to copy") := by
  by_cases hex : ∃ z ∈ res.Transactions, filter z = true
  · obtain ⟨out, res', hcopy, -⟩ :=
      copyTxnLogWithFilter_some inputPath outputPath content filter res hpath hval hex
    refine ⟨_, hcopy, ?_, ?_⟩
    · constructor
      · intro h; exact absurd rfl h
      · intro hall
        obtain ⟨z, hz, hf⟩ := hex
        rw [hall z hz] at hf
        cases hf
    · intro h; exact absurd rfl h
  · have hall : ∀ z ∈ res.Transactions, filter z = false := by
      intro z hz
      cases hf : filter z with
      | false => rfl
      | true => exact absurd ⟨z, hz, hf⟩ hex
    obtain ⟨out, hcopy⟩ :=
      copyTxnLogWithFilter_none inputPath outputPath content filter res hpath hval hall
    refine ⟨_, hcopy, ?_, ?_⟩
    · constructor
      · intro _; exact hall
      · intro _ h; cases h
    · intro _; exact ⟨rfl, rfl⟩

set_option maxRecDepth 100000 in
/-- C7 as stated fails when the output path is the input path.  The log of the
records 256 and 257 copied onto itself up to ZXID 300: both records satisfy the
predicate, yet the copy returns the User-category error "no transactions to
copy", the input having been cut to its header when the output was created. -/
theorem copy_error_counterexample :
    ValidateTxnLog "log.100"
        (some (headerBytes sampleHeader ++ frames [sampleRecord 256, sampleRecord 257])) =
      some (.ok
        { IsValid := true, ValidTransactionCount := 2, LastValidPos := 60,
          LastValidZxid := 257, CorruptionType := "", Transactions := [256, 257] }) ∧
    (∃ z ∈ [256, 257], z ≤ 300) ∧
    (CopyTxnLogUntilZxid "log.100" "log.100"
        (some (headerBytes sampleHeader ++ frames [sampleRecord 256, sampleRecord 257]))
        300).map (fun cr => (cr.count, cr.err.category?, cr.err.message?, cr.output)) =
      some (0, some .user, some "no transactions to copy",
        some (headerBytes sampleHeader)) := by
  decide

/-- C7, amended: for an input log with a valid header whose readable records have
the ZXIDs `res.Transactions` (the records before the first corruption or end of
file), and an output path other than the input path, `CopyTxnLogUntilZxid` and
`CopyTxnLogFromZxid` return an error exactly when no readable record satisfies
the predicate, and that error is the User-category error "no transactions to
copy"; corruption in the source only ends the copy. -/
theorem copy_error_iff (inputPath outputPath : String) (content : List Byte) (Z : ZXID)
    (res : ValidationResult) (hpath : inputPath ≠ outputPath)
    (hval : ValidateTxnLog inputPath (some content) = some (.ok res)) :
    ∃ cu cf,
      CopyTxnLogUntilZxid inputPath outputPath (some content) Z = some cu ∧
      CopyTxnLogFromZxid inputPath outputPath (some content) Z = some cf ∧
      (cu.err ≠ .nil ↔ ∀ z ∈ res.Transactions, ¬ z ≤ Z) ∧
      (cf.err ≠ .nil ↔ ∀ z ∈ res.Transactions, ¬ z ≥ Z) ∧
      (cu.err ≠ .nil →
        cu.err.category? = some .user ∧ cu.err.message? = some "no transactions to copy") ∧
      (cf.err ≠ .nil →
        cf.err.category? = some .user ∧ cf.err.message? = some "no transactions to copy") := by
  obtain ⟨cu, hcu, hiffu, hmsgu⟩ := copyTxnLogWithFilter_err_iff inputPath outputPath content
    (fun z => decide (z ≤ Z)) res hpath hval
  obtain ⟨cf, hcf, hifff, hmsgf⟩ := copyTxnLogWithFilter_err_iff inputPath outputPath content
    (fun z => decide (z ≥ Z)) res hpath hval
  refine ⟨cu, cf, hcu, hcf, ?_, ?_, hmsgu, hmsgf⟩
  · rw [hiffu]
    simp only [decide_eq_false_iff_not]
  · rw [hifff]
    simp only [decide_eq_false_iff_not]

set_option maxRecDepth 100000 in
/-- Copies of the sample log of records 256 and 257 followed by a partial record
of three bytes, with bound 300: the copy up to 300 succeeds, the copy from 300
fails with "no transactions to copy". -/
theorem copy_error_iff_witness :
    ∃ cu cf,
      CopyTxnLogUntilZxid "log.100" "log.out"
        (some (headerBytes sampleHeader ++ frames [sampleRecord 256, sampleRecord 257] ++
          [1, 2, 3])) 300 = some cu ∧
      CopyTxnLogFromZxid "log.100" "log.out"
        (some (headerBytes sampleHeader ++ frames [sampleRecord 256, sampleRecord 257] ++
          [1, 2, 3])) 300 = some cf ∧
      (cu.err ≠ .nil ↔ ∀ z ∈ [256, 257], ¬ z ≤ 300) ∧
      (cf.err ≠ .nil ↔ ∀ z ∈ [256, 257], ¬ z ≥ 300) ∧
      (cu.err ≠ .nil →
        cu.err.category? = some .user ∧ cu.err.message? = some "no transactions to copy") ∧
      (cf.err ≠ .nil →
        cf.err.category? = some .user ∧ cf.err.message? = some "no transactions to copy") :=
  copy_error_iff "log.100" "log.out" _ 300
    { IsValid := false, ValidTransactionCount := 2, LastValidPos := 104,
      LastValidZxid := 257, CorruptionType := "unexpected EOF", Transactions := [256, 257] }
    (by decide) (by decide)

/-! ## Writing a log and reading it back -/

theorem writeAll_eq (ts : List Transaction) :
    ∀ w : TxnLogWriter, writeAll w ts = (.nil, { w with file := w.file ++ frames ts }) := by
  induction ts with
  | nil => intro w; simp [writeAll, frames]
  | cons t ts ih =>
    intro w
    simp only [writeAll, TxnLogWriter.WriteTransaction, ih, frames, frame, List.append_assoc]

theorem writeLog_eq (path : String) (h : TxnLogHeader) (ts : List Transaction) :
    writeLog path h ts = .ok (headerBytes h ++ frames ts) := by
  simp only [writeLog, CreateTxnLog_eq, writeAll_eq]

theorem readTimes_frames (Rs : List Transaction) (hRs : ∀ R ∈ Rs, R.wellFormed) :
    ∀ (k : Nat) (r : TxnLogReader) (tail : List Byte), r.rest = frames Rs ++ tail →
      ∃ p, readTimes (Rs.length + k) r =
        Rs.map (fun R => .ok R.readBack) ++
          readTimes k { r with rest := tail, pos := p } := by
  induction Rs with
  | nil =>
    intro k r tail h
    simp only [frames, List.nil_append] at h
    refine ⟨r.pos, ?_⟩
    simp only [List.length_nil, Nat.zero_add, List.map_nil, List.nil_append, ← h]
  | cons R Rs ih =>
    intro k r tail h
    have hR : R.wellFormed := hRs R (List.mem_cons_self _ _)
    have hRs' : ∀ R' ∈ Rs, R'.wellFormed := fun R' hm => hRs R' (List.mem_cons_of_mem _ hm)
    have hk : (R :: Rs).length + k = (Rs.length + k) + 1 := by
      simp only [List.length_cons]; omega
    have hread := ReadTransaction_wellFormed r R (frames Rs ++ tail) hR
      (by rw [h, frames, List.append_assoc])
    obtain ⟨p, hp⟩ := ih hRs' k
      { r with rest := frames Rs ++ tail, pos := r.pos + 8 + 4 + R.Data.length } tail rfl
    refine ⟨p, ?_⟩
    rw [hk, readTimes, hread]
    simp only [hp, List.map_cons, List.cons_append]

theorem writeThenRead_eq (path : String) (h : TxnLogHeader) (ts : List Transaction) (n : Nat)
    (hh : h.valid) :
    writeThenRead path h ts n =
      .ok (readTimes n { path := path, rest := frames ts, pos := 16, header := h }) := by
  simp only [writeThenRead, writeLog_eq, OpenTxnLog_valid path h (frames ts) hh]

theorem ReadTransaction_invalid_length (r : TxnLogReader) (cs ls rest : List Byte)
    (hcs : cs.length = 8) (hls : ls.length = 4) (h : r.rest = cs ++ ls ++ rest)
    (hl : toInt32 (beUint ls) ≤ 0 ∨ toInt32 (beUint ls) > MaxRecordSize) :
    r.ReadTransaction =
      (.error ((((NewCorruptionError "invalid record length").WithContext "path"
        (.str r.path)).WithContext "length" (.int (toInt32 (beUint ls)))).WithContext "max"
        (.int MaxRecordSize)), { r with rest := rest, pos := r.pos + 8 + 4 }) := by
  rw [ReadTransaction_frame r cs ls rest hcs hls h]
  simp only
  rw [if_pos hl]

/-- C1 as stated fails in two ways.  A record with a 32-byte body and the right
checksum whose `Length` field is 33 is written as is, and reading it back fails
with "failed to read body"; a record whose body has 10485761 bytes, with
`Length` equal to that and the right checksum, is written as is and reading it
back fails with "invalid record length". -/
theorem roundtrip_counterexample :
    (32 ≤ mislabelledRecord.Data.length ∧
      mislabelledRecord.Checksum = (adler32Checksum mislabelledRecord.Data : Nat) ∧
      writeThenRead "log.100" sampleHeader [mislabelledRecord] 2 =
        .ok [.error (.Backup .nil "failed to read body" .corruption
              [("path", .str "log.100"), ("length", .int 33)]),
             .error .EOF]) ∧
    (32 ≤ oversizedRecord.Data.length ∧
      oversizedRecord.Length = (oversizedRecord.Data.length : Nat) ∧
      oversizedRecord.Checksum = (adler32Checksum oversizedRecord.Data : Nat) ∧
      ∃ rest, writeThenRead "log.100" sampleHeader [oversizedRecord] 2 =
        .ok (.error (.Backup .nil "invalid record length" .corruption
              [("path", .str "log.100"), ("length", .int 10485761),
               ("max", .int 10485760)]) :: rest)) := by
  refine ⟨by decide, ?_, ?_, rfl, ?_⟩
  · show 32 ≤ (List.replicate 10485761 (0 : Byte)).length
    rw [List.length_replicate]
    decide
  · show (10485761 : Int) = ((List.replicate 10485761 (0 : Byte)).length : Nat)
    rw [List.length_replicate]
    rfl
  · have hframe := ReadTransaction_invalid_length
      { path := "log.100", rest := frames [oversizedRecord], pos := 16, header := sampleHeader }
      (bePut 8 (ofInt64 oversizedRecord.Checksum)) (bePut 4 (ofInt32 oversizedRecord.Length))
      (oversizedRecord.Data ++ []) (bePut_length _ _) (bePut_length _ _)
      (by simp only [frames, frame, List.append_assoc]) (Or.inr (by decide))
    refine ⟨readTimes 1
      { path := "log.100", rest := oversizedRecord.Data ++ [], pos := 16 + 8 + 4,
        header := sampleHeader }, ?_⟩
    rw [writeThenRead_eq _ _ _ _ (by decide), readTimes, hframe]
    rfl

/-- C1, amended: for every valid header and every list of records whose `Length`
field is the byte count of the body, whose bodies have at least 32 and at most
10485760 bytes and whose stored checksum is the Adler-32 of the body, writing the
header and the records in order, reopening the file and calling `ReadTransaction`
`n + 1` times yields the `n` records (same checksum, length and body, meta fields
decoded from the body) and then `io.EOF`. -/
theorem write_read_roundtrip (path : String) (h : TxnLogHeader) (Rs : List Transaction)
    (hh : h.valid) (hRs : ∀ R ∈ Rs, R.wellFormed) :
    writeThenRead path h Rs (Rs.length + 1) =
      .ok (Rs.map (fun R => .ok R.readBack) ++ [.error .EOF]) := by
  obtain ⟨p, hp⟩ := readTimes_frames Rs hRs 1
    { path := path, rest := frames Rs, pos := 16, header := h } [] (by simp)
  rw [writeThenRead_eq path h Rs _ hh, hp]
  simp only [readTimes]
  rw [ReadTransaction_nil { path := path, rest := [], pos := p, header := h } rfl]

/-- The sample log of records 256 and 257 written and read back. -/
theorem write_read_roundtrip_witness :
    writeThenRead "log.100" sampleHeader [sampleRecord 256, sampleRecord 257] 3 =
      .ok [.ok (sampleRecord 256), .ok (sampleRecord 257), .error .EOF] :=
  write_read_roundtrip "log.100" sampleHeader [sampleRecord 256, sampleRecord 257]
    (by decide) (by decide)

/-! ## Frames whose length field is in range -/

/-- `ReadTransaction` on the frame of a record whose `Length` is the byte count of
its body, between 1 and `MaxRecordSize`, and whose `Checksum` is an `int64`. -/
theorem ReadTransaction_record (r : TxnLogReader) (t : Transaction) (tail : List Byte)
    (hlen : t.Length = (t.Data.length : Int)) (hpos : 0 < t.Data.length)
    (hmax : (t.Data.length : Int) ≤ MaxRecordSize)
    (hlo : -2 ^ 63 ≤ t.Checksum) (hhi : t.Checksum < 2 ^ 63)
    (h : r.rest = frame t ++ tail) :
    r.ReadTransaction =
      (if (adler32Checksum t.Data : Int) ≠ t.Checksum then
        (.error ((((NewCorruptionError "checksum mismatch").WithContext "path"
          (.str r.path)).WithContext "expected" (.int t.Checksum)).WithContext
          "calculated" (.int (adler32Checksum t.Data : Int))),
          { r with rest := tail, pos := r.pos + 8 + 4 + t.Data.length })
      else
        match ({ Transaction.zero with
            Checksum := t.Checksum, Length := t.Length, Data := t.Data } : Transaction).parse with
        | .error err =>
          (.error (((NewCorruptionError "failed to parse transaction").WithError
            err).WithContext "path" (.str r.path)),
            { r with rest := tail, pos := r.pos + 8 + 4 + t.Data.length })
        | .ok txn => (.ok txn, { r with rest := tail, pos := r.pos + 8 + 4 + t.Data.length })) := by
  have hmax' : (t.Data.length : Int) ≤ 10485760 := by simpa [MaxRecordSize] using hmax
  have hc : toInt64 (beUint (bePut 8 (ofInt64 t.Checksum))) = t.Checksum := by
    rw [beUint_bePut, Nat.mod_eq_of_lt (by have := ofInt64_lt t.Checksum; omega),
      toInt64_ofInt64 _ hlo hhi]
  have hl : toInt32 (beUint (bePut 4 (ofInt32 t.Length))) = t.Length := by
    rw [beUint_bePut, Nat.mod_eq_of_lt (by have := ofInt32_lt t.Length; omega),
      toInt32_ofInt32 _ (by omega) (by omega)]
  have hframe := ReadTransaction_frame r (bePut 8 (ofInt64 t.Checksum))
    (bePut 4 (ofInt32 t.Length)) (t.Data ++ tail) (bePut_length _ _) (bePut_length _ _)
    (by simp [h, frame])
  rw [hframe]
  simp only [hc, hl]
  have hD : t.Data ≠ [] := by intro h0; simp [h0] at hpos
  have hrf := readFull_append
    { r with rest := t.Data ++ tail, pos := r.pos + 8 + 4 } t.Data tail rfl hD
  have hto : t.Length.toNat = t.Data.length := by omega
  rw [if_neg (by simp only [MaxRecordSize]; omega), hto, hrf]

/-- C6: `WriteTransaction` does not check the checksum.  For a record with length
in (0, 10 MiB], a body of exactly that length and a stored (64-bit) checksum other
than the Adler-32 of the body, `WriteTransaction` succeeds and appends the stored
checksum, the length and the body as they are, and `ReadTransaction` on the bytes
written fails with the Corruption-category error "checksum mismatch", which
reports the stored checksum as the expected one. -/
theorem write_unchecked_checksum (w : TxnLogWriter) (r : TxnLogReader) (t : Transaction)
    (tail : List Byte) (hpos : 0 < t.Length) (hmax : t.Length ≤ MaxRecordSize)
    (hbody : (t.Data.length : Int) = t.Length)
    (hlo : -2 ^ 63 ≤ t.Checksum) (hhi : t.Checksum < 2 ^ 63)
    (hck : t.Checksum ≠ (adler32Checksum t.Data : Int))
    (hr : r.rest = (bePut 8 (ofInt64 t.Checksum) ++ bePut 4 (ofInt32 t.Length) ++ t.Data) ++
      tail) :
    w.WriteTransaction t =
      (.nil, { w with
        file := w.file ++ bePut 8 (ofInt64 t.Checksum) ++ bePut 4 (ofInt32 t.Length) ++
          t.Data }) ∧
    toInt64 (beUint (bePut 8 (ofInt64 t.Checksum))) = t.Checksum ∧
    toInt32 (beUint (bePut 4 (ofInt32 t.Length))) = t.Length ∧
    ∃ e r', r.ReadTransaction = (.error e, r') ∧
      e.category? = some .corruption ∧ e.message? = some "checksum mismatch" ∧
      e = .Backup .nil "checksum mismatch" .corruption
        [("path", .str r.path), ("expected", .int t.Checksum),
         ("calculated", .int (adler32Checksum t.Data : Int))] := by
  have hmax' : t.Length ≤ 10485760 := by simpa [MaxRecordSize] using hmax
  refine ⟨rfl, ?_, ?_, ?_⟩
  · rw [beUint_bePut, Nat.mod_eq_of_lt (by have := ofInt64_lt t.Checksum; omega),
      toInt64_ofInt64 _ hlo hhi]
  · rw [beUint_bePut, Nat.mod_eq_of_lt (by have := ofInt32_lt t.Length; omega),
      toInt32_ofInt32 _ (by omega) (by omega)]
  · have hread := ReadTransaction_record r t tail hbody.symm (by omega)
      (by rw [hbody]; exact hmax) hlo hhi hr
    rw [if_pos (fun h => hck h.symm)] at hread
    exact ⟨_, _, hread, rfl, rfl, rfl⟩

/-- The sample record with stored checksum 99999, written and read back. -/
theorem write_unchecked_checksum_witness :
    (TxnLogWriter.mk "log.100" (headerBytes sampleHeader)).WriteTransaction
        wrongChecksumRecord =
      (.nil, { path := "log.100"
               file := headerBytes sampleHeader ++ bePut 8 99999 ++ bePut 4 32 ++
                 sampleBody 256 }) ∧
    toInt64 (beUint (bePut 8 (ofInt64 wrongChecksumRecord.Checksum))) = 99999 ∧
    toInt32 (beUint (bePut 4 (ofInt32 wrongChecksumRecord.Length))) = 32 ∧
    ∃ e r',
      (TxnLogReader.mk "log.100" (frame wrongChecksumRecord) 16
        sampleHeader).ReadTransaction = (.error e, r') ∧
      e.category? = some .corruption ∧ e.message? = some "checksum mismatch" ∧
      e = .Backup .nil "checksum mismatch" .corruption
        [("path", .str "log.100"), ("expected", .int 99999),
         ("calculated", .int (adler32Checksum (sampleBody 256) : Nat))] :=
  write_unchecked_checksum (TxnLogWriter.mk "log.100" (headerBytes sampleHeader))
    (TxnLogReader.mk "log.100" (frame wrongChecksumRecord) 16 sampleHeader)
    wrongChecksumRecord [] (by decide) (by decide) (by decide) (by decide) (by decide)
    (by decide) (by decide)

/-! ## Which frames are accepted -/

/-- C8 as stated fails: the record `highBitsRecord` has its length in range, its
body fully present, 32 body bytes, and the Adler-32 of its body equals its stored
64-bit checksum reduced modulo `2 ^ 32`, yet `ReadTransaction` rejects its frame
with "checksum mismatch". -/
theorem record_valid_counterexample :
    (0 < highBitsRecord.Length ∧ highBitsRecord.Length ≤ 10485760) ∧
    (highBitsRecord.Data.length : Int) = highBitsRecord.Length ∧
    (adler32Checksum highBitsRecord.Data : Int) = highBitsRecord.Checksum % 2 ^ 32 ∧
    32 ≤ highBitsRecord.Data.length ∧
    toInt64 (beUint ((frame highBitsRecord).take 8)) = highBitsRecord.Checksum ∧
    (TxnLogReader.mk "log.100" (frame highBitsRecord) 16 sampleHeader).ReadTransaction =
      (.error (.Backup .nil "checksum mismatch" .corruption
          [("path", .str "log.100"), ("expected", .int highBitsRecord.Checksum),
           ("calculated", .int (adler32Checksum highBitsRecord.Data : Nat))]),
        ⟨"log.100", [], 60, sampleHeader⟩) := by
  decide

/-- C8, amended: on a frame whose checksum and length fields can be read,
`ReadTransaction` returns a record if and only if (a) the length field is in
(0, 10485760], (b) that many body bytes follow, (c) the Adler-32 of the body
equals the stored checksum as a signed 64-bit value, and (d) the body has at
least 32 bytes. -/
theorem record_accepted_iff (r : TxnLogReader) (cs ls rest : List Byte)
    (hcs : cs.length = 8) (hls : ls.length = 4) (h : r.rest = cs ++ ls ++ rest) :
    (∃ t r', r.ReadTransaction = (.ok t, r')) ↔
      (0 < toInt32 (beUint ls) ∧ toInt32 (beUint ls) ≤ 10485760) ∧
      (toInt32 (beUint ls)).toNat ≤ rest.length ∧
      (adler32Checksum (rest.take (toInt32 (beUint ls)).toNat) : Int) =
        toInt64 (beUint cs) ∧
      32 ≤ toInt32 (beUint ls) := by
  rw [ReadTransaction_frame r cs ls rest hcs hls h]
  simp only
  generalize toInt64 (beUint cs) = c
  generalize toInt32 (beUint ls) = l
  by_cases hrange : l ≤ 0 ∨ l > MaxRecordSize
  · rw [if_pos hrange]
    constructor
    · rintro ⟨t, r', ht⟩; cases ht
    · rintro ⟨⟨h1, h2⟩, -⟩
      simp only [MaxRecordSize] at hrange
      omega
  rw [if_neg hrange]
  simp only [MaxRecordSize] at hrange
  by_cases hbody : rest.length < l.toNat
  · obtain ⟨e, r3, he, -⟩ := readFull_short
      { r with rest := rest, pos := r.pos + 8 + 4 } l.toNat hbody
    rw [he]
    constructor
    · rintro ⟨t, r', ht⟩; cases ht
    · rintro ⟨-, h2, -⟩; omega
  have hrf := readFull_enough { r with rest := rest, pos := r.pos + 8 + 4 } l.toNat
    (by omega) (by simpa using hbody)
  rw [hrf]
  simp only
  have hdlen : (rest.take l.toNat).length = l.toNat := by
    rw [List.length_take]; omega
  by_cases hck : (adler32Checksum (rest.take l.toNat) : Int) ≠ c
  · rw [if_pos hck]
    constructor
    · rintro ⟨t, r', ht⟩; cases ht
    · rintro ⟨-, -, h3, -⟩; exact absurd h3 hck
  rw [if_neg hck]
  push_neg at hck
  by_cases h32 : 32 ≤ l
  · have hp := Transaction.parse_ok
      ({ Transaction.zero with Checksum := c, Length := l, Data := rest.take l.toNat })
      (by simp only [hdlen]; omega)
    rw [hp]
    constructor
    · intro _
      exact ⟨by omega, by omega, hck, h32⟩
    · intro _
      exact ⟨_, _, rfl⟩
  · unfold Transaction.parse
    rw [if_pos (by simp only [hdlen]; omega)]
    constructor
    · rintro ⟨t, r', ht⟩; cases ht
    · rintro ⟨-, -, -, h4⟩; exact absurd h4 h32

/-- The frame of the sample record 256 satisfies the four conditions and is read. -/
theorem record_accepted_iff_witness :
    (∃ t r', (TxnLogReader.mk "log.100" (frame (sampleRecord 256)) 16
        sampleHeader).ReadTransaction = (.ok t, r')) ∧
    ((0 < toInt32 (beUint (bePut 4 32)) ∧ toInt32 (beUint (bePut 4 32)) ≤ 10485760) ∧
      (toInt32 (beUint (bePut 4 32))).toNat ≤ (sampleBody 256).length ∧
      (adler32Checksum ((sampleBody 256).take (toInt32 (beUint (bePut 4 32))).toNat) : Int) =
        toInt64 (beUint (bePut 8 (adler32Checksum (sampleBody 256)))) ∧
      32 ≤ toInt32 (beUint (bePut 4 32))) :=
  have hiff := record_accepted_iff
    (TxnLogReader.mk "log.100" (frame (sampleRecord 256)) 16 sampleHeader)
    (bePut 8 (adler32Checksum (sampleBody 256))) (bePut 4 32) (sampleBody 256)
    (by decide) (by decide) (by decide)
  have hcond : (0 < toInt32 (beUint (bePut 4 32)) ∧
      toInt32 (beUint (bePut 4 32)) ≤ 10485760) ∧
      (toInt32 (beUint (bePut 4 32))).toNat ≤ (sampleBody 256).length ∧
      (adler32Checksum ((sampleBody 256).take (toInt32 (beUint (bePut 4 32))).toNat) : Int) =
        toInt64 (beUint (bePut 8 (adler32Checksum (sampleBody 256)))) ∧
      32 ≤ toInt32 (beUint (bePut 4 32)) := by decide
  ⟨hiff.mpr hcond, hcond⟩

/-! ## Boundaries -/

/-- C9: on a frame whose 8-byte checksum and 4-byte length can be read,
`ReadTransaction` fails with the Corruption-category error "invalid record
length" whenever the signed 32-bit length is `≤ 0` or `> 10485760`, whatever
bytes follow; a length in (0, 10485760], in particular 10485760 itself, is never
rejected with that error. -/
theorem invalid_length_rejected (r : TxnLogReader) (cs ls rest : List Byte)
    (hcs : cs.length = 8) (hls : ls.length = 4) (h : r.rest = cs ++ ls ++ rest) :
    ((toInt32 (beUint ls) ≤ 0 ∨ toInt32 (beUint ls) > 10485760) →
      ∃ e r', r.ReadTransaction = (.error e, r') ∧
        e.category? = some .corruption ∧ e.message? = some "invalid record length") ∧
    ((0 < toInt32 (beUint ls) ∧ toInt32 (beUint ls) ≤ 10485760) →
      ∀ e r', r.ReadTransaction = (.error e, r') →
        e.message? ≠ some "invalid record length") := by
  constructor
  · intro hl
    exact ⟨_, _, ReadTransaction_invalid_length r cs ls rest hcs hls h
      (by simpa [MaxRecordSize] using hl), rfl, rfl⟩
  · rintro ⟨h1, h2⟩ e r' hread
    rw [ReadTransaction_frame r cs ls rest hcs hls h] at hread
    simp only at hread
    rw [if_neg (by simp only [MaxRecordSize]; omega)] at hread
    split at hread
    · simp only [Prod.mk.injEq, Except.error.injEq] at hread
      obtain ⟨rfl, -⟩ := hread
      simp [NewCorruptionError, GoError.WithContext, GoError.WithError, GoError.message?]
    · split at hread
      · simp only [Prod.mk.injEq, Except.error.injEq] at hread
        obtain ⟨rfl, -⟩ := hread
        simp [NewCorruptionError, GoError.WithContext, GoError.WithError, GoError.message?]
      · split at hread
        · simp only [Prod.mk.injEq, Except.error.injEq] at hread
          obtain ⟨rfl, -⟩ := hread
          simp [NewCorruptionError, GoError.WithContext, GoError.WithError, GoError.message?]
        · cases hread

/-- Twelve zero bytes (length 0) are rejected with "invalid record length"; a frame
announcing 10485760 body bytes and holding none is not. -/
theorem invalid_length_rejected_witness :
    (∃ e r', (TxnLogReader.mk "log.100" (bePut 8 0 ++ bePut 4 0 ++ [7, 7]) 16
        sampleHeader).ReadTransaction = (.error e, r') ∧
      e.category? = some .corruption ∧ e.message? = some "invalid record length") ∧
    (∀ e r', (TxnLogReader.mk "log.100" (bePut 8 0 ++ bePut 4 10485760 ++ []) 16
        sampleHeader).ReadTransaction = (.error e, r') →
      e.message? ≠ some "invalid record length") :=
  ⟨(invalid_length_rejected
      (TxnLogReader.mk "log.100" (bePut 8 0 ++ bePut 4 0 ++ [7, 7]) 16 sampleHeader)
      (bePut 8 0) (bePut 4 0) [7, 7] (by decide) (by decide) rfl).1 (Or.inl (by decide)),
    (invalid_length_rejected
      (TxnLogReader.mk "log.100" (bePut 8 0 ++ bePut 4 10485760 ++ []) 16 sampleHeader)
      (bePut 8 0) (bePut 4 10485760) [] (by decide) (by decide) rfl).2
      ⟨by decide, by decide⟩⟩

/-- C10: a body shorter than 32 bytes is rejected by meta parsing.
`Transaction.parse` returns a Corruption-category error for every record whose
`Data` has fewer than 32 bytes, and `ReadTransaction` on a frame with length
between 1 and 31, the body fully present and a matching checksum returns a
Corruption-category error (wrapping that of `parse`) instead of a record. -/
theorem short_body_rejected (t : Transaction) (r : TxnLogReader) (tail : List Byte)
    (hshort : t.Data.length < 32) :
    (∃ e, t.parse = .error e ∧ e.category? = some .corruption ∧
      e.message? = some "invalid data length") ∧
    (1 ≤ t.Length → t.Length = (t.Data.length : Int) →
      t.Checksum = (adler32Checksum t.Data : Int) → r.rest = frame t ++ tail →
      ∃ e r', r.ReadTransaction = (.error e, r') ∧ e.category? = some .corruption ∧
        e.message? = some "failed to parse transaction" ∧
        e.Unwrap.message? = some "invalid data length") := by
  constructor
  · unfold Transaction.parse
    rw [if_pos hshort]
    exact ⟨_, rfl, rfl, rfl⟩
  · intro h1 hlen hck hr
    have hlt := adler32Checksum_lt t.Data
    have hread := ReadTransaction_record r t tail hlen (by omega)
      (by simp only [MaxRecordSize]; omega) (by omega) (by omega) hr
    rw [if_neg (by rw [hck]; exact fun h => h rfl)] at hread
    unfold Transaction.parse at hread
    rw [if_pos hshort] at hread
    exact ⟨_, _, hread, rfl, rfl, rfl⟩

/-- A record with a ten-byte body: `parse` fails, and so does reading its frame. -/
theorem short_body_rejected_witness :
    (∃ e, shortRecord.parse = .error e ∧ e.category? = some .corruption ∧
      e.message? = some "invalid data length") ∧
    (∃ e r', (TxnLogReader.mk "log.100" (frame shortRecord) 16
        sampleHeader).ReadTransaction = (.error e, r') ∧
      e.category? = some .corruption ∧ e.message? = some "failed to parse transaction" ∧
      e.Unwrap.message? = some "invalid data length") :=
  ⟨(short_body_rejected shortRecord
      (TxnLogReader.mk "log.100" (frame shortRecord) 16 sampleHeader) [] (by decide)).1,
    (short_body_rejected shortRecord
      (TxnLogReader.mk "log.100" (frame shortRecord) 16 sampleHeader) [] (by decide)).2
      (by decide) (by decide) (by decide) (by decide)⟩

/-! ## Headers -/

/-- C11: for every header with the magic number, version 2 and a 64-bit `db_id`,
`CreateTxnLog` writes exactly 16 bytes, the big-endian magic, version and
`db_id`, and `OpenTxnLog` on that file gives a reader whose `Header()` is the
header written. -/
theorem create_open_header (path : String) (h : TxnLogHeader) (hh : h.valid) :
    ∃ w r, CreateTxnLog path h = .ok w ∧ w.file.length = 16 ∧
      w.file = bePut 4 h.Magic ++ bePut 4 h.Version ++ bePut 8 h.DbId ∧
      OpenTxnLog path (some w.file) = .ok r ∧ r.Header = h := by
  have hopen := OpenTxnLog_valid path h [] hh
  rw [List.append_nil] at hopen
  obtain ⟨hm, hv, hd⟩ := hh
  have e1 : h.Magic % 2 ^ 32 = h.Magic := Nat.mod_eq_of_lt (by rw [hm]; decide)
  have e2 : h.Version % 2 ^ 32 = h.Version := Nat.mod_eq_of_lt (by rw [hv]; decide)
  have e3 : h.DbId % 2 ^ 64 = h.DbId := Nat.mod_eq_of_lt hd
  refine ⟨{ path := path, file := headerBytes h }, _, CreateTxnLog_eq path h, ?_, ?_,
    hopen, rfl⟩
  · simp only [headerBytes, List.length_append, bePut_length]
  · simp only [headerBytes, e1, e2, e3]

/-- The sample header written and read back. -/
theorem create_open_header_witness :
    ∃ w r, CreateTxnLog "log.100" sampleHeader = .ok w ∧ w.file.length = 16 ∧
      w.file = bePut 4 0x5a4b4c47 ++ bePut 4 2 ++ bePut 8 12345 ∧
      OpenTxnLog "log.100" (some w.file) = .ok r ∧ r.Header = sampleHeader :=
  create_open_header "log.100" sampleHeader (by decide)

theorem ValidateTxnLog_open_error (path : String) (file : Option (List Byte)) (e : GoError)
    (h : OpenTxnLog path file = .error e) :
    ValidateTxnLog path file =
      some (.error (((NewIOError "failed to open log").WithError e).WithContext "path"
        (.str path))) := by
  unfold ValidateTxnLog
  rw [h]

theorem OpenTxnLog_empty (path : String) :
    OpenTxnLog path (some []) =
      .error (.Backup .nil "empty file" .corruption [("path", .str path)]) := by
  rfl

theorem OpenTxnLog_bad_magic (path : String) (content : List Byte) (h4 : 4 ≤ content.length)
    (hm : content.take 4 ≠ bePut 4 MagicNumber) :
    OpenTxnLog path (some content) =
      .error (.Backup .nil "invalid magic number" .corruption
        [("path", .str path), ("magic", .int (beUint (content.take 4))),
         ("expected", .int MagicNumber)]) := by
  have hne : beUint (content.take 4) ≠ MagicNumber := by
    intro heq
    have hb := bePut_beUint (content.take 4)
    rw [List.length_take, Nat.min_eq_left h4, heq] at hb
    exact hm hb.symm
  have e1 := readFull_enough
    { path := path, rest := content, pos := 0, header := ⟨0, 0, 0⟩ } 4 (by omega) h4
  unfold OpenTxnLog TxnLogReader.readHeader
  simp only
  rw [e1]
  simp only
  rw [if_pos hne]
  rfl

theorem OpenTxnLog_bad_version (path : String) (content : List Byte)
    (h8 : 8 ≤ content.length) (hm : content.take 4 = bePut 4 MagicNumber)
    (hv : (content.drop 4).take 4 ≠ bePut 4 LogVersion) :
    OpenTxnLog path (some content) =
      .error (.Backup .nil "unsupported version" .corruption
        [("path", .str path), ("version", .int (beUint ((content.drop 4).take 4))),
         ("expected", .int LogVersion)]) := by
  have hmagic : ¬ beUint (content.take 4) ≠ MagicNumber := by
    rw [hm]; decide
  have hne : beUint ((content.drop 4).take 4) ≠ LogVersion := by
    intro heq
    have hb := bePut_beUint ((content.drop 4).take 4)
    rw [List.length_take, List.length_drop, Nat.min_eq_left (by omega), heq] at hb
    exact hv hb.symm
  have e1 := readFull_enough
    { path := path, rest := content, pos := 0, header := ⟨0, 0, 0⟩ } 4 (by omega) (by simpa using (by omega : 4 ≤ content.length))
  have e2 := readFull_enough
    { path := path, rest := content.drop 4, pos := 0 + 4,
      header := ⟨beUint (content.take 4), 0, 0⟩ } 4 (by omega)
    (by simp only [List.length_drop]; omega)
  unfold OpenTxnLog TxnLogReader.readHeader
  simp only
  rw [e1]
  simp only
  rw [if_neg hmagic, e2]
  simp only
  rw [if_pos hne]
  rfl

/-- C12: `OpenTxnLog` fails with the Corruption-category error "empty file" on an
empty file, "invalid magic number" on a file whose first four bytes are not the
magic number, and "unsupported version" on a file with the magic number whose
next four bytes are not version 2; in each case `ValidateTxnLog` returns no
result but an IO-category error whose wrapped cause is that Corruption error. -/
theorem open_header_errors (path : String) (content : List Byte) :
    (content = [] →
      ∃ e e', OpenTxnLog path (some content) = .error e ∧
        e.category? = some .corruption ∧ e.message? = some "empty file" ∧
        ValidateTxnLog path (some content) = some (.error e') ∧
        e'.category? = some .io ∧ e'.Unwrap = e) ∧
    (4 ≤ content.length → content.take 4 ≠ bePut 4 MagicNumber →
      ∃ e e', OpenTxnLog path (some content) = .error e ∧
        e.category? = some .corruption ∧ e.message? = some "invalid magic number" ∧
        ValidateTxnLog path (some content) = some (.error e') ∧
        e'.category? = some .io ∧ e'.Unwrap = e) ∧
    (8 ≤ content.length → content.take 4 = bePut 4 MagicNumber →
      (content.drop 4).take 4 ≠ bePut 4 LogVersion →
      ∃ e e', OpenTxnLog path (some content) = .error e ∧
        e.category? = some .corruption ∧ e.message? = some "unsupported version" ∧
        ValidateTxnLog path (some content) = some (.error e') ∧
        e'.category? = some .io ∧ e'.Unwrap = e) := by
  refine ⟨?_, ?_, ?_⟩
  · intro h0
    subst h0
    have hopen := OpenTxnLog_empty path
    exact ⟨_, _, hopen, rfl, rfl, ValidateTxnLog_open_error path _ _ hopen, rfl, rfl⟩
  · intro h4 hm
    have hopen := OpenTxnLog_bad_magic path content h4 hm
    exact ⟨_, _, hopen, rfl, rfl, ValidateTxnLog_open_error path _ _ hopen, rfl, rfl⟩
  · intro h8 hm hv
    have hopen := OpenTxnLog_bad_version path content h8 hm hv
    exact ⟨_, _, hopen, rfl, rfl, ValidateTxnLog_open_error path _ _ hopen, rfl, rfl⟩

/-- An empty file, a file starting with `DE AD BE EF`, and a file with the magic
number followed by version 99. -/
theorem open_header_errors_witness :
    (∃ e e', OpenTxnLog "log.100" (some []) = .error e ∧
        e.category? = some .corruption ∧ e.message? = some "empty file" ∧
        ValidateTxnLog "log.100" (some []) = some (.error e') ∧
        e'.category? = some .io ∧ e'.Unwrap = e) ∧
    (∃ e e', OpenTxnLog "log.100" (some (bePut 4 0xDEADBEEF)) = .error e ∧
        e.category? = some .corruption ∧ e.message? = some "invalid magic number" ∧
        ValidateTxnLog "log.100" (some (bePut 4 0xDEADBEEF)) = some (.error e') ∧
        e'.category? = some .io ∧ e'.Unwrap = e) ∧
    (∃ e e', OpenTxnLog "log.100" (some (bePut 4 MagicNumber ++ bePut 4 99)) = .error e ∧
        e.category? = some .corruption ∧ e.message? = some "unsupported version" ∧
        ValidateTxnLog "log.100" (some (bePut 4 MagicNumber ++ bePut 4 99)) =
          some (.error e') ∧
        e'.category? = some .io ∧ e'.Unwrap = e) :=
  ⟨(open_header_errors "log.100" []).1 rfl,
    (open_header_errors "log.100" (bePut 4 0xDEADBEEF)).2.1 (by decide) (by decide),
    (open_header_errors "log.100" (bePut 4 MagicNumber ++ bePut 4 99)).2.2 (by decide)
      (by decide) (by decide)⟩

/-- C13: a file that is exactly a valid 16-byte header validates with
`is_valid = true`, `valid_count = 0`, no ZXID and `last_valid_zxid = 0`. -/
theorem validate_header_only (path : String) (h : TxnLogHeader) (hh : h.valid) :
    (headerBytes h).length = 16 ∧
    ∃ res, ValidateTxnLog path (some (headerBytes h)) = some (.ok res) ∧
      res.IsValid = true ∧ res.ValidTransactionCount = 0 ∧ res.Transactions = [] ∧
      res.LastValidZxid = 0 := by
  constructor
  · simp only [headerBytes, List.length_append, bePut_length]
  · have hv := ValidateTxnLog_frames path h [] [] hh (by simp)
    simp only [frames, List.append_nil, List.length_nil, List.map_nil, List.foldl_nil] at hv
    rw [hv, validateLoop_eof _ _ _ _ rfl]
    exact ⟨_, rfl, rfl, rfl, rfl, rfl⟩

/-- The sample header alone. -/
theorem validate_header_only_witness :
    (headerBytes sampleHeader).length = 16 ∧
    ∃ res, ValidateTxnLog "log.100" (some (headerBytes sampleHeader)) = some (.ok res) ∧
      res.IsValid = true ∧ res.ValidTransactionCount = 0 ∧ res.Transactions = [] ∧
      res.LastValidZxid = 0 :=
  validate_header_only "log.100" sampleHeader (by decide)

/-! ## What a successful filtered copy leaves -/

theorem OpenTxnLog_error_ne_nil (path : String) (content : List Byte) (e : GoError)
    (h : OpenTxnLog path (some content) = .error e) : e ≠ .nil := by
  unfold OpenTxnLog at h
  simp only at h
  split at h
  · cases h
  · rename_i hne _
    simp only [Except.error.injEq] at h
    subst h
    exact hne

theorem frame_length (R : Transaction) : (frame R).length = 12 + R.Data.length := by
  simp only [frame, List.length_append, bePut_length]

/-- A filtered copy that returns no error read a valid header, then well-formed
records `Rs`, then a tail that is not read as a record; at least one record
passed the filter and the output is the header and the frames of those that did. -/
theorem copyTxnLogWithFilter_ok_inv (inputPath outputPath : String) (content : List Byte)
    (filter : ZXID → Bool) (cr : CopyResult)
    (h : copyTxnLogWithFilter inputPath outputPath (some content) filter = some cr)
    (herr : cr.err = .nil) :
    ∃ hd Rs tail, hd.valid ∧ content = headerBytes hd ++ (frames Rs ++ tail) ∧
      (∀ R ∈ Rs, R.wellFormed) ∧ (∀ R t, R.wellFormed → tail ≠ frame R ++ t) ∧
      (Rs.filter fun R => filter R.readBack.Zxid).length ≠ 0 ∧
      cr = { count := (Rs.filter fun R => filter R.readBack.Zxid).length
             err := .nil
             output := some
               (headerBytes hd ++ frames (Rs.filter fun R => filter R.readBack.Zxid)) } := by
  rcases hopen : OpenTxnLog inputPath (some content) with e | reader
  · have hne := OpenTxnLog_error_ne_nil inputPath content e hopen
    unfold copyTxnLogWithFilter at h
    rw [hopen] at h
    simp only [Option.some.injEq] at h
    subst h
    exact absurd herr hne
  · obtain ⟨hvalid, hcontent, -, -⟩ := OpenTxnLog_ok_inv inputPath content reader hopen
    have hpath : inputPath ≠ outputPath := by
      intro heq
      subst heq
      have hsame := copyTxnLogWithFilter_same inputPath reader.header reader.rest filter hvalid
      rw [← hcontent, h] at hsame
      simp only [Option.some.injEq] at hsame
      rw [hsame] at herr
      cases herr
    obtain ⟨Rs, tail, hdec, hall, hbad⟩ := frames_decompose reader.rest.length reader.rest
      (Nat.le_refl _)
    have hcopy := copyTxnLogWithFilter_frames inputPath outputPath reader.header Rs tail filter
      hpath hvalid hall hbad
    rw [← hdec, ← hcontent, h] at hcopy
    simp only [Option.some.injEq] at hcopy
    by_cases h0 : (Rs.filter fun R => filter R.readBack.Zxid).length = 0
    · rw [if_pos h0] at hcopy
      rw [hcopy] at herr
      cases herr
    · rw [if_neg h0] at hcopy
      exact ⟨reader.header, Rs, tail, hvalid, by rw [hcontent, hdec], hall, hbad, h0, hcopy⟩

theorem take_headerBytes (hd : TxnLogHeader) (rest : List Byte) :
    (headerBytes hd ++ rest).take 16 = headerBytes hd := by
  have hlen : (headerBytes hd).length = 16 := by
    simp only [headerBytes, List.length_append, bePut_length]
  rw [List.take_append_of_le_length (by omega), List.take_of_length_le (by omega)]

/-- C14: after a successful `CopyTxnLogUntilZxid` or `CopyTxnLogFromZxid` the first
16 bytes of the output file are the first 16 bytes of the input file, and the
header read from the output has the magic, version and `db_id` of the header
read from the input. -/
theorem copy_preserves_header (inputPath outputPath : String) (content : List Byte)
    (Z : ZXID) (cr : CopyResult)
    (hcopy : CopyTxnLogUntilZxid inputPath outputPath (some content) Z = some cr ∨
      CopyTxnLogFromZxid inputPath outputPath (some content) Z = some cr)
    (herr : cr.err = .nil) :
    ∃ out rIn rOut, cr.output = some out ∧ 16 ≤ content.length ∧ 16 ≤ out.length ∧
      out.take 16 = content.take 16 ∧
      OpenTxnLog inputPath (some content) = .ok rIn ∧
      OpenTxnLog outputPath (some out) = .ok rOut ∧ rOut.Header = rIn.Header := by
  have key : ∀ filter : ZXID → Bool,
      copyTxnLogWithFilter inputPath outputPath (some content) filter = some cr →
      ∃ out rIn rOut, cr.output = some out ∧ 16 ≤ content.length ∧ 16 ≤ out.length ∧
        out.take 16 = content.take 16 ∧
        OpenTxnLog inputPath (some content) = .ok rIn ∧
        OpenTxnLog outputPath (some out) = .ok rOut ∧ rOut.Header = rIn.Header := by
    intro filter h
    obtain ⟨hd, Rs, tail, hvalid, hcontent, -, -, -, hcr⟩ :=
      copyTxnLogWithFilter_ok_inv inputPath outputPath content filter cr h herr
    have hlen : (headerBytes hd).length = 16 := by
      simp only [headerBytes, List.length_append, bePut_length]
    refine ⟨_, { path := inputPath, rest := frames Rs ++ tail, pos := 16, header := hd },
      { path := outputPath, rest := frames (Rs.filter fun R => filter R.readBack.Zxid),
        pos := 16, header := hd },
      by rw [hcr], ?_, ?_, ?_, ?_, OpenTxnLog_valid outputPath hd _ hvalid, rfl⟩
    · rw [hcontent, List.length_append]; omega
    · rw [List.length_append]; omega
    · rw [hcontent, take_headerBytes, take_headerBytes]
    · rw [hcontent]
      exact OpenTxnLog_valid inputPath hd _ hvalid
  rcases hcopy with h | h
  · exact key _ h
  · exact key _ h

set_option maxRecDepth 100000 in
/-- The copy up to ZXID 257 of the sample log of records 256, 257, 258 followed by
three stray bytes. -/
theorem copy_preserves_header_witness :
    ∃ out rIn rOut,
      (some (headerBytes sampleHeader ++ frames [sampleRecord 256, sampleRecord 257]) :
        Option (List Byte)) = some out ∧
      16 ≤ (headerBytes sampleHeader ++
        frames [sampleRecord 256, sampleRecord 257, sampleRecord 258] ++ [1, 2, 3]).length ∧
      16 ≤ out.length ∧
      out.take 16 = (headerBytes sampleHeader ++
        frames [sampleRecord 256, sampleRecord 257, sampleRecord 258] ++ [1, 2, 3]).take 16 ∧
      OpenTxnLog "log.100" (some (headerBytes sampleHeader ++
        frames [sampleRecord 256, sampleRecord 257, sampleRecord 258] ++ [1, 2, 3])) =
        .ok rIn ∧
      OpenTxnLog "log.out" (some out) = .ok rOut ∧ rOut.Header = rIn.Header :=
  copy_preserves_header "log.100" "log.out"
    (headerBytes sampleHeader ++
      frames [sampleRecord 256, sampleRecord 257, sampleRecord 258] ++ [1, 2, 3]) 257
    { count := 2, err := .nil
      output := some (headerBytes sampleHeader ++ frames [sampleRecord 256, sampleRecord 257]) }
    (Or.inl (by decide)) rfl

theorem filter_eq_self_of_all (p : ZXID → Bool) (Rs : List Transaction)
    (h : ∀ R ∈ Rs, p R.readBack.Zxid = true) :
    (Rs.filter fun R => p R.readBack.Zxid) = Rs := by
  rw [List.filter_eq_self]
  exact h

/-- C15: a successful `CopyTxnLogUntilZxid` or `CopyTxnLogFromZxid` does not rewrite
record bytes.  The input is a header, the frames of its readable records `Rs`
(each of 12 + length bytes) and a tail that is not read as a record; the output
is the header followed by the frames, in input order, of the records of `Rs`
that satisfy the predicate `p`; when all of them do, the output is the input cut
at the end of its last readable record. -/
theorem copy_keeps_frames (inputPath outputPath : String) (content : List Byte)
    (Z : ZXID) (cr : CopyResult) (p : ZXID → Bool)
    (hcopy :
      (CopyTxnLogUntilZxid inputPath outputPath (some content) Z = some cr ∧
        p = fun z => decide (z ≤ Z)) ∨
      (CopyTxnLogFromZxid inputPath outputPath (some content) Z = some cr ∧
        p = fun z => decide (z ≥ Z)))
    (herr : cr.err = .nil) :
    ∃ hd Rs tail, content = headerBytes hd ++ frames Rs ++ tail ∧
      (headerBytes hd).length = 16 ∧
      (∀ R ∈ Rs, R.wellFormed ∧ (frame R).length = 12 + R.Data.length) ∧
      (∀ R t, R.wellFormed → tail ≠ frame R ++ t) ∧
      cr.output = some (headerBytes hd ++ frames (Rs.filter fun R => p R.readBack.Zxid)) ∧
      ((∀ R ∈ Rs, p R.readBack.Zxid = true) →
        cr.output = some (content.take (16 + (frames Rs).length))) := by
  have key : copyTxnLogWithFilter inputPath outputPath (some content) p = some cr := by
    rcases hcopy with ⟨h, hp⟩ | ⟨h, hp⟩
    · rw [hp]; exact h
    · rw [hp]; exact h
  obtain ⟨hd, Rs, tail, -, hcontent, hall, hbad, -, hcr⟩ :=
    copyTxnLogWithFilter_ok_inv inputPath outputPath content p cr key herr
  have hlen : (headerBytes hd).length = 16 := by
    simp only [headerBytes, List.length_append, bePut_length]
  refine ⟨hd, Rs, tail, by rw [hcontent, List.append_assoc], hlen,
    fun R hR => ⟨hall R hR, frame_length R⟩, hbad, by rw [hcr], ?_⟩
  intro hallp
  rw [hcr, filter_eq_self_of_all p Rs hallp, hcontent, ← List.append_assoc]
  simp only
  rw [List.take_append_of_le_length (by rw [List.length_append]; omega),
    List.take_of_length_le (by rw [List.length_append]; omega)]

set_option maxRecDepth 100000 in
/-- The copy up to ZXID 257 of the sample log of records 256, 257, 258 followed by
three stray bytes. -/
theorem copy_keeps_frames_witness :
    ∃ hd Rs tail,
      headerBytes sampleHeader ++
          frames [sampleRecord 256, sampleRecord 257, sampleRecord 258] ++ [1, 2, 3] =
        headerBytes hd ++ frames Rs ++ tail ∧
      (headerBytes hd).length = 16 ∧
      (∀ R ∈ Rs, R.wellFormed ∧ (frame R).length = 12 + R.Data.length) ∧
      (∀ R t, R.wellFormed → tail ≠ frame R ++ t) ∧
      (some (headerBytes sampleHeader ++ frames [sampleRecord 256, sampleRecord 257]) :
        Option (List Byte)) =
        some (headerBytes hd ++ frames (Rs.filter fun R => decide (R.readBack.Zxid ≤ 257))) ∧
      ((∀ R ∈ Rs, decide (R.readBack.Zxid ≤ 257) = true) →
        (some (headerBytes sampleHeader ++ frames [sampleRecord 256, sampleRecord 257]) :
          Option (List Byte)) =
          some ((headerBytes sampleHeader ++
            frames [sampleRecord 256, sampleRecord 257, sampleRecord 258] ++ [1, 2, 3]).take
              (16 + (frames Rs).length))) :=
  copy_keeps_frames "log.100" "log.out"
    (headerBytes sampleHeader ++
      frames [sampleRecord 256, sampleRecord 257, sampleRecord 258] ++ [1, 2, 3]) 257
    { count := 2, err := .nil
      output := some (headerBytes sampleHeader ++ frames [sampleRecord 256, sampleRecord 257]) }
    (fun z => decide (z ≤ 257)) (Or.inl ⟨by decide, rfl⟩) rfl

/-! ## Repair of a valid file, and of a file with no valid record -/

/-- C16: when the input validates with `is_valid = true`, `RepairTxnLog` returns
the validation result of the input with no error and does not touch the output
path. -/
theorem repair_valid_input (inputPath outputPath : String) (content : List Byte)
    (res : ValidationResult)
    (hval : ValidateTxnLog inputPath (some content) = some (.ok res))
    (hvalid : res.IsValid = true) :
    RepairTxnLog inputPath outputPath (some content) =
      some { result := some res, err := .nil, output := none } := by
  unfold RepairTxnLog
  rw [hval]
  simp only
  rw [if_pos hvalid]

/-- Repair of the sample log of records 256 and 257. -/
theorem repair_valid_input_witness :
    RepairTxnLog "log.100" "log.100.repaired"
        (some (headerBytes sampleHeader ++ frames [sampleRecord 256, sampleRecord 257])) =
      some
        { result := some
            { IsValid := true, ValidTransactionCount := 2, LastValidPos := 60,
              LastValidZxid := 257, CorruptionType := "", Transactions := [256, 257] }
          err := .nil
          output := none } :=
  repair_valid_input "log.100" "log.100.repaired" _ _ (by decide) rfl

/-- C17: when the input has a valid header and validation gives `is_valid = false`
with `valid_count = 0`, `RepairTxnLog` fails with the Corruption-category error
"no valid transactions found" and does not create the output file. -/
theorem repair_no_valid_record (inputPath outputPath : String) (content : List Byte)
    (res : ValidationResult)
    (hval : ValidateTxnLog inputPath (some content) = some (.ok res))
    (hinvalid : res.IsValid = false) (hcount : res.ValidTransactionCount = 0) :
    ∃ rr, RepairTxnLog inputPath outputPath (some content) = some rr ∧
      rr.err.category? = some .corruption ∧
      rr.err.message? = some "no valid transactions found" ∧
      rr.output = none ∧ rr.result = some res := by
  unfold RepairTxnLog
  rw [hval]
  simp only
  rw [if_neg (by rw [hinvalid]; exact Bool.false_ne_true), if_pos hcount]
  exact ⟨_, rfl, rfl, rfl, rfl, rfl⟩

set_option maxRecDepth 100000 in
/-- Repair of the sample header followed by three stray bytes. -/
theorem repair_no_valid_record_witness :
    ∃ rr, RepairTxnLog "log.100" "log.100.repaired"
        (some (headerBytes sampleHeader ++ [1, 2, 3])) = some rr ∧
      rr.err.category? = some .corruption ∧
      rr.err.message? = some "no valid transactions found" ∧
      rr.output = none ∧
      rr.result = some
        { IsValid := false, ValidTransactionCount := 0, LastValidPos := 16,
          LastValidZxid := 0, CorruptionType := "unexpected EOF", Transactions := [] } :=
  repair_no_valid_record "log.100" "log.100.repaired" _ _ (by decide) rfl rfl

/-! ## The offset recorded by `ValidateTxnLog` -/

theorem validateScan_lastPos (ts : List Transaction) :
    ∀ (res : ValidationResult) (pos cnt : Nat),
      (ts.foldl validateStep (res, pos, cnt)).1.LastValidPos =
        if ts = [] then res.LastValidPos
        else pos + (ts.dropLast.map (fun t => 8 + 4 + t.Data.length)).sum := by
  induction ts with
  | nil => intro res pos cnt; rfl
  | cons t ts ih =>
    intro res pos cnt
    simp only [List.foldl_cons, reduceCtorEq, if_false]
    rw [ih]
    cases ts with
    | nil => simp [validateStep]
    | cons t' ts' =>
      simp only [reduceCtorEq, if_false, validateStep, List.dropLast_cons₂, List.map_cons,
        List.sum_cons]
      omega

theorem frames_length (Rs : List Transaction) :
    (frames Rs).length = (Rs.map (fun R => 12 + R.Data.length)).sum := by
  induction Rs with
  | nil => rfl
  | cons R Rs ih =>
    simp only [frames, List.length_append, frame_length, ih, List.map_cons, List.sum_cons]

theorem sum_sizes_readBack (Rs : List Transaction) :
    ((Rs.map Transaction.readBack).map (fun t => 8 + 4 + t.Data.length)).sum =
      (Rs.map (fun R => 12 + R.Data.length)).sum := by
  rw [List.map_map]
  rfl

/-- C18 as stated fails when the scan ends on end of file: for the sample log of
two records (104 bytes, the next read would begin at offset 104) the offset
returned is 60, where the last record begins, and for the header alone it is 0,
not 16. -/
theorem last_valid_offset_counterexample :
    (headerBytes sampleHeader ++ frames [sampleRecord 256, sampleRecord 257]).length = 104 ∧
    ValidateTxnLog "log.100"
        (some (headerBytes sampleHeader ++ frames [sampleRecord 256, sampleRecord 257])) =
      some (.ok
        { IsValid := true, ValidTransactionCount := 2, LastValidPos := 60,
          LastValidZxid := 257, CorruptionType := "", Transactions := [256, 257] }) ∧
    ValidateTxnLog "log.100" (some (headerBytes sampleHeader)) =
      some (.ok
        { IsValid := true, ValidTransactionCount := 0, LastValidPos := 0,
          LastValidZxid := 0, CorruptionType := "", Transactions := [] }) := by
  decide

/-- C18, amended: for a file made of a valid header, valid records and a tail that
is not read as a record, when the scan ends on a failed read (the tail is not
empty) `last_valid_offset` is the offset at which that read began, 16 plus the
total size (12 + length each) of all valid records; when the scan ends on end of
file it is the offset at which the last valid record begins, 16 plus the total
size of all valid records but the last, and 0 when there is no record. -/
theorem last_valid_offset (path : String) (h : TxnLogHeader) (Rs : List Transaction)
    (tail : List Byte) (hh : h.valid) (hRs : ∀ R ∈ Rs, R.wellFormed)
    (hbad : ∀ R t, R.wellFormed → tail ≠ frame R ++ t) :
    ∃ res, ValidateTxnLog path (some (headerBytes h ++ frames Rs ++ tail)) = some (.ok res) ∧
      (tail ≠ [] → res.IsValid = false ∧
        res.LastValidPos = 16 + (Rs.map (fun R => 12 + R.Data.length)).sum) ∧
      (tail = [] → res.IsValid = true ∧
        res.LastValidPos =
          if Rs = [] then 0
          else 16 + (Rs.dropLast.map (fun R => 12 + R.Data.length)).sum) := by
  obtain ⟨h1, -, -, -, h5, -, -⟩ :=
    validateScan_fields (Rs.map Transaction.readBack) initialResult 16 0
  have hpos := validateScan_lastPos (Rs.map Transaction.readBack) initialResult 16 0
  rw [List.append_assoc, ValidateTxnLog_frames path h Rs tail hh hRs]
  by_cases ht : tail = []
  · subst ht
    rw [validateLoop_eof _ _ _ _ rfl]
    refine ⟨_, rfl, fun hne => absurd rfl hne, fun _ => ⟨?_, ?_⟩⟩
    · show ((Rs.map Transaction.readBack).foldl validateStep
        (initialResult, 16, 0)).1.IsValid = true
      rw [h1]; rfl
    · show ((Rs.map Transaction.readBack).foldl validateStep
        (initialResult, 16, 0)).1.LastValidPos = _
      rw [hpos]
      by_cases hnil : Rs = []
      · simp [hnil, initialResult]
      · simp only [List.map_eq_nil_iff, hnil, if_false, ← List.map_dropLast,
          sum_sizes_readBack]
  · obtain ⟨e, r', hread, hne⟩ := ReadTransaction_not_frame
      { path := path, rest := tail
        pos := ((Rs.map Transaction.readBack).foldl validateStep (initialResult, 16, 0)).2.1
        header := h } ht hbad
    rw [validateLoop_error _ _ _ _ _ _ hread hne]
    refine ⟨_, rfl, fun _ => ⟨rfl, ?_⟩, fun h0 => absurd h0 ht⟩
    show ((Rs.map Transaction.readBack).foldl validateStep (initialResult, 16, 0)).2.1 = _
    rw [h5, sum_sizes_readBack]

set_option maxRecDepth 100000 in
/-- The sample log of records 256 and 257 followed by three stray bytes: the failed
read began at offset 104. -/
theorem last_valid_offset_witness :
    ∃ res, ValidateTxnLog "log.100"
        (some (headerBytes sampleHeader ++ frames [sampleRecord 256, sampleRecord 257] ++
          [1, 2, 3])) = some (.ok res) ∧
      (([1, 2, 3] : List Byte) ≠ [] → res.IsValid = false ∧ res.LastValidPos = 104) ∧
      (([1, 2, 3] : List Byte) = [] → res.IsValid = true ∧ res.LastValidPos = 60) :=
  last_valid_offset "log.100" sampleHeader [sampleRecord 256, sampleRecord 257] [1, 2, 3]
    (by decide) (by decide)
    (by
      intro R tail hR heq
      have hlen := congrArg List.length heq
      have h32 := hR.2.1
      simp only [frame, List.length_append, bePut_length, List.length_cons,
        List.length_nil] at hlen
      omega)

/-! ## Partial reads, and the meta fields -/

/-- C19 at a failing input: a reader at a record boundary with three bytes left
gets `io.ErrUnexpectedEOF` itself from `ReadTransaction`, an error that is not a
`*BackupError` and so has no category, while a partial length (nine bytes left)
and a partial body are reported as Corruption-category errors. -/
theorem partial_checksum_read :
    (TxnLogReader.mk "log.100" [1, 2, 3] 16 sampleHeader).ReadTransaction =
      (.error .ErrUnexpectedEOF, ⟨"log.100", [], 19, sampleHeader⟩) ∧
    GoError.ErrUnexpectedEOF.category? = none ∧
    ((TxnLogReader.mk "log.100" [1, 2, 3, 4, 5, 6, 7, 8, 9] 16
        sampleHeader).ReadTransaction).1 =
      .error (.Backup .nil "failed to read length" .corruption [("path", .str "log.100")]) ∧
    ((TxnLogReader.mk "log.100" (bePut 8 0 ++ bePut 4 32 ++ [1, 2, 3]) 16
        sampleHeader).ReadTransaction).1 =
      .error (.Backup .nil "failed to read body" .corruption
        [("path", .str "log.100"), ("length", .int 32)]) := by
  decide

theorem slice_take (d : List Byte) (a b n : Nat) (hb : b ≤ n) :
    slice (d.take n) a b = slice d a b := by
  unfold slice
  rw [List.drop_take, List.take_take, Nat.min_eq_left (by omega)]

/-- C20: for a body of at least 32 bytes `parse` succeeds; it sets `client_id` to
the signed 64-bit big-endian value of bytes 0..8, `cxid` to the signed 32-bit
value of bytes 8..12, `zxid` to the unsigned 64-bit value of bytes 12..20,
`timestamp` to the signed 64-bit value of bytes 20..28 and `type` to the signed
32-bit value of bytes 28..32; it leaves body, length and checksum as they were,
and every record whose body has the same first 32 bytes gets the same meta. -/
theorem parse_meta (t : Transaction) (h : 32 ≤ t.Data.length) :
    ∃ t', t.parse = .ok t' ∧
      (slice t.Data 0 8).length = 8 ∧ t'.ClientId = toInt64 (beUint (slice t.Data 0 8)) ∧
      (slice t.Data 8 12).length = 4 ∧ t'.Cxid = toInt32 (beUint (slice t.Data 8 12)) ∧
      (slice t.Data 12 20).length = 8 ∧ t'.Zxid = beUint (slice t.Data 12 20) ∧
      (slice t.Data 20 28).length = 8 ∧ t'.Timestamp = toInt64 (beUint (slice t.Data 20 28)) ∧
      (slice t.Data 28 32).length = 4 ∧ t'.TxnType = toInt32 (beUint (slice t.Data 28 32)) ∧
      t'.Data = t.Data ∧ t'.Length = t.Length ∧ t'.Checksum = t.Checksum ∧
      (∀ u : Transaction, u.Data.take 32 = t.Data.take 32 →
        ∃ u', u.parse = .ok u' ∧ u'.ClientId = t'.ClientId ∧ u'.Cxid = t'.Cxid ∧
          u'.Zxid = t'.Zxid ∧ u'.Timestamp = t'.Timestamp ∧ u'.TxnType = t'.TxnType) := by
  refine ⟨_, Transaction.parse_ok t h, ?_, rfl, ?_, rfl, ?_, rfl, ?_, rfl, ?_, rfl, rfl, rfl,
    rfl, ?_⟩
  · simp only [slice, List.length_take, List.length_drop]; omega
  · simp only [slice, List.length_take, List.length_drop]; omega
  · simp only [slice, List.length_take, List.length_drop]; omega
  · simp only [slice, List.length_take, List.length_drop]; omega
  · simp only [slice, List.length_take, List.length_drop]; omega
  · intro u hu
    have hlen : 32 ≤ u.Data.length := by
      have := congrArg List.length hu
      simp only [List.length_take] at this
      omega
    refine ⟨_, Transaction.parse_ok u hlen, ?_, ?_, ?_, ?_, ?_⟩
    · show toInt64 (beUint (slice u.Data 0 8)) = toInt64 (beUint (slice t.Data 0 8))
      rw [← slice_take u.Data 0 8 32 (by omega), hu, slice_take _ _ _ _ (by omega)]
    · show toInt32 (beUint (slice u.Data 8 12)) = toInt32 (beUint (slice t.Data 8 12))
      rw [← slice_take u.Data 8 12 32 (by omega), hu, slice_take _ _ _ _ (by omega)]
    · show beUint (slice u.Data 12 20) = beUint (slice t.Data 12 20)
      rw [← slice_take u.Data 12 20 32 (by omega), hu, slice_take _ _ _ _ (by omega)]
    · show toInt64 (beUint (slice u.Data 20 28)) = toInt64 (beUint (slice t.Data 20 28))
      rw [← slice_take u.Data 20 28 32 (by omega), hu, slice_take _ _ _ _ (by omega)]
    · show toInt32 (beUint (slice u.Data 28 32)) = toInt32 (beUint (slice t.Data 28 32))
      rw [← slice_take u.Data 28 32 32 (by omega), hu, slice_take _ _ _ _ (by omega)]

/-- The sample body of ZXID 256 followed by two more bytes, in a record with
length 7 and checksum 9: `parse` decodes client 1, cxid 1, ZXID 256, timestamp
1000 and type 1, and keeps length 7 and checksum 9. -/
theorem parse_meta_witness :
    ∃ t', Transaction.parse ⟨7, sampleBody 256 ++ [9, 9], 9, 0, 0, 0, 0, 0⟩ = .ok t' ∧
      t'.ClientId = 1 ∧ t'.Cxid = 1 ∧ t'.Zxid = 256 ∧ t'.Timestamp = 1000 ∧
      t'.TxnType = 1 ∧ t'.Data = sampleBody 256 ++ [9, 9] ∧ t'.Length = 7 ∧
      t'.Checksum = 9 :=
  have h := parse_meta ⟨7, sampleBody 256 ++ [9, 9], 9, 0, 0, 0, 0, 0⟩ (by decide)
  match h with
  | ⟨t', hp, _, h1, _, h2, _, h3, _, h4, _, h5, h6, h7, h8, _⟩ =>
    ⟨t', hp, h1.trans (by decide), h2.trans (by decide), h3.trans (by decide),
      h4.trans (by decide), h5.trans (by decide), h6, h7, h8⟩

/-! ## File names -/

theorem digitVal_spec_nat : ∀ n < 128,
    (if 48 ≤ n ∧ n ≤ 57 then some (n - 48)
      else if n < 128 ∧ 97 ≤ (n ||| 32) ∧ (n ||| 32) ≤ 122 then some ((n ||| 32) - 97 + 10)
      else none) =
    (if (48 ≤ n ∧ n ≤ 57) ∨ (97 ≤ n ∧ n ≤ 122) ∨ (65 ≤ n ∧ n ≤ 90) then
      some (if n ≤ 57 then n - 48 else if 97 ≤ n then n - 97 + 10 else n - 65 + 10)
      else none) := by
  decide

theorem digitVal_some_iff (c : Char) (d : Nat) :
    (digitVal c = some d ∧ d < 16) ↔ (isHexDigit c ∧ d = hexDigitValue c) := by
  unfold digitVal isHexDigit hexDigitValue
  simp only []
  have e0 : '0'.toNat = 48 := rfl
  have e9 : '9'.toNat = 57 := rfl
  have ea : 'a'.toNat = 97 := rfl
  have ef : 'f'.toNat = 102 := rfl
  have eA : 'A'.toNat = 65 := rfl
  have eF : 'F'.toNat = 70 := rfl
  rw [e0, e9, ea, ef, eA, eF]
  generalize c.toNat = n
  by_cases hn : n < 128
  · rw [digitVal_spec_nat n hn]
    split_ifs <;> simp <;> omega
  · have h1 : ¬ (48 ≤ n ∧ n ≤ 57) := by omega
    rw [if_neg h1, if_neg (fun h => hn h.1)]
    constructor
    · rintro ⟨h, _⟩; exact absurd h (by simp)
    · rintro ⟨h, _⟩; omega
theorem hexValueFrom_ge (s : List Char) (n : Nat) : n ≤ hexValueFrom n s := by
  induction s generalizing n with
  | nil => exact le_refl n
  | cons c cs ih =>
    show n ≤ hexValueFrom (16 * n + hexDigitValue c) cs
    have := ih (16 * n + hexDigitValue c)
    omega

theorem parseUintLoop_ok (s0 : String) (cs : List Char) (n : Nat)
    (hd : ∀ c ∈ cs, isHexDigit c) (hv : hexValueFrom n cs < 2 ^ 64) :
    parseUintLoop s0 16 (2 ^ 60) (2 ^ 64 - 1) cs n = (hexValueFrom n cs, .nil) := by
  induction cs generalizing n with
  | nil => rfl
  | cons c cs ih =>
    have hc := hd c (List.mem_cons_self _ _)
    have hdv := (digitVal_some_iff c (hexDigitValue c)).2 ⟨hc, rfl⟩
    have hv2 : hexValueFrom (16 * n + hexDigitValue c) cs < 2 ^ 64 := hv
    have hge := hexValueFrom_ge cs (16 * n + hexDigitValue c)
    have h16 := hdv.2
    unfold parseUintLoop
    rw [hdv.1]
    simp only []
    have hn : n * 16 % 2 ^ 64 = n * 16 := Nat.mod_eq_of_lt (by omega)
    have hn1 : (n * 16 + hexDigitValue c) % 2 ^ 64 = 16 * n + hexDigitValue c :=
      by rw [Nat.mod_eq_of_lt (by omega)]; omega
    rw [if_neg (by omega), if_neg (by omega), hn, hn1, if_neg (by omega)]
    exact ih _ (fun x hx => hd x (List.mem_cons_of_mem _ hx)) hv2

theorem parseUintLoop_nil_inv (s0 : String) (cs : List Char) (n : Nat)
    (h : (parseUintLoop s0 16 (2 ^ 60) (2 ^ 64 - 1) cs n).2 = .nil) (hn : n < 2 ^ 64) :
    (∀ c ∈ cs, isHexDigit c) ∧ hexValueFrom n cs < 2 ^ 64 := by
  induction cs generalizing n with
  | nil => exact ⟨fun c hc => absurd hc (List.not_mem_nil c), hn⟩
  | cons c cs ih =>
    unfold parseUintLoop at h
    cases hdv : digitVal c with
    | none => rw [hdv] at h; exact absurd h (by simp [syntaxError])
    | some d =>
      rw [hdv] at h
      simp only [] at h
      by_cases h1 : d ≥ 16
      · rw [if_pos h1] at h; exact absurd h (by simp [syntaxError])
      · rw [if_neg h1] at h
        by_cases h2 : n ≥ 2 ^ 60
        · rw [if_pos h2] at h; exact absurd h (by simp [rangeError])
        · rw [if_neg h2] at h
          have hc := (digitVal_some_iff c d).1 ⟨hdv, by omega⟩
          have e1 : n * 16 % 2 ^ 64 = n * 16 := Nat.mod_eq_of_lt (by omega)
          have e2 : (n * 16 + d) % 2 ^ 64 = 16 * n + hexDigitValue c := by
            rw [Nat.mod_eq_of_lt (by omega), hc.2]; omega
          rw [e1, e2, if_neg (by omega)] at h
          have := ih _ h (by omega)
          refine ⟨?_, this.2⟩
          intro x hx
          rcases List.mem_cons.1 hx with rfl | hx
          · exact hc.1
          · exact this.1 x hx
theorem ParseUint_hex_eq (l : List Char) (hl : l ≠ []) :
    strconv.ParseUint (String.mk l) 16 64
      = parseUintLoop (String.mk l) 16 (2 ^ 60) (2 ^ 64 - 1) l 0 := by
  unfold strconv.ParseUint
  have h : String.mk l ≠ "" := fun h => hl (congrArg String.data h)
  rw [if_neg h]
  rfl

theorem ParseUint_hex_ok (l : List Char) (hl : l ≠ []) (hd : ∀ c ∈ l, isHexDigit c)
    (hv : hexValue l < 2 ^ 64) :
    strconv.ParseUint (String.mk l) 16 64 = (hexValue l, .nil) := by
  rw [ParseUint_hex_eq l hl]
  exact parseUintLoop_ok _ l 0 hd hv

theorem ParseUint_hex_nil_inv (l : List Char)
    (h : (strconv.ParseUint (String.mk l) 16 64).2 = .nil) :
    l ≠ [] ∧ (∀ c ∈ l, isHexDigit c) ∧ hexValue l < 2 ^ 64 := by
  by_cases hl : l = []
  · subst hl
    exact absurd h (by decide)
  · rw [ParseUint_hex_eq l hl] at h
    exact ⟨hl, parseUintLoop_nil_inv _ l 0 h (by decide)⟩

theorem splitChars_ne_nil (sep : Char) (s : List Char) : splitChars sep s ≠ [] := by
  cases s with
  | nil => simp [splitChars]
  | cons c cs =>
    unfold splitChars
    split_ifs
    · simp
    · split <;> simp

theorem splitChars_not_mem (sep : Char) (s : List Char) (h : sep ∉ s) :
    splitChars sep s = [s] := by
  induction s with
  | nil => rfl
  | cons c cs ih =>
    have hc : c ≠ sep := fun e => h (e ▸ List.mem_cons_self _ _)
    have hcs : sep ∉ cs := fun e => h (List.mem_cons_of_mem _ e)
    unfold splitChars
    rw [if_neg hc, ih hcs]

theorem splitChars_append (sep : Char) (a b : List Char) :
    splitChars sep (a ++ sep :: b) = splitChars sep a ++ splitChars sep b := by
  induction a with
  | nil =>
    show splitChars sep (sep :: b) = [[]] ++ splitChars sep b
    unfold splitChars
    rw [if_pos rfl]
    cases b <;> rfl
  | cons c cs ih =>
    show splitChars sep (c :: (cs ++ sep :: b)) = _
    by_cases hc : c = sep
    · rw [splitChars, if_pos hc, ih]
      conv_rhs => rw [splitChars, if_pos hc]
      rfl
    · rw [splitChars, if_neg hc, ih]
      conv_rhs => rw [splitChars, if_neg hc]
      cases h : splitChars sep cs with
      | nil => exact absurd h (splitChars_ne_nil sep cs)
      | cons p ps => rfl

theorem last_dot_decompose (sep : Char) (s : List Char) (h : sep ∈ s) :
    ∃ pre suf, s = pre ++ sep :: suf ∧ sep ∉ suf := by
  induction s with
  | nil => exact absurd h (List.not_mem_nil _)
  | cons c cs ih =>
    by_cases hcs : sep ∈ cs
    · obtain ⟨pre, suf, e, hs⟩ := ih hcs
      exact ⟨c :: pre, suf, by rw [e]; rfl, hs⟩
    · rcases List.mem_cons.1 h with e | e
      · exact ⟨[], cs, by rw [e]; rfl, hcs⟩
      · exact absurd e hcs

theorem Split_last (pre suf : List Char) (h : '.' ∉ suf) :
    (strings.Split (String.mk (pre ++ '.' :: suf)) '.').length ≥ 2 ∧
    (strings.Split (String.mk (pre ++ '.' :: suf)) '.').getD
      ((strings.Split (String.mk (pre ++ '.' :: suf)) '.').length - 1) "" = String.mk suf := by
  unfold strings.Split
  simp only []
  rw [splitChars_append, splitChars_not_mem _ _ h]
  have hne := splitChars_ne_nil '.' pre
  have hlen : 0 < (splitChars '.' pre).length := List.length_pos.2 hne
  constructor
  · simp only [List.map_append, List.length_append, List.length_map, List.map_cons, List.map_nil,
      List.length_cons, List.length_nil]
    omega
  · simp only [List.map_append, List.length_append, List.length_map, List.map_cons, List.map_nil,
      List.length_cons, List.length_nil, Nat.add_sub_cancel]
    rw [List.getD_eq_getElem?_getD, List.getElem?_append_right (by simp)]
    simp

theorem Split_no_dot (s : List Char) (h : '.' ∉ s) :
    (strings.Split (String.mk s) '.').length = 1 := by
  unfold strings.Split
  simp only []
  rw [splitChars_not_mem _ _ h]
  rfl
theorem ParseZxid_no_dot (path : String) (h : '.' ∉ (filepath.Base path).data) :
    ParseZxidFromFileName path
      = (0, (NewUserError "invalid file name").WithContext "filename" (.str path)) := by
  unfold ParseZxidFromFileName
  simp only []
  have e : filepath.Base path = String.mk (filepath.Base path).data := rfl
  rw [e, Split_no_dot _ h, if_pos (by decide)]

theorem ParseZxid_dot (path : String) (pre suf : List Char)
    (hb : (filepath.Base path).data = pre ++ '.' :: suf) (h : '.' ∉ suf) :
    ParseZxidFromFileName path
      = if (strconv.ParseUint (String.mk suf) 16 64).2 ≠ .nil then
          (0, (((NewUserError "failed to parse zxid").WithError
            (strconv.ParseUint (String.mk suf) 16 64).2).WithContext
            "filename" (.str path)).WithContext "zxid_str" (.str (String.mk suf)))
        else ((strconv.ParseUint (String.mk suf) 16 64).1, .nil) := by
  unfold ParseZxidFromFileName
  simp only []
  have e : filepath.Base path = String.mk (pre ++ '.' :: suf) := by
    rw [← hb]
  rw [e, (Split_last pre suf h).2, if_neg (by have := (Split_last pre suf h).1; omega)]

theorem hexDigit_cases (c : Char) (h : isHexDigit c) :
    c ∈ ['0', '1', '2', '3', '4', '5', '6', '7', '8', '9', 'a', 'b', 'c', 'd', 'e', 'f',
      'A', 'B', 'C', 'D', 'E', 'F'] := by
  have e := Char.ofNat_toNat c
  unfold isHexDigit at h
  have e0 : '0'.toNat = 48 := rfl
  have e9 : '9'.toNat = 57 := rfl
  have ea : 'a'.toNat = 97 := rfl
  have ef : 'f'.toNat = 102 := rfl
  have eA : 'A'.toNat = 65 := rfl
  have eF : 'F'.toNat = 70 := rfl
  rw [e0, e9, ea, ef, eA, eF] at h
  rw [← e]
  generalize c.toNat = n at h
  rcases h with ⟨h1, h2⟩ | ⟨h1, h2⟩ | ⟨h1, h2⟩ <;> interval_cases n <;> decide

theorem hexDigitValue_case (c : Char) (h : isHexDigit c) :
    hexDigitValue c.toLower = hexDigitValue c ∧ hexDigitValue c.toUpper = hexDigitValue c := by
  have := hexDigit_cases c h
  simp only [List.mem_cons, List.mem_singleton, List.not_mem_nil, or_false] at this
  rcases this with h | h | h | h | h | h | h | h | h | h | h | h | h | h | h | h | h | h | h |
    h | h | h <;> subst h <;> decide

theorem hexValueFrom_case (s : List Char) (n : Nat) (h : ∀ c ∈ s, isHexDigit c) :
    hexValueFrom n (s.map Char.toLower) = hexValueFrom n s ∧
    hexValueFrom n (s.map Char.toUpper) = hexValueFrom n s := by
  induction s generalizing n with
  | nil => exact ⟨rfl, rfl⟩
  | cons c cs ih =>
    have hc := hexDigitValue_case c (h c (List.mem_cons_self _ _))
    have := ih (16 * n + hexDigitValue c) (fun x hx => h x (List.mem_cons_of_mem _ hx))
    constructor
    · show hexValueFrom (16 * n + hexDigitValue c.toLower) (cs.map Char.toLower) = _
      rw [hc.1]; exact this.1
    · show hexValueFrom (16 * n + hexDigitValue c.toUpper) (cs.map Char.toUpper) = _
      rw [hc.2]; exact this.2

/-- C22: `ParseZxidFromFileName` succeeds exactly when the base name of the path has a dot and
the text after its last dot is a non-empty string of hexadecimal digits (either case) whose
value is below `2 ^ 64`; it then returns that value, which does not depend on the case of the
letters; every failure is a User-category error with result 0. -/
theorem parse_name_iff (path : String) :
    ((ParseZxidFromFileName path).2 = .nil ↔
      ∃ pre suf, (filepath.Base path).data = pre ++ '.' :: suf ∧ '.' ∉ suf ∧ suf ≠ [] ∧
        (∀ c ∈ suf, isHexDigit c) ∧ hexValue suf < 2 ^ 64) ∧
    (∀ pre suf, (filepath.Base path).data = pre ++ '.' :: suf → '.' ∉ suf →
      (ParseZxidFromFileName path).2 = .nil →
        (ParseZxidFromFileName path).1 = hexValue suf ∧
        hexValue (suf.map Char.toLower) = hexValue suf ∧
        hexValue (suf.map Char.toUpper) = hexValue suf) ∧
    ((ParseZxidFromFileName path).2 ≠ .nil →
      (ParseZxidFromFileName path).2.category? = some .user ∧
      (ParseZxidFromFileName path).1 = 0) := by
  refine ⟨⟨?_, ?_⟩, ?_, ?_⟩
  · intro h
    by_cases hd : '.' ∈ (filepath.Base path).data
    · obtain ⟨pre, suf, hb, hs⟩ := last_dot_decompose _ _ hd
      rw [ParseZxid_dot path pre suf hb hs] at h
      by_cases hp : (strconv.ParseUint (String.mk suf) 16 64).2 = .nil
      · exact ⟨pre, suf, hb, hs, ParseUint_hex_nil_inv suf hp⟩
      · rw [if_pos hp] at h
        exact absurd h (by simp [NewUserError, GoError.WithError, GoError.WithContext])
    · rw [ParseZxid_no_dot path hd] at h
      exact absurd h (by simp [NewUserError, GoError.WithContext])
  · rintro ⟨pre, suf, hb, hs, hne, hdig, hv⟩
    rw [ParseZxid_dot path pre suf hb hs, ParseUint_hex_ok suf hne hdig hv]
    rfl
  · intro pre suf hb hs h
    rw [ParseZxid_dot path pre suf hb hs] at h ⊢
    by_cases hp : (strconv.ParseUint (String.mk suf) 16 64).2 = .nil
    · obtain ⟨hne, hdig, hv⟩ := ParseUint_hex_nil_inv suf hp
      rw [ParseUint_hex_ok suf hne hdig hv]
      exact ⟨rfl, hexValueFrom_case suf 0 hdig⟩
    · rw [if_pos hp] at h
      exact absurd h (by simp [NewUserError, GoError.WithError, GoError.WithContext])
  · intro h
    by_cases hd : '.' ∈ (filepath.Base path).data
    · obtain ⟨pre, suf, hb, hs⟩ := last_dot_decompose _ _ hd
      rw [ParseZxid_dot path pre suf hb hs] at h ⊢
      by_cases hp : (strconv.ParseUint (String.mk suf) 16 64).2 = .nil
      · rw [if_neg (not_not.2 hp)] at h
        exact absurd rfl h
      · rw [if_pos hp]
        exact ⟨rfl, rfl⟩
    · rw [ParseZxid_no_dot path hd]
      exact ⟨rfl, rfl⟩

/-- Witness for C22 on the names `snapshot.FF`, `invalid` and `snapshot.xyz`. -/
theorem parse_name_iff_witness :
    ParseZxidFromFileName "/data/snapshot.FF" = (255, .nil) ∧
    hexValue "FF".data = 255 ∧ hexValue "ff".data = 255 ∧
    (ParseZxidFromFileName "invalid").2.category? = some .user ∧
    (ParseZxidFromFileName "snapshot.xyz").2.category? = some .user :=
  ⟨Prod.ext (((parse_name_iff "/data/snapshot.FF").2.1 "snapshot".data "FF".data (by decide)
      (by decide) (by decide)).1.trans (by decide)) (by decide),
    by decide, by decide,
    ((parse_name_iff "invalid").2.2 (by decide)).1,
    ((parse_name_iff "snapshot.xyz").2.2 (by decide)).1⟩
theorem digitChar_hex : ∀ d < 16,
    isHexDigit (Nat.digitChar d) ∧ hexDigitValue (Nat.digitChar d) = d ∧
    Nat.digitChar d ≠ '.' ∧ Nat.digitChar d ≠ '/' := by
  decide

theorem hexDigitsRev_value (fuel n : Nat) (h : n < 16 ^ fuel) :
    List.foldr (fun c a => 16 * a + hexDigitValue c) 0 (hexDigitsRev fuel n) = n := by
  induction fuel generalizing n with
  | zero =>
    have : n = 0 := by simpa using h
    subst this; rfl
  | succ f ih =>
    unfold hexDigitsRev
    rw [List.foldr_cons, (digitChar_hex (n % 16) (Nat.mod_lt _ (by decide))).2.1]
    by_cases h0 : n / 16 = 0
    · rw [if_pos h0]
      show 16 * 0 + n % 16 = n
      omega
    · rw [if_neg h0, ih (n / 16) (by rw [pow_succ] at h; omega)]
      omega

theorem hexDigitsRev_mem (fuel n : Nat) :
    ∀ c ∈ hexDigitsRev fuel n, isHexDigit c ∧ c ≠ '.' ∧ c ≠ '/' := by
  induction fuel generalizing n with
  | zero => intro c hc; exact absurd hc (List.not_mem_nil c)
  | succ f ih =>
    intro c hc
    unfold hexDigitsRev at hc
    have hd := digitChar_hex (n % 16) (Nat.mod_lt _ (by decide))
    rcases List.mem_cons.1 hc with e | hc
    · rw [e]; exact ⟨hd.1, hd.2.2⟩
    · by_cases h0 : n / 16 = 0
      · rw [if_pos h0] at hc; exact absurd hc (List.not_mem_nil c)
      · rw [if_neg h0] at hc; exact ih _ c hc

theorem fmtHex_ne_nil (v : Nat) : fmtHex v ≠ [] := by
  unfold fmtHex hexDigitsRev
  simp

theorem fmtHex_mem (v : Nat) : ∀ c ∈ fmtHex v, isHexDigit c ∧ c ≠ '.' ∧ c ≠ '/' := by
  intro c hc
  exact hexDigitsRev_mem 16 v c (List.mem_reverse.1 hc)

theorem fmtHex_value (v : Nat) (h : v < 2 ^ 64) : hexValue (fmtHex v) = v := by
  unfold hexValue hexValueFrom fmtHex
  rw [List.foldl_reverse]
  exact hexDigitsRev_value 16 v (by omega)

theorem dropWhile_head_false {α : Type} (p : α → Bool) (l : List α)
    (h : ∀ x ∈ l, p x = false) : l.dropWhile p = l := by
  cases l with
  | nil => rfl
  | cons a t => rw [List.dropWhile_cons, h a (List.mem_cons_self _ _)]; rfl

theorem takeWhile_all {α : Type} (p : α → Bool) (l : List α)
    (h : ∀ x ∈ l, p x = true) : l.takeWhile p = l := by
  induction l with
  | nil => rfl
  | cons a t ih =>
    rw [List.takeWhile_cons, h a (List.mem_cons_self _ _)]
    simp only [if_true]
    rw [ih (fun x hx => h x (List.mem_cons_of_mem _ hx))]

theorem baseChars_plain (p : List Char) (hne : p ≠ []) (h : '/' ∉ p) : baseChars p = p := by
  unfold baseChars
  rw [if_neg hne]
  simp only []
  have h1 : (p.reverse.dropWhile fun c => decide (c = '/')) = p.reverse := by
    apply dropWhile_head_false
    intro x hx
    have : x ≠ '/' := fun e => h (e ▸ List.mem_reverse.1 hx)
    simpa using this
  rw [h1, List.reverse_reverse]
  have h2 : (p.reverse.takeWhile fun c => decide (c ≠ '/')) = p.reverse := by
    apply takeWhile_all
    intro x hx
    have : x ≠ '/' := fun e => h (e ▸ List.mem_reverse.1 hx)
    simpa using this
  rw [h2, List.reverse_reverse, if_neg hne]

theorem Parse_named (pre : List Char) (v : Nat) (hv : v < 2 ^ 64) (hpre : '/' ∉ pre) :
    ParseZxidFromFileName (String.mk (pre ++ '.' :: fmtHex v)) = (v, .nil) := by
  have hm := fmtHex_mem v
  have hs : '.' ∉ fmtHex v := fun h => (hm _ h).2.1 rfl
  have hsl : '/' ∉ pre ++ '.' :: fmtHex v := by
    intro h
    rcases List.mem_append.1 h with h | h
    · exact hpre h
    · rcases List.mem_cons.1 h with h | h
      · exact absurd h (by decide)
      · exact (hm _ h).2.2 rfl
  have hb : (filepath.Base (String.mk (pre ++ '.' :: fmtHex v))).data
      = pre ++ '.' :: fmtHex v := by
    show baseChars (pre ++ '.' :: fmtHex v) = _
    exact baseChars_plain _ (by simp) hsl
  rw [ParseZxid_dot _ pre (fmtHex v) hb hs,
    ParseUint_hex_ok _ (fmtHex_ne_nil v) (fun c hc => (hm c hc).1)
      (by rw [fmtHex_value v hv]; exact hv), fmtHex_value v hv]
  rfl

/-- C21: for every 64-bit ZXID `z`, parsing the file name formatted for a transaction log or
for a snapshot gives `z` back with no error. -/
theorem format_parse_roundtrip (z : ZXID) (hz : z < 2 ^ 64) :
    ParseZxidFromFileName (FormatZxidFileName .TxnLog z) = (z, .nil) ∧
    ParseZxidFromFileName (FormatZxidFileName .Snapshot z) = (z, .nil) := by
  have hmod : z % 2 ^ 64 = z := Nat.mod_eq_of_lt hz
  constructor
  · have : FormatZxidFileName .TxnLog z = String.mk ("log".data ++ '.' :: fmtHex z) := by
      unfold FormatZxidFileName ZXID.Hex
      rw [hmod]
      rfl
    rw [this]
    exact Parse_named _ z hz (by decide)
  · have : FormatZxidFileName .Snapshot z = String.mk ("snapshot".data ++ '.' :: fmtHex z) := by
      unfold FormatZxidFileName ZXID.Hex
      rw [hmod]
      rfl
    rw [this]
    exact Parse_named _ z hz (by decide)

/-- Witness for C21 at the ZXID `0x100000000`. -/
theorem format_parse_roundtrip_witness :
    (0x100000000 : Nat) < 2 ^ 64 ∧
    FormatZxidFileName .TxnLog 0x100000000 = "log.100000000" ∧
    ParseZxidFromFileName (FormatZxidFileName .TxnLog 0x100000000) = (0x100000000, .nil) ∧
    ParseZxidFromFileName (FormatZxidFileName .Snapshot 0x100000000) = (0x100000000, .nil) :=
  ⟨by decide, by decide, format_parse_roundtrip 0x100000000 (by decide)⟩

/-! ## What a failed filtered copy leaves -/

theorem ValidateTxnLog_header_alone (path : String) (h : TxnLogHeader) (hh : h.valid) :
    ValidateTxnLog path (some (headerBytes h)) = some (.ok initialResult) := by
  have hv := ValidateTxnLog_frames path h [] [] hh (by simp)
  simp only [frames, List.append_nil, List.length_nil, List.map_nil, List.foldl_nil] at hv
  rw [hv, validateLoop_eof _ _ _ _ rfl]
  rfl

/-- C23 (refuted as stated): when every readable record of the input fails the filter, the
copy fails with "no transactions to copy" and the output path holds the 16 bytes of the input
header, a file that `ValidateTxnLog` accepts with `IsValid = true` and no records. -/
theorem failed_copy_leaves_valid_log (inputPath outputPath : String) (content : List Byte)
    (filter : ZXID → Bool) (res : ValidationResult)
    (hval : ValidateTxnLog inputPath (some content) = some (.ok res))
    (hall : ∀ z ∈ res.Transactions, filter z = false) :
    ∃ out outRes,
      copyTxnLogWithFilter inputPath outputPath (some content) filter =
        some { count := 0
               err := (NewUserError "no transactions to copy").WithContext "input_path"
                 (.str inputPath)
               output := some out } ∧
      out = content.take 16 ∧
      ValidateTxnLog outputPath (some out) = some (.ok outRes) ∧
      outRes.IsValid = true ∧ outRes.ValidTransactionCount = 0 := by
  obtain ⟨hd, Rs0, tail, hvalid, hcontent, hwf, hbad, htx, -, -⟩ :=
    ValidateTxnLog_ok_inv inputPath content res hval
  by_cases hpath : inputPath = outputPath
  · subst hpath
    have hsame := copyTxnLogWithFilter_same inputPath hd (frames Rs0 ++ tail) filter hvalid
    rw [← hcontent] at hsame
    refine ⟨headerBytes hd, initialResult, hsame, ?_, ValidateTxnLog_header_alone _ hd hvalid,
      rfl, rfl⟩
    rw [hcontent]
    exact (take_headerBytes hd _).symm
  have hcopy := copyTxnLogWithFilter_frames inputPath outputPath hd Rs0 tail filter hpath
    hvalid hwf hbad
  have hnil : (Rs0.filter fun R => filter R.readBack.Zxid) = [] := by
    rw [List.filter_eq_nil_iff]
    intro R hR
    have : filter R.readBack.Zxid = false :=
      hall _ (by rw [htx]; exact List.mem_map.2 ⟨R, hR, rfl⟩)
    rw [this]
    exact Bool.false_ne_true
  rw [hnil] at hcopy
  rw [if_pos List.length_nil, ← hcontent] at hcopy
  refine ⟨headerBytes hd, initialResult, hcopy, ?_, ValidateTxnLog_header_alone _ hd hvalid,
    rfl, rfl⟩
  rw [hcontent]
  exact (take_headerBytes hd _).symm

set_option maxRecDepth 100000 in
/-- The sample log with the one record 256, copied from ZXID 300 on: the call fails and leaves
a header-only file at the output path that validates. -/
theorem failed_copy_leaves_valid_log_witness :
    ∃ out outRes,
      CopyTxnLogFromZxid "log.100" "log.out"
        (some (headerBytes sampleHeader ++ frames [sampleRecord 256])) 300 =
        some { count := 0
               err := (NewUserError "no transactions to copy").WithContext "input_path"
                 (.str "log.100")
               output := some out } ∧
      out = (headerBytes sampleHeader ++ frames [sampleRecord 256]).take 16 ∧
      ValidateTxnLog "log.out" (some out) = some (.ok outRes) ∧
      outRes.IsValid = true ∧ outRes.ValidTransactionCount = 0 :=
  failed_copy_leaves_valid_log "log.100" "log.out" _ (fun zxid => decide (zxid ≥ 300))
    { IsValid := true, ValidTransactionCount := 1, LastValidPos := 16,
      LastValidZxid := 256, CorruptionType := "", Transactions := [256] }
    (by decide) (by decide)

/-! ## Snapshot validation and closing -/

/-- C29 (amended): `ValidateSnapshot` on a file that exists with size 0 returns the error
"empty snapshot file" of category Corruption with the path in its context; on a file of
positive size it returns no error. -/
theorem empty_snapshot_corruption (path : String) (content : List Byte) :
    (content.length = 0 →
      ValidateSnapshot path (some content) =
        (NewCorruptionError "empty snapshot file").WithContext "path" (.str path) ∧
      (ValidateSnapshot path (some content)).category? = some .corruption ∧
      (ValidateSnapshot path (some content)).message? = some "empty snapshot file") ∧
    (content.length ≠ 0 → ValidateSnapshot path (some content) = .nil) := by
  constructor
  · intro h
    have e : ValidateSnapshot path (some content) =
        (NewCorruptionError "empty snapshot file").WithContext "path" (.str path) := by
      unfold ValidateSnapshot GetFileInfo osStat
      simp only []
      rw [if_pos h]
    rw [e]
    exact ⟨rfl, rfl, rfl⟩
  · intro h
    unfold ValidateSnapshot GetFileInfo osStat
    simp only []
    rw [if_neg h]

/-- Witness for C29: an empty file and a file of three bytes. -/
theorem empty_snapshot_corruption_witness :
    (ValidateSnapshot "snapshot.100" (some [])).category? = some .corruption ∧
    (ValidateSnapshot "snapshot.100" (some [])).message? = some "empty snapshot file" ∧
    ValidateSnapshot "snapshot.100" (some [1, 2, 3]) = .nil :=
  ⟨((empty_snapshot_corruption "snapshot.100" []).1 rfl).2.1,
    ((empty_snapshot_corruption "snapshot.100" []).1 rfl).2.2,
    (empty_snapshot_corruption "snapshot.100" [1, 2, 3]).2 (by decide)⟩

/-- Counterexample to C29 as stated: the error for the empty file `snapshot.100` has category
Corruption, not Validation. -/
theorem empty_snapshot_counterexample :
    ValidateSnapshot "snapshot.100" (some []) ≠ .nil ∧
    (ValidateSnapshot "snapshot.100" (some [])).category? ≠ some .validation ∧
    (ValidateSnapshot "snapshot.100" (some [])).Error =
      "[Corruption] empty snapshot file \x7bpath=snapshot.100\x7d" := by
  decide

/-- C30 (amended): on an open file the first `Close` of a writer or reader returns no error
and marks the file closed; a second `Close` leaves that state unchanged and returns the
error of `os.File.Close` on a closed file; with a nil file `Close` returns no error. -/
theorem close_twice (f : OsFile) (hopen : f.closed = false) :
    (TxnLogWriter.Close (some f)).1 = .nil ∧
    (TxnLogWriter.Close (some f)).2 = some { f with closed := true } ∧
    TxnLogWriter.Close (TxnLogWriter.Close (some f)).2 =
      (.PathError "close" f.name "file already closed", (TxnLogWriter.Close (some f)).2) ∧
    (TxnLogReader.Close (some f)).1 = .nil ∧
    (TxnLogReader.Close (some f)).2 = some { f with closed := true } ∧
    TxnLogReader.Close (TxnLogReader.Close (some f)).2 =
      (.PathError "close" f.name "file already closed", (TxnLogReader.Close (some f)).2) ∧
    TxnLogWriter.Close none = (.nil, none) ∧ TxnLogReader.Close none = (.nil, none) := by
  simp [TxnLogWriter.Close, TxnLogReader.Close, OsFile.Close, hopen]

/-- Witness for C30 on the open file `log.100`. -/
theorem close_twice_witness :
    (TxnLogWriter.Close (some ⟨"log.100", false⟩)).1 = .nil ∧
    (TxnLogWriter.Close (TxnLogWriter.Close (some ⟨"log.100", false⟩)).2).1 =
      .PathError "close" "log.100" "file already closed" ∧
    (TxnLogReader.Close (some ⟨"log.100", false⟩)).1 = .nil ∧
    (TxnLogReader.Close (TxnLogReader.Close (some ⟨"log.100", false⟩)).2).1 =
      .PathError "close" "log.100" "file already closed" :=
  ⟨(close_twice ⟨"log.100", false⟩ rfl).1,
    congrArg Prod.fst (close_twice ⟨"log.100", false⟩ rfl).2.2.1,
    (close_twice ⟨"log.100", false⟩ rfl).2.2.2.1,
    congrArg Prod.fst (close_twice ⟨"log.100", false⟩ rfl).2.2.2.2.2.1⟩

/-- Counterexample to C30 as stated: the second `Close` of the writer and of the reader of
`log.100` returns an error. -/
theorem close_twice_counterexample :
    (TxnLogWriter.Close (TxnLogWriter.Close (some ⟨"log.100", false⟩)).2).1 ≠ .nil ∧
    (TxnLogReader.Close (TxnLogReader.Close (some ⟨"log.100", false⟩)).2).1 ≠ .nil ∧
    (TxnLogWriter.Close (TxnLogWriter.Close (some ⟨"log.100", false⟩)).2).1.Error =
      "close log.100: file already closed" := by
  decide

/-! ## Information on a log file -/

theorem GetTxnLogInfo_of_validate (path : String) (content : List Byte)
    (res : ValidationResult) (hname : (ParseZxidFromFileName path).2 = .nil)
    (hval : ValidateTxnLog path (some content) = some (.ok res)) :
    GetTxnLogInfo path (some content) =
      some (.ok { Name := filepath.Base path
                  StartZxid := (ParseZxidFromFileName path).1
                  EndZxid :=
                    if res.Transactions.length > 0 then
                      res.Transactions.getD (res.Transactions.length - 1) 0
                    else (ParseZxidFromFileName path).1
                  Size := content.length
                  Status := if !res.IsValid then "corrupted" else "valid"
                  TransactionCount := res.ValidTransactionCount
                  Note := "" }) := by
  unfold GetTxnLogInfo osStat
  simp only []
  rw [if_neg (not_not.2 hname), hval]

/-- C27: for a log file with a parseable name and a valid header, the content is the header,
the frames of the valid records `Rs` and a rest that is not read as a record, and
`GetTxnLogInfo` returns the base name, the ZXID of the name, the ZXID of the last valid
record (that of the name when there is none), the file size, the number of valid records,
and the status "valid" when nothing follows the valid records and "corrupted" otherwise. -/
theorem txnlog_info (path : String) (content : List Byte) (reader : TxnLogReader)
    (hname : (ParseZxidFromFileName path).2 = .nil)
    (hopen : OpenTxnLog path (some content) = .ok reader) :
    ∃ Rs tail, content = headerBytes reader.header ++ (frames Rs ++ tail) ∧
      (∀ R ∈ Rs, R.wellFormed) ∧ (∀ R t, R.wellFormed → tail ≠ frame R ++ t) ∧
      GetTxnLogInfo path (some content) =
        some (.ok { Name := filepath.Base path
                    StartZxid := (ParseZxidFromFileName path).1
                    EndZxid :=
                      match Rs.getLast? with
                      | some R => R.readBack.Zxid
                      | none => (ParseZxidFromFileName path).1
                    Size := content.length
                    Status := if tail = [] then "valid" else "corrupted"
                    TransactionCount := Rs.length
                    Note := "" }) := by
  obtain ⟨hvalid, hcontent, -, -⟩ := OpenTxnLog_ok_inv path content reader hopen
  obtain ⟨Rs, tail, hdec, hall, hbad⟩ := frames_decompose reader.rest.length reader.rest
    (Nat.le_refl _)
  refine ⟨Rs, tail, by rw [hcontent, hdec], hall, hbad, ?_⟩
  have hc : content = headerBytes reader.header ++ (frames Rs ++ tail) := by
    rw [hcontent, hdec]
  have key : ∃ res, ValidateTxnLog path (some content) = some (.ok res) ∧
      res.IsValid = decide (tail = []) ∧ res.ValidTransactionCount = Rs.length ∧
      res.Transactions = Rs.map (fun R => R.readBack.Zxid) := by
    by_cases ht : tail = []
    · obtain ⟨res, h1, h2, h3, h4, -⟩ := ValidateTxnLog_valid path reader.header Rs hvalid hall
      refine ⟨res, ?_, ?_, h3, h4⟩
      · rw [hc, ht, List.append_nil]; exact h1
      · rw [h2, ht]; rfl
    · obtain ⟨res, h1, h2, h3, h4, -, -⟩ :=
        validate_corrupt_tail path reader.header Rs tail hvalid hall ht hbad
      refine ⟨res, ?_, ?_, h3, h4⟩
      · rw [hc]; exact h1
      · rw [h2]; exact (decide_eq_false ht).symm
  obtain ⟨res, hval, hv, hcount, htx⟩ := key
  rw [GetTxnLogInfo_of_validate path content res hname hval, hv, hcount, htx]
  congr 3
  · cases hRs : Rs.getLast? with
    | none =>
      have : Rs = [] := List.getLast?_eq_none_iff.1 hRs
      subst this
      rfl
    | some R =>
      have hne : Rs ≠ [] := by
        intro h; subst h; cases hRs
      rw [List.length_map, if_pos (List.length_pos.2 hne), getD_map_getLast _ Rs hne]
      rw [List.getLast?_eq_getLast _ hne] at hRs
      cases hRs
      rfl
  · by_cases ht : tail = []
    · simp [ht]
    · simp [ht]

set_option maxRecDepth 100000 in
/-- Witness for C27: the file `log.100` with the sample header, the records 256 and 257 and
three stray bytes. -/
theorem txnlog_info_witness :
    GetTxnLogInfo "/data/log.100"
        (some (headerBytes sampleHeader ++ (frames [sampleRecord 256, sampleRecord 257] ++
          [1, 2, 3]))) =
      some (.ok { Name := "log.100", StartZxid := 256, EndZxid := 257, Size := 107,
                  Status := "corrupted", TransactionCount := 2, Note := "" }) ∧
    ∃ Rs tail, headerBytes sampleHeader ++ (frames [sampleRecord 256, sampleRecord 257] ++
          [1, 2, 3]) = headerBytes sampleHeader ++ (frames Rs ++ tail) ∧
      (∀ R ∈ Rs, R.wellFormed) ∧ (∀ R t, R.wellFormed → tail ≠ frame R ++ t) ∧
      GetTxnLogInfo "/data/log.100"
          (some (headerBytes sampleHeader ++ (frames [sampleRecord 256, sampleRecord 257] ++
            [1, 2, 3]))) =
        some (.ok { Name := filepath.Base "/data/log.100"
                    StartZxid := (ParseZxidFromFileName "/data/log.100").1
                    EndZxid :=
                      match Rs.getLast? with
                      | some R => R.readBack.Zxid
                      | none => (ParseZxidFromFileName "/data/log.100").1
                    Size := (headerBytes sampleHeader ++
                      (frames [sampleRecord 256, sampleRecord 257] ++ [1, 2, 3])).length
                    Status := if tail = [] then "valid" else "corrupted"
                    TransactionCount := Rs.length
                    Note := "" }) :=
  ⟨by decide,
    txnlog_info "/data/log.100" _
      { path := "/data/log.100", rest := frames [sampleRecord 256, sampleRecord 257] ++ [1, 2, 3],
        pos := 16, header := sampleHeader }
      (by decide) (by decide)⟩

/-! ## Directory listings -/

theorem sampleLib_sortsByKey : sampleLib.sortsByKey := by
  intro key l
  haveI : IsTotal String (fun a b => decide (key b < key a) = false) :=
    ⟨fun a b => by simp only [decide_eq_false_iff_not]; omega⟩
  haveI : IsTrans String (fun a b => decide (key b < key a) = false) :=
    ⟨fun a b c => by simp only [decide_eq_false_iff_not]; omega⟩
  constructor
  · exact List.perm_insertionSort _ l
  · have h := List.sorted_insertionSort (fun a b => decide (key b < key a) = false) l
    refine List.Pairwise.imp ?_ h
    intro a b hab
    simp only [decide_eq_false_iff_not] at hab
    omega

theorem Parse_of_base_eq (p q : String) (h : filepath.Base p = filepath.Base q) :
    (ParseZxidFromFileName p).1 = (ParseZxidFromFileName q).1 ∧
    ((ParseZxidFromFileName p).2 = .nil ↔ (ParseZxidFromFileName q).2 = .nil) := by
  unfold ParseZxidFromFileName
  simp only []
  rw [h]
  split_ifs <;> simp [NewUserError, GoError.WithContext, GoError.WithError]

theorem Base_plain (name : String) (hne : name ≠ "") (h : '/' ∉ name.data) :
    filepath.Base name = name := by
  have hd : name.data ≠ [] := fun e => hne (String.ext e)
  show String.mk (baseChars name.data) = name
  rw [baseChars_plain _ hd h]

theorem pairwise_le_getLast {α : Type} (key : α → Nat) (l : List α)
    (h : l.Pairwise fun a b => key a ≤ key b) (hne : l ≠ []) :
    ∀ x ∈ l, key x ≤ key (l.getLast hne) := by
  intro x hx
  rw [← List.dropLast_append_getLast hne] at hx h
  rcases List.mem_append.1 hx with hx | hx
  · exact (List.pairwise_append.1 h).2.2 x hx _ (List.mem_singleton_self _)
  · rw [List.mem_singleton.1 hx]

theorem ListFiles_sorted (lib : Lib) (hsort : lib.sortsByKey) (files : List String) :
    (lib.SortSlice files zxidLess).Perm files ∧
    (lib.SortSlice files zxidLess).Pairwise fun a b =>
      (ParseZxidFromFileName a).1 ≤ (ParseZxidFromFileName b).1 :=
  hsort (fun p => (ParseZxidFromFileName p).1) files

/-- C25: for an existing directory, `ListTxnLogFiles` (resp. `ListSnapshotFiles`) returns a
rearrangement of the joined paths of exactly the non-directory entries whose names start with
"log." (resp. "snapshot."), none being dropped, in which the ZXIDs parsed from the paths
(0 when the name does not parse) do not decrease; the ZXID parsed from a joined path is the
one parsed from the entry name; a missing directory gives the IO error "failed to read
directory".  The library sort and join enter through their contracts. -/
theorem list_files_sorted (lib : Lib) (hsort : lib.sortsByKey) (dir : String)
    (es : List DirEntry) :
    (∃ l, ListTxnLogFiles lib dir (some es) = .ok l ∧
      l.Perm ((es.filter fun e => !e.IsDir && strings.HasPrefix e.Name "log.").map
        fun e => lib.Join dir e.Name) ∧
      l.Pairwise fun a b => (ParseZxidFromFileName a).1 ≤ (ParseZxidFromFileName b).1) ∧
    (∃ l, ListSnapshotFiles lib dir (some es) = .ok l ∧
      l.Perm ((es.filter fun e => !e.IsDir && strings.HasPrefix e.Name "snapshot.").map
        fun e => lib.Join dir e.Name) ∧
      l.Pairwise fun a b => (ParseZxidFromFileName a).1 ≤ (ParseZxidFromFileName b).1) ∧
    (∀ name, lib.joinKeepsName dir name → name ≠ "" → '/' ∉ name.data →
      (ParseZxidFromFileName (lib.Join dir name)).1 = (ParseZxidFromFileName name).1) ∧
    (∃ e, ListTxnLogFiles lib dir none = .error e ∧ e.category? = some .io ∧
      e.message? = some "failed to read directory") ∧
    (∃ e, ListSnapshotFiles lib dir none = .error e ∧ e.category? = some .io ∧
      e.message? = some "failed to read directory") := by
  refine ⟨⟨_, rfl, ListFiles_sorted lib hsort _⟩, ⟨_, rfl, ListFiles_sorted lib hsort _⟩, ?_,
    ⟨_, rfl, rfl, rfl⟩, ⟨_, rfl, rfl, rfl⟩⟩
  intro name hj hne hs
  refine (Parse_of_base_eq _ _ ?_).1
  rw [hj, Base_plain name hne hs]

/-- Witness for C25: a directory with three logs (one with an unparseable name), two
snapshots and a subdirectory named like a log. -/
theorem list_files_sorted_witness :
    ListTxnLogFiles sampleLib "/data"
        (some [⟨"log.300", false⟩, ⟨"log.100", false⟩, ⟨"log.xyz", false⟩,
          ⟨"log.200", true⟩, ⟨"snapshot.2", false⟩, ⟨"snapshot.1", false⟩]) =
      .ok ["/data/log.xyz", "/data/log.100", "/data/log.300"] ∧
    ListSnapshotFiles sampleLib "/data"
        (some [⟨"log.300", false⟩, ⟨"log.100", false⟩, ⟨"log.xyz", false⟩,
          ⟨"log.200", true⟩, ⟨"snapshot.2", false⟩, ⟨"snapshot.1", false⟩]) =
      .ok ["/data/snapshot.1", "/data/snapshot.2"] ∧
    (∃ l, ListTxnLogFiles sampleLib "/data"
        (some [⟨"log.300", false⟩, ⟨"log.100", false⟩, ⟨"log.xyz", false⟩,
          ⟨"log.200", true⟩, ⟨"snapshot.2", false⟩, ⟨"snapshot.1", false⟩]) = .ok l ∧
      l.Perm (([⟨"log.300", false⟩, ⟨"log.100", false⟩, ⟨"log.xyz", false⟩,
          ⟨"log.200", true⟩, ⟨"snapshot.2", false⟩, ⟨"snapshot.1", false⟩].filter
        fun e : DirEntry => !e.IsDir && strings.HasPrefix e.Name "log.").map
        fun e => sampleLib.Join "/data" e.Name) ∧
      l.Pairwise fun a b => (ParseZxidFromFileName a).1 ≤ (ParseZxidFromFileName b).1) :=
  ⟨by decide, by decide,
    (list_files_sorted sampleLib sampleLib_sortsByKey "/data"
      [⟨"log.300", false⟩, ⟨"log.100", false⟩, ⟨"log.xyz", false⟩,
        ⟨"log.200", true⟩, ⟨"snapshot.2", false⟩, ⟨"snapshot.1", false⟩]).1⟩

/-- C26: when the directory has no snapshot file, `GetLatestSnapshot` fails with the IO error
"no snapshot files found"; when it has some and all their names parse, it returns the last
element of `ListSnapshotFiles` with its parsed ZXID and no error, that element is one of the
snapshot files of the directory, and its ZXID is at least that of every one of them. -/
theorem latest_snapshot (lib : Lib) (hsort : lib.sortsByKey) (dir : String)
    (es : List DirEntry) (files : List String)
    (hfiles : files = (es.filter fun e =>
      !e.IsDir && strings.HasPrefix e.Name "snapshot.").map fun e => lib.Join dir e.Name) :
    (files = [] →
      GetLatestSnapshot lib dir (some es) =
        ("", 0, (NewIOError "no snapshot files found").WithContext "dir" (.str dir))) ∧
    (files ≠ [] → (∀ p ∈ files, (ParseZxidFromFileName p).2 = .nil) →
      ∃ l latest, ListSnapshotFiles lib dir (some es) = .ok l ∧ l.getLast? = some latest ∧
        GetLatestSnapshot lib dir (some es) =
          (latest, (ParseZxidFromFileName latest).1, .nil) ∧
        latest ∈ files ∧
        ∀ p ∈ files, (ParseZxidFromFileName p).1 ≤ (ParseZxidFromFileName latest).1) := by
  obtain ⟨hperm, hpw⟩ := ListFiles_sorted lib hsort files
  have hlist : ListSnapshotFiles lib dir (some es) = .ok (lib.SortSlice files zxidLess) := by
    rw [hfiles]; rfl
  constructor
  · intro hnil
    subst hnil
    have hl : lib.SortSlice [] zxidLess = [] := List.Perm.eq_nil hperm
    unfold GetLatestSnapshot
    rw [hlist, hl]
    rfl
  · intro hne hparse
    have hlne : lib.SortSlice files zxidLess ≠ [] := by
      intro h
      have := hperm.length_eq
      rw [h] at this
      exact hne (List.length_eq_zero.1 this.symm)
    have hlast_mem : (lib.SortSlice files zxidLess).getLast hlne ∈ files :=
      hperm.subset (List.getLast_mem hlne)
    refine ⟨_, (lib.SortSlice files zxidLess).getLast hlne, hlist,
      List.getLast?_eq_getLast _ hlne, ?_, hlast_mem, ?_⟩
    · unfold GetLatestSnapshot
      rw [hlist]
      simp only []
      have hlen : (lib.SortSlice files zxidLess).length ≠ 0 := by
        intro h; exact hlne (List.length_eq_zero.1 h)
      have hget : (lib.SortSlice files zxidLess).getD
          ((lib.SortSlice files zxidLess).length - 1) "" =
          (lib.SortSlice files zxidLess).getLast hlne := by
        rw [List.getLast_eq_getElem, List.getD_eq_getElem?_getD,
          List.getElem?_eq_getElem (by omega)]
        rfl
      rw [if_neg hlen, hget, if_neg (not_not.2 (hparse _ hlast_mem))]
    · intro p hp
      exact pairwise_le_getLast (fun p => (ParseZxidFromFileName p).1) _ hpw hlne p
        (hperm.symm.subset hp)

/-- Witness for C26: a directory with the snapshots 3, 1 and 2, and an empty directory. -/
theorem latest_snapshot_witness :
    GetLatestSnapshot sampleLib "/data"
        (some [⟨"snapshot.3", false⟩, ⟨"snapshot.1", false⟩, ⟨"snapshot.2", false⟩]) =
      ("/data/snapshot.3", 3, .nil) ∧
    GetLatestSnapshot sampleLib "/data" (some []) =
      ("", 0, (NewIOError "no snapshot files found").WithContext "dir" (.str "/data")) ∧
    ∃ l latest, ListSnapshotFiles sampleLib "/data"
        (some [⟨"snapshot.3", false⟩, ⟨"snapshot.1", false⟩, ⟨"snapshot.2", false⟩]) = .ok l ∧
      l.getLast? = some latest ∧
      GetLatestSnapshot sampleLib "/data"
        (some [⟨"snapshot.3", false⟩, ⟨"snapshot.1", false⟩, ⟨"snapshot.2", false⟩]) =
          (latest, (ParseZxidFromFileName latest).1, .nil) ∧
      latest ∈ ["/data/snapshot.3", "/data/snapshot.1", "/data/snapshot.2"] ∧
      ∀ p ∈ ["/data/snapshot.3", "/data/snapshot.1", "/data/snapshot.2"],
        (ParseZxidFromFileName p).1 ≤ (ParseZxidFromFileName latest).1 :=
  ⟨by decide,
    (latest_snapshot sampleLib sampleLib_sortsByKey "/data" [] [] rfl).1 rfl,
    (latest_snapshot sampleLib sampleLib_sortsByKey "/data"
      [⟨"snapshot.3", false⟩, ⟨"snapshot.1", false⟩, ⟨"snapshot.2", false⟩]
      ["/data/snapshot.3", "/data/snapshot.1", "/data/snapshot.2"] (by decide)).2
      (by decide) (by decide)⟩

/-! ## Verification during a backup -/

theorem ValidateTxnLog_total (path : String) (file : Option (List Byte)) :
    ∃ r, ValidateTxnLog path file = some r := by
  rcases hopen : OpenTxnLog path file with e | reader
  · unfold ValidateTxnLog
    rw [hopen]
    exact ⟨_, rfl⟩
  · cases file with
    | none => unfold OpenTxnLog at hopen; cases hopen
    | some content =>
      obtain ⟨hvalid, hcontent, -, -⟩ := OpenTxnLog_ok_inv path content reader hopen
      obtain ⟨Rs, tail, hdec, hall, hbad⟩ := frames_decompose reader.rest.length reader.rest
        (Nat.le_refl _)
      rw [hcontent, hdec]
      by_cases ht : tail = []
      · obtain ⟨res, h1, -⟩ := ValidateTxnLog_valid path reader.header Rs hvalid hall
        rw [ht, List.append_nil]
        exact ⟨_, h1⟩
      · obtain ⟨res, h1, -⟩ :=
          validate_corrupt_tail path reader.header Rs tail hvalid hall ht hbad
        exact ⟨_, h1⟩

theorem ValidateTxnLog_open_failed (path : String) (file : Option (List Byte)) (e : GoError)
    (h : OpenTxnLog path file = .error e) :
    ValidateTxnLog path file =
      some (.error (((NewIOError "failed to open log").WithError e).WithContext "path"
        (.str path))) := by
  unfold ValidateTxnLog
  rw [h]

theorem ValidateTxnLog_error_form (path : String) (file : Option (List Byte)) (err : GoError)
    (h : ValidateTxnLog path file = some (.error err)) :
    err.category? = some .io ∧ err.message? = some "failed to open log" := by
  rcases hopen : OpenTxnLog path file with e | reader
  · rw [ValidateTxnLog_open_failed path file e hopen] at h
    cases h
    exact ⟨rfl, rfl⟩
  · unfold ValidateTxnLog at h
    rw [hopen] at h
    simp only [] at h
    cases hloop : validateLoop (reader.rest.length + 1) reader
      { IsValid := true, ValidTransactionCount := 0, LastValidPos := 0, LastValidZxid := 0,
        CorruptionType := "", Transactions := [] } 0 with
    | none => rw [hloop] at h; cases h
    | some r => rw [hloop] at h; cases h

theorem validateTxnLogs_bad_header (fs : FileSystem) (p : String) (e : GoError)
    (hbad : OpenTxnLog p (fs.file p) = .error e) (txnlogs : List String) (hp : p ∈ txnlogs) :
    ∀ results, ∃ err, validateTxnLogs fs txnlogs results = some (.error err) ∧
      err.category? = some .io ∧ err.message? = some "failed to open log" := by
  induction txnlogs with
  | nil => exact absurd hp (List.not_mem_nil _)
  | cons t rest ih =>
    intro results
    obtain ⟨r, hr⟩ := ValidateTxnLog_total t (fs.file t)
    unfold validateTxnLogs
    rw [hr]
    cases r with
    | error err => exact ⟨err, rfl, ValidateTxnLog_error_form t _ err hr⟩
    | ok result =>
      rcases List.mem_cons.1 hp with h | h
      · subst h
        rw [ValidateTxnLog_open_failed p _ e hbad] at hr
        cases hr
      · exact ih h _

set_option maxRecDepth 100000 in
/-- C28 (refuted as stated): when a log file listed in the backup has a header that cannot be
parsed, `ValidateBackupFiles` returns the IO error "failed to open log" and
`BackupEngine.verifyBackup` returns that error instead of tallying the file; `Run` wraps it
and returns before the metadata is saved. -/
theorem verify_fatal_on_bad_header (lib : Lib) (fs : FileSystem) (backupDir : String)
    (txnlogs snapshots : List String) (p : String) (e : GoError)
    (hl : ListTxnLogFiles lib (lib.Join backupDir "txnlogs")
      (fs.dir (lib.Join backupDir "txnlogs")) = .ok txnlogs)
    (hs : ListSnapshotFiles lib (lib.Join backupDir "snapshots")
      (fs.dir (lib.Join backupDir "snapshots")) = .ok snapshots)
    (hp : p ∈ txnlogs) (hbad : OpenTxnLog p (fs.file p) = .error e) :
    ∃ err, verifyBackup lib fs backupDir = some (.error err) ∧ err ≠ .nil ∧
      err.category? = some .io ∧ err.message? = some "failed to open log" := by
  obtain ⟨err, herr, hc, hm⟩ := validateTxnLogs_bad_header fs p e hbad txnlogs hp []
  refine ⟨err, ?_, ?_, hc, hm⟩
  · unfold verifyBackup ValidateBackupFiles
    simp only []
    rw [hl, hs]
    simp only []
    rw [herr]
  · intro h
    rw [h] at hc
    cases hc

set_option maxRecDepth 100000 in
/-- The backup whose only log `log.100` is empty: `verifyBackup` returns an error; the backup
whose only file is an empty snapshot is verified without error, the snapshot tallied as
corrupted. -/
theorem verify_fatal_on_bad_header_witness :
    (∃ err, verifyBackup sampleLib brokenBackup "/backup" = some (.error err) ∧ err ≠ .nil ∧
      err.category? = some .io ∧ err.message? = some "failed to open log") ∧
    (verifyBackup sampleLib emptySnapshotBackup "/backup").map (fun r => r.toOption.map Prod.fst)
      = some (some { TotalFiles := 1, ValidFiles := 0, CorruptedFiles := 1,
                     RepairedFiles := 0 }) :=
  ⟨verify_fatal_on_bad_header sampleLib brokenBackup "/backup" ["/backup/txnlogs/log.100"] []
      "/backup/txnlogs/log.100" _ (by decide) (by decide) (by decide)
      (OpenTxnLog_empty "/backup/txnlogs/log.100"),
    by decide⟩

/-! ## Restoring transaction logs -/

theorem restoreLoop_truncate (lib : Lib) (config : RestoreConfig) (z : String)
    (txnlogs : List String) :
    ∀ fs, restoreLoop lib { config with TruncateToZxid := z } txnlogs fs =
      restoreLoop lib config txnlogs fs := by
  induction txnlogs with
  | nil => intro fs; rfl
  | cons t rest ih =>
    intro fs
    unfold restoreLoop
    simp only []
    split
    · exact ih _
    · rfl

set_option maxRecDepth 100000 in
/-- C24 (refuted as stated): `RestoreEngine.restoreTxnLogs` never reads `TruncateToZxid`, so
its result is the same for every value of that field; with the field set to 0x100 the log of
the records 256 and 257 is restored by a plain copy, record 257 included, while
`CopyTxnLogUntilZxid` with that bound keeps the record 256 alone. -/
theorem restore_ignores_truncate :
    (∀ (lib : Lib) (config : RestoreConfig) (fs : FileSystem) (z : String),
      restoreTxnLogs lib { config with TruncateToZxid := z } fs =
        restoreTxnLogs lib config fs) ∧
    sampleRestoreConfig.TruncateToZxid = "100" ∧
    ParseZxidFromFileName "truncate.100" = (256, .nil) ∧
    (restoreTxnLogs sampleLib sampleRestoreConfig sampleBackup).1 = .nil ∧
    (restoreTxnLogs sampleLib sampleRestoreConfig sampleBackup).2.file "/zk/log/log.100" =
      some (headerBytes sampleHeader ++ frames [sampleRecord 256, sampleRecord 257]) ∧
    ((ValidateTxnLog "/zk/log/log.100"
      ((restoreTxnLogs sampleLib sampleRestoreConfig sampleBackup).2.file
        "/zk/log/log.100")).map fun r => r.toOption.map fun res => res.Transactions) =
      some (some [256, 257]) ∧
    (CopyTxnLogUntilZxid "/backup/txnlogs/log.100" "/zk/log/log.100"
      (sampleBackup.file "/backup/txnlogs/log.100") 256).map (fun c => c.output) =
      some (some (headerBytes sampleHeader ++ frames [sampleRecord 256])) := by
  refine ⟨?_, rfl, by decide, by decide, by decide, by decide, by decide⟩
  intro lib config fs z
  unfold restoreTxnLogs
  simp only []
  split
  · rfl
  · exact restoreLoop_truncate lib config z _ _

/-! ## The result of a scan, field by field -/

theorem ValidationResult_eq (a b : ValidationResult) (h1 : a.IsValid = b.IsValid)
    (h2 : a.ValidTransactionCount = b.ValidTransactionCount)
    (h3 : a.LastValidPos = b.LastValidPos) (h4 : a.LastValidZxid = b.LastValidZxid)
    (h5 : a.CorruptionType = b.CorruptionType) (h6 : a.Transactions = b.Transactions) :
    a = b := by
  cases a; cases b
  simp only [ValidationResult.mk.injEq]
  exact ⟨h1, h2, h3, h4, h5, h6⟩

theorem lastZxid_getD (Rs : List Transaction) :
    (if (Rs.map fun R => R.readBack.Zxid).length > 0 then
        (Rs.map fun R => R.readBack.Zxid).getD ((Rs.map fun R => R.readBack.Zxid).length - 1) 0
      else 0) = ((Rs.map fun R => R.readBack.Zxid).getLast?).getD 0 := by
  by_cases hnil : Rs = []
  · subst hnil; rfl
  · have hpos : 0 < Rs.length := List.length_pos.mpr hnil
    rw [if_pos (by simp only [List.length_map]; omega), List.length_map,
      getD_map_getLast _ Rs hnil, List.getLast?_eq_getLast _ (by simpa using hnil),
      List.getLast_map]
    rfl

/-- The scan of a valid header, well-formed records and a tail on which the next read fails
with the error `e`. -/
theorem ValidateTxnLog_failed_read (path : String) (h : TxnLogHeader) (Rs : List Transaction)
    (tail : List Byte) (hh : h.valid) (hRs : ∀ R ∈ Rs, R.wellFormed) (e : GoError)
    (r' : TxnLogReader)
    (hread : ({ path := path, rest := tail
                pos := 16 + (Rs.map (fun R => 12 + R.Data.length)).sum
                header := h } : TxnLogReader).ReadTransaction = (.error e, r'))
    (hne : e ≠ .EOF) :
    ValidateTxnLog path (some (headerBytes h ++ (frames Rs ++ tail))) =
      some (.ok { IsValid := false
                  ValidTransactionCount := Rs.length
                  LastValidPos := 16 + (Rs.map (fun R => 12 + R.Data.length)).sum
                  LastValidZxid := ((Rs.map fun R => R.readBack.Zxid).getLast?).getD 0
                  CorruptionType := e.Error
                  Transactions := Rs.map fun R => R.readBack.Zxid }) := by
  obtain ⟨-, h2, h3, h4, h5, h6, -⟩ :=
    validateScan_fields (Rs.map Transaction.readBack) initialResult 16 0
  have hpos : ((Rs.map Transaction.readBack).foldl validateStep (initialResult, 16, 0)).2.1 =
      16 + (Rs.map (fun R => 12 + R.Data.length)).sum := by
    rw [h5, sum_sizes_readBack]
  have htx : ((Rs.map Transaction.readBack).foldl validateStep
      (initialResult, 16, 0)).1.Transactions = Rs.map fun R => R.readBack.Zxid := by
    rw [h3]; simp [initialResult]
  rw [ValidateTxnLog_frames path h Rs tail hh hRs, hpos,
    validateLoop_error _ _ _ _ _ _ hread hne]
  simp only [Option.map_some']
  congr 2
  apply ValidationResult_eq
  · rfl
  · show ((Rs.map Transaction.readBack).foldl validateStep
      (initialResult, 16, 0)).1.ValidTransactionCount = _
    rw [h6]
    by_cases hnil : Rs = []
    · simp [hnil, initialResult]
    · simp [hnil]
  · rfl
  · show (if _ > 0 then _ else _) = _
    rw [h4, htx]
    simp only [List.length_map, Nat.zero_add]
    have := lastZxid_getD Rs
    simp only [List.length_map] at this
    by_cases hnil : Rs = []
    · subst hnil; rfl
    · have hp : 0 < Rs.length := List.length_pos.mpr hnil
      rw [if_pos hp] at this ⊢
      exact this
  · rfl
  · exact htx

/-- The scan of a valid header and well-formed records with nothing after them. -/
theorem ValidateTxnLog_clean (path : String) (h : TxnLogHeader) (Rs : List Transaction)
    (hh : h.valid) (hRs : ∀ R ∈ Rs, R.wellFormed) :
    ∃ res, ValidateTxnLog path (some (headerBytes h ++ (frames Rs ++ []))) = some (.ok res) ∧
      res.IsValid = true ∧ res.ValidTransactionCount = Rs.length ∧
      res.LastValidZxid = ((Rs.map fun R => R.readBack.Zxid).getLast?).getD 0 ∧
      res.CorruptionType = "" ∧ res.Transactions = Rs.map fun R => R.readBack.Zxid := by
  obtain ⟨h1, h2, h3, -, -, h6, h7⟩ :=
    validateScan_fields (Rs.map Transaction.readBack) initialResult 16 0
  rw [ValidateTxnLog_frames path h Rs [] hh hRs, validateLoop_eof _ _ _ _ rfl]
  refine ⟨_, rfl, ?_, ?_, ?_, ?_, ?_⟩
  · rw [h1]; rfl
  · rw [h6]
    by_cases hnil : Rs = []
    · simp [hnil, initialResult]
    · simp [hnil]
  · rw [h7]
    by_cases hnil : Rs = []
    · subst hnil; rfl
    · rw [getLast?_map_readBack Rs hnil, List.getLast?_eq_getLast _ (by simpa using hnil),
        List.getLast_map]
      rfl
  · rw [h2]; rfl
  · rw [h3]; simp [initialResult]

theorem read_error_text_ne_empty (r r' : TxnLogReader) (e : GoError)
    (h : r.ReadTransaction = (.error e, r')) (hne : e ≠ .EOF) : e.Error ≠ "" := by
  rcases ReadTransaction_error_cases r r' e h with ⟨h1, -⟩ | ⟨h1, -, -⟩ | ⟨h1, -⟩
  · exact absurd h1 hne
  · rw [h1]; decide
  · cases e with
    | Backup cause m c ctx =>
      intro hev
      have := congrArg String.length hev
      unfold GoError.Error at this
      simp only [String.length_append] at this
      have h0 : "[".length = 1 := rfl
      have h00 : "".length = 0 := rfl
      omega
    | _ => cases h1

/-- Every successful scan, taken apart: the header and records it read, the rest, and all
fields of the result but the offset. -/
theorem ValidateTxnLog_result (path : String) (content : List Byte) (res : ValidationResult)
    (h : ValidateTxnLog path (some content) = some (.ok res)) :
    ∃ hd Rs tail, hd.valid ∧ content = headerBytes hd ++ (frames Rs ++ tail) ∧
      (∀ R ∈ Rs, R.wellFormed) ∧ (∀ R t, R.wellFormed → tail ≠ frame R ++ t) ∧
      res.IsValid = decide (tail = []) ∧ res.ValidTransactionCount = Rs.length ∧
      res.LastValidZxid = ((Rs.map fun R => R.readBack.Zxid).getLast?).getD 0 ∧
      (res.CorruptionType = "" ↔ tail = []) ∧
      res.Transactions = Rs.map fun R => R.readBack.Zxid := by
  obtain ⟨hd, Rs, tail, hvalid, hcontent, hall, hbad, -, -, -⟩ :=
    ValidateTxnLog_ok_inv path content res h
  refine ⟨hd, Rs, tail, hvalid, hcontent, hall, hbad, ?_⟩
  by_cases ht : tail = []
  · obtain ⟨res1, hv, h1, h2, h3, h4, h5⟩ := ValidateTxnLog_clean path hd Rs hvalid hall
    rw [hcontent, ht, hv] at h
    cases h
    exact ⟨by rw [h1, ht]; rfl, h2, h3, ⟨fun _ => ht, fun _ => h4⟩, h5⟩
  · obtain ⟨e, r', hread, hne⟩ := ReadTransaction_not_frame
      { path := path, rest := tail
        pos := 16 + (Rs.map (fun R => 12 + R.Data.length)).sum, header := hd } ht hbad
    rw [hcontent, ValidateTxnLog_failed_read path hd Rs tail hvalid hall e r' hread hne] at h
    cases h
    refine ⟨(decide_eq_false ht).symm, rfl, rfl, ⟨fun hc => ?_, fun hc => absurd hc ht⟩, rfl⟩
    exact absurd hc (read_error_text_ne_empty _ r' e hread hne)

/-! ## Invariants of a scan -/

/-- C36: every result that `ValidateTxnLog` returns has `valid_count` equal to the number of
ZXIDs listed, `last_valid_zxid` equal to the last listed ZXID (0 when none is listed), and an
empty `corruption_kind` exactly when `is_valid` is true. -/
theorem validation_result_well_formed (path : String) (file : Option (List Byte))
    (res : ValidationResult) (h : ValidateTxnLog path file = some (.ok res)) :
    res.ValidTransactionCount = res.Transactions.length ∧
    res.LastValidZxid = (res.Transactions.getLast?).getD 0 ∧
    (res.CorruptionType = "" ↔ res.IsValid = true) := by
  cases file with
  | none =>
    unfold ValidateTxnLog OpenTxnLog at h
    cases h
  | some content =>
    obtain ⟨hd, Rs, tail, -, -, -, -, hv, hc, hz, hk, htx⟩ :=
      ValidateTxnLog_result path content res h
    refine ⟨?_, ?_, ?_⟩
    · rw [hc, htx, List.length_map]
    · rw [hz, htx]
    · rw [hk, hv, decide_eq_true_iff]

set_option maxRecDepth 100000 in
/-- Witness for C36: the sample log of the records 256 and 257 followed by three stray
bytes. -/
theorem validation_result_well_formed_witness :
    ValidateTxnLog "log.100"
        (some (headerBytes sampleHeader ++ frames [sampleRecord 256, sampleRecord 257] ++
          [1, 2, 3])) =
      some (.ok { IsValid := false, ValidTransactionCount := 2, LastValidPos := 104,
                  LastValidZxid := 257, CorruptionType := "unexpected EOF",
                  Transactions := [256, 257] }) ∧
    (2 = [256, 257].length ∧ 257 = ([256, 257].getLast?).getD 0 ∧
      ("unexpected EOF" = "" ↔ false = true)) :=
  ⟨by decide,
    validation_result_well_formed "log.100"
      (some (headerBytes sampleHeader ++ frames [sampleRecord 256, sampleRecord 257] ++
        [1, 2, 3]))
      { IsValid := false, ValidTransactionCount := 2, LastValidPos := 104,
        LastValidZxid := 257, CorruptionType := "unexpected EOF", Transactions := [256, 257] }
      (by decide)⟩

/-- C38: `ValidateTxnLog` returns on every file; every record it reads moves the read
position forward by 12 plus the record length, at least 44 bytes, taken from the unread
bytes; and the count of valid records in a returned result satisfies
`16 + 44 * valid_count ≤ file size`. -/
theorem validate_terminates (path : String) (file : Option (List Byte)) :
    (∃ r, ValidateTxnLog path file = some r) ∧
    (∀ (r r' : TxnLogReader) (t : Transaction), r.ReadTransaction = (.ok t, r') →
      t.Length = (t.Data.length : Int) ∧ r'.pos = r.pos + (12 + t.Data.length) ∧
      44 ≤ 12 + t.Data.length ∧ r.rest.length = r'.rest.length + (12 + t.Data.length)) ∧
    (∀ content res, file = some content → ValidateTxnLog path file = some (.ok res) →
      16 + 44 * res.ValidTransactionCount ≤ content.length) := by
  refine ⟨ValidateTxnLog_total path file, ?_, ?_⟩
  · intro r r' t h
    obtain ⟨hwf, -, hrest, hr'⟩ := ReadTransaction_ok_inv r r' t h
    have hpos : r'.pos = r.pos + 8 + 4 + t.Data.length := by rw [hr']
    have hlen := congrArg List.length hrest
    rw [List.length_append, frame_length] at hlen
    exact ⟨hwf.1, by omega, by have := hwf.2.1; omega, by omega⟩
  · intro content res hfile h
    subst hfile
    obtain ⟨hd, Rs, tail, -, hcontent, hall, -, -, hc, -, -, -⟩ :=
      ValidateTxnLog_result path content res h
    have hsum : 44 * Rs.length ≤ (frames Rs).length := by
      clear hcontent hc
      induction Rs with
      | nil => simp
      | cons R Rs ih =>
        have hR := (hall R (List.mem_cons_self _ _)).2.1
        have := ih (fun x hx => hall x (List.mem_cons_of_mem _ hx))
        simp only [frames, List.length_append, frame_length, List.length_cons]
        omega
    have hh : (headerBytes hd).length = 16 := by
      simp only [headerBytes, List.length_append, bePut_length]
    rw [hc, hcontent, List.length_append, List.length_append, hh]
    omega

set_option maxRecDepth 100000 in
/-- Witness for C38: the sample log of two records and three stray bytes, 107 bytes long,
validates with two valid records. -/
theorem validate_terminates_witness :
    (∃ r, ValidateTxnLog "log.100"
      (some (headerBytes sampleHeader ++ frames [sampleRecord 256, sampleRecord 257] ++
        [1, 2, 3])) = some r) ∧
    16 + 44 * 2 ≤ (headerBytes sampleHeader ++ frames [sampleRecord 256, sampleRecord 257] ++
        [1, 2, 3]).length :=
  ⟨(validate_terminates "log.100" _).1,
    (validate_terminates "log.100"
      (some (headerBytes sampleHeader ++ frames [sampleRecord 256, sampleRecord 257] ++
        [1, 2, 3]))).2.2 _
      { IsValid := false, ValidTransactionCount := 2, LastValidPos := 104,
        LastValidZxid := 257, CorruptionType := "unexpected EOF", Transactions := [256, 257] }
      rfl (by decide)⟩

/-- C35: for a log file `F` that validates as valid and every `g` of 1 to 43 bytes,
`ValidateTxnLog (F ++ g)` returns `is_valid = false`, the valid count and the ZXIDs of `F`,
and `last_valid_offset = |F|`. -/
theorem short_garbage_detected (path : String) (F g : List Byte) (resF : ValidationResult)
    (hF : ValidateTxnLog path (some F) = some (.ok resF)) (hvalid : resF.IsValid = true)
    (h1 : 1 ≤ g.length) (h43 : g.length ≤ 43) :
    ∃ res, ValidateTxnLog path (some (F ++ g)) = some (.ok res) ∧ res.IsValid = false ∧
      res.ValidTransactionCount = resF.ValidTransactionCount ∧
      res.Transactions = resF.Transactions ∧ res.LastValidPos = F.length := by
  obtain ⟨hd, Rs, tail, hh, hcontent, hall, -, hv, hc, -, -, htx⟩ :=
    ValidateTxnLog_result path F resF hF
  have ht : tail = [] := by
    rw [hvalid] at hv
    exact of_decide_eq_true hv.symm
  subst ht
  have hg : g ≠ [] := by
    intro h; rw [h] at h1; simp at h1
  have hbad : ∀ R t, R.wellFormed → g ≠ frame R ++ t := by
    intro R t hR h
    have := congrArg List.length h
    rw [List.length_append, frame_length] at this
    have := hR.2.1
    omega
  obtain ⟨e, r', hread, hne⟩ := ReadTransaction_not_frame
    { path := path, rest := g
      pos := 16 + (Rs.map (fun R => 12 + R.Data.length)).sum, header := hd } hg hbad
  have hFg : F ++ g = headerBytes hd ++ (frames Rs ++ g) := by
    rw [hcontent, List.append_nil, List.append_assoc]
  have hh16 : (headerBytes hd).length = 16 := by
    simp only [headerBytes, List.length_append, bePut_length]
  refine ⟨_, by rw [hFg]; exact ValidateTxnLog_failed_read path hd Rs g hh hall e r' hread hne,
    rfl, hc.symm, htx.symm, ?_⟩
  show 16 + (Rs.map (fun R => 12 + R.Data.length)).sum = F.length
  rw [hcontent, List.append_nil, List.length_append, hh16, frames_length]

set_option maxRecDepth 100000 in
/-- Witness for C35: the sample log of the records 256 and 257 (104 bytes) followed by the
bytes 1, 2, 3. -/
theorem short_garbage_detected_witness :
    ∃ res, ValidateTxnLog "log.100"
        (some (headerBytes sampleHeader ++ frames [sampleRecord 256, sampleRecord 257] ++
          [1, 2, 3])) = some (.ok res) ∧ res.IsValid = false ∧
      res.ValidTransactionCount = 2 ∧ res.Transactions = [256, 257] ∧
      res.LastValidPos =
        (headerBytes sampleHeader ++ frames [sampleRecord 256, sampleRecord 257]).length :=
  short_garbage_detected "log.100"
    (headerBytes sampleHeader ++ frames [sampleRecord 256, sampleRecord 257]) [1, 2, 3]
    { IsValid := true, ValidTransactionCount := 2, LastValidPos := 60,
      LastValidZxid := 257, CorruptionType := "", Transactions := [256, 257] }
    (by decide) rfl (by decide) (by decide)

/-! ## What a failed read leaves in the result -/

theorem Backup_text_ne_message (e : GoError) (m : String) (h : e.message? = some m) :
    e.Error ≠ m := by
  cases e with
  | Backup cause msg c ctx =>
    have hm : msg = m := by
      simpa [GoError.message?] using h
    subst hm
    intro hev
    have := congrArg String.length hev
    unfold GoError.Error at this
    simp only [String.length_append] at this
    have h0 : "[".length = 1 := rfl
    omega
  | _ => cases h

/-- C39 (amended): when the read that follows the valid records fails with the error `e`,
the result has `is_valid = false`, `corruption_kind` equal to the text `e.Error()` (which for
a `*BackupError` is never the bare message), `last_valid_offset` equal to the offset at which
that read began, and, when `valid_count > 0`, `last_valid_zxid = zxids[valid_count - 1]`. -/
theorem failed_read_recorded (path : String) (h : TxnLogHeader) (Rs : List Transaction)
    (tail : List Byte) (hh : h.valid) (hRs : ∀ R ∈ Rs, R.wellFormed) (e : GoError)
    (r' : TxnLogReader)
    (hread : ({ path := path, rest := tail
                pos := 16 + (Rs.map (fun R => 12 + R.Data.length)).sum
                header := h } : TxnLogReader).ReadTransaction = (.error e, r'))
    (hne : e ≠ .EOF) :
    ∃ res, ValidateTxnLog path (some (headerBytes h ++ (frames Rs ++ tail))) = some (.ok res) ∧
      res.IsValid = false ∧ res.CorruptionType = e.Error ∧
      (∀ m, e.message? = some m → res.CorruptionType ≠ m) ∧
      res.LastValidPos = (headerBytes h ++ frames Rs).length ∧
      (res.ValidTransactionCount > 0 →
        res.LastValidZxid = res.Transactions.getD (res.ValidTransactionCount - 1) 0) := by
  refine ⟨_, ValidateTxnLog_failed_read path h Rs tail hh hRs e r' hread hne, rfl, rfl,
    fun m hm => Backup_text_ne_message e m hm, ?_, ?_⟩
  · show 16 + (Rs.map (fun R => 12 + R.Data.length)).sum = _
    have hh16 : (headerBytes h).length = 16 := by
      simp only [headerBytes, List.length_append, bePut_length]
    rw [List.length_append, hh16, frames_length]
  · intro hpos
    show ((Rs.map fun R => R.readBack.Zxid).getLast?).getD 0 =
      (Rs.map fun R => R.readBack.Zxid).getD (Rs.length - 1) 0
    have hpos' : 0 < Rs.length := hpos
    have := lastZxid_getD Rs
    simp only [List.length_map] at this
    rw [if_pos hpos'] at this
    exact this.symm

set_option maxRecDepth 100000 in
/-- Witness for C39: the sample log of the record 256 followed by nine zero bytes; the read
at offset 60 fails with "failed to read length". -/
theorem failed_read_recorded_witness :
    ∃ res, ValidateTxnLog "log.100"
        (some (headerBytes sampleHeader ++ (frames [sampleRecord 256] ++
          [0, 0, 0, 0, 0, 0, 0, 0, 0]))) = some (.ok res) ∧
      res.IsValid = false ∧
      res.CorruptionType =
        ((NewCorruptionError "failed to read length").WithContext "path"
          (.str "log.100")).Error ∧
      (∀ m, ((NewCorruptionError "failed to read length").WithContext "path"
          (.str "log.100")).message? = some m → res.CorruptionType ≠ m) ∧
      res.LastValidPos = (headerBytes sampleHeader ++ frames [sampleRecord 256]).length ∧
      (res.ValidTransactionCount > 0 →
        res.LastValidZxid = res.Transactions.getD (res.ValidTransactionCount - 1) 0) :=
  failed_read_recorded "log.100" sampleHeader [sampleRecord 256] [0, 0, 0, 0, 0, 0, 0, 0, 0]
    (by decide) (by decide)
    ((NewCorruptionError "failed to read length").WithContext "path" (.str "log.100"))
    { path := "log.100", rest := [], pos := 69, header := sampleHeader }
    (by decide) (by decide)

set_option maxRecDepth 100000 in
/-- Counterexample to C39 as stated: for the sample header followed by nine zero bytes the
failing error has the message "failed to read length", while the result's corruption kind is
the whole text of the error. -/
theorem failed_read_counterexample :
    (ValidateTxnLog "log.100"
        (some (headerBytes sampleHeader ++ [0, 0, 0, 0, 0, 0, 0, 0, 0]))).map
          (fun r => r.toOption.map fun res => (res.CorruptionType, res.LastValidPos)) =
      some (some ("[Corruption] failed to read length \x7bpath=log.100\x7d", 16)) ∧
    (TxnLogReader.ReadTransaction
        ⟨"log.100", [0, 0, 0, 0, 0, 0, 0, 0, 0], 16, sampleHeader⟩).1 =
      .error ((NewCorruptionError "failed to read length").WithContext "path"
        (.str "log.100")) ∧
    ((NewCorruptionError "failed to read length").WithContext "path"
        (.str "log.100")).message? = some "failed to read length" ∧
    "[Corruption] failed to read length \x7bpath=log.100\x7d" ≠ "failed to read length" := by
  decide

/-! ## Repair as truncation -/

set_option maxRecDepth 100000 in
/-- C34 as stated fails when the log is repaired onto its own path.  The log of the
records 256 and 257 followed by three stray bytes: creating the output cuts the
input to its header before the copy reads a record, `RepairTxnLog` returns the
error "no transactions to copy" with the result of the first validation
(`is_valid = false`), and the file is left with its 16 header bytes, not with
its first 104 bytes. -/
theorem repair_in_place_counterexample :
    (RepairTxnLog "log.100" "log.100"
        (some (headerBytes sampleHeader ++ (frames [sampleRecord 256, sampleRecord 257] ++
          [1, 2, 3])))).map
        (fun r => (r.result.map (fun v => (v.IsValid, v.ValidTransactionCount)),
          r.err.category?, r.err.message?, r.output)) =
      some (some (false, 2), some .user, some "no transactions to copy",
        some (headerBytes sampleHeader)) ∧
    (headerBytes sampleHeader).length = 16 ∧
    16 + ([sampleRecord 256, sampleRecord 257].map
      (fun R : Transaction => 12 + R.Data.length)).sum = 104 := by
  decide

/-- C34, amended: for an input made of a valid header, `n ≥ 1` valid records none of whose
ZXIDs exceeds that of the last one, and following bytes that are not read as a record, and
an output path other than the input path, `RepairTxnLog` returns no error and a result with
`is_valid = true` and `valid_count = n`, and the output file is the first
`16 + Σ (12 + length_i)` bytes of the input. -/
theorem repair_is_truncation (inputPath outputPath : String) (h : TxnLogHeader)
    (Rs : List Transaction) (g : List Byte) (hpath : inputPath ≠ outputPath) (hh : h.valid)
    (hRs : ∀ R ∈ Rs, R.wellFormed) (hne : Rs ≠ [])
    (hord : ∀ R ∈ Rs, R.readBack.Zxid ≤ (Rs.getLast hne).readBack.Zxid)
    (hg : g ≠ []) (hbad : ∀ R tail, R.wellFormed → g ≠ frame R ++ tail) :
    ∃ res,
      RepairTxnLog inputPath outputPath (some (headerBytes h ++ (frames Rs ++ g))) =
        some { result := some res, err := .nil
               output := some ((headerBytes h ++ (frames Rs ++ g)).take
                 (16 + (Rs.map (fun R => 12 + R.Data.length)).sum)) } ∧
      res.IsValid = true ∧ res.ValidTransactionCount = Rs.length := by
  obtain ⟨res, -, hvalid, hcount, hrep⟩ :=
    RepairTxnLog_frames inputPath outputPath h Rs g hpath hh hRs hne hord hg hbad
  refine ⟨res, ?_, hvalid, hcount⟩
  rw [hrep]
  have hh16 : (headerBytes h).length = 16 := by
    simp only [headerBytes, List.length_append, bePut_length]
  have hlen : 16 + (Rs.map (fun R => 12 + R.Data.length)).sum =
      (headerBytes h ++ frames Rs).length := by
    rw [List.length_append, hh16, frames_length]
  rw [hlen, ← List.append_assoc, List.take_left]

set_option maxRecDepth 100000 in
/-- Witness for C34: the sample log of the records 256 and 257 followed by three stray bytes
is repaired to its first 104 bytes. -/
theorem repair_is_truncation_witness :
    ∃ res,
      RepairTxnLog "log.100" "log.100.repaired"
          (some (headerBytes sampleHeader ++ (frames [sampleRecord 256, sampleRecord 257] ++
            [1, 2, 3]))) =
        some { result := some res, err := .nil
               output := some ((headerBytes sampleHeader ++
                 (frames [sampleRecord 256, sampleRecord 257] ++ [1, 2, 3])).take
                 (16 + ([sampleRecord 256, sampleRecord 257].map
                   (fun R : Transaction => 12 + R.Data.length)).sum)) } ∧
      res.IsValid = true ∧ res.ValidTransactionCount = [sampleRecord 256, sampleRecord 257].length :=
  repair_is_truncation "log.100" "log.100.repaired" sampleHeader
    [sampleRecord 256, sampleRecord 257] [1, 2, 3] (by decide) (by decide) (by decide)
    (by decide) (by decide) (by decide)
    (by
      intro R tail hR heq
      have hlen := congrArg List.length heq
      have h32 := hR.2.1
      simp only [frame, List.length_append, bePut_length, List.length_cons,
        List.length_nil] at hlen
      omega)

/-! ## When a log file opens -/

theorem magic_version_bytes :
    bePut 4 MagicNumber = [0x5A, 0x4B, 0x4C, 0x47] ∧ bePut 4 LogVersion = [0, 0, 0, 2] := by
  decide

theorem readFull_partial (r : TxnLogReader) (n : Nat) (h0 : r.rest ≠ [])
    (h : r.rest.length < n) :
    r.readFull n =
      (.error .ErrUnexpectedEOF, { r with rest := [], pos := r.pos + r.rest.length }) := by
  unfold TxnLogReader.readFull
  have hl : r.rest.length ≠ 0 := fun e => h0 (List.length_eq_zero.1 e)
  rw [if_neg (by omega), if_neg hl, if_pos h]

theorem OpenTxnLog_short_magic (path : String) (content : List Byte)
    (h1 : 1 ≤ content.length) (h3 : content.length ≤ 3) :
    OpenTxnLog path (some content) =
      .error (((NewIOError "failed to read magic").WithError .ErrUnexpectedEOF).WithContext
        "path" (.str path)) := by
  have hne : content ≠ [] := by
    intro h; rw [h] at h1; simp at h1
  have e1 := readFull_partial
    { path := path, rest := content, pos := 0, header := ⟨0, 0, 0⟩ } 4 hne
    (by show content.length < 4; omega)
  unfold OpenTxnLog TxnLogReader.readHeader
  simp only
  rw [e1]
  rfl

theorem OpenTxnLog_short_version (path : String) (content : List Byte)
    (hm : content.take 4 = bePut 4 MagicNumber) (h4 : 4 ≤ content.length)
    (h8 : content.length < 8) :
    ∃ e, OpenTxnLog path (some content) = .error e ∧ e.category? = some .io ∧
      e.message? = some "failed to read version" := by
  have hmagic : ¬ beUint (content.take 4) ≠ MagicNumber := by
    rw [hm]; decide
  have e1 := readFull_enough
    { path := path, rest := content, pos := 0, header := ⟨0, 0, 0⟩ } 4 (by omega) h4
  obtain ⟨e, r2, e2, -⟩ := readFull_short
    { path := path, rest := content.drop 4, pos := 0 + 4,
      header := ⟨beUint (content.take 4), 0, 0⟩ } 4
    (by simp only [List.length_drop]; omega)
  unfold OpenTxnLog TxnLogReader.readHeader
  simp only
  rw [e1]
  simp only
  rw [if_neg hmagic, e2]
  exact ⟨_, rfl, rfl, rfl⟩

theorem OpenTxnLog_short_dbid (path : String) (content : List Byte)
    (hm : content.take 4 = bePut 4 MagicNumber)
    (hv : (content.drop 4).take 4 = bePut 4 LogVersion) (h8 : 8 ≤ content.length)
    (h16 : content.length < 16) :
    ∃ e, OpenTxnLog path (some content) = .error e ∧ e.category? = some .io ∧
      e.message? = some "failed to read dbid" := by
  have hmagic : ¬ beUint (content.take 4) ≠ MagicNumber := by
    rw [hm]; decide
  have hver : ¬ beUint ((content.drop 4).take 4) ≠ LogVersion := by
    rw [hv]; decide
  have e1 := readFull_enough
    { path := path, rest := content, pos := 0, header := ⟨0, 0, 0⟩ } 4 (by omega)
    (by show 4 ≤ content.length; omega)
  have e2 := readFull_enough
    { path := path, rest := content.drop 4, pos := 0 + 4,
      header := ⟨beUint (content.take 4), 0, 0⟩ } 4 (by omega)
    (by simp only [List.length_drop]; omega)
  obtain ⟨e, r3, e3, -⟩ := readFull_short
    { path := path, rest := (content.drop 4).drop 4, pos := 0 + 4 + 4,
      header := ⟨beUint (content.take 4), beUint ((content.drop 4).take 4), 0⟩ } 8
    (by simp only [List.length_drop]; omega)
  unfold OpenTxnLog TxnLogReader.readHeader
  simp only
  rw [e1]
  simp only
  rw [if_neg hmagic, e2]
  simp only
  rw [if_neg hver, e3]
  exact ⟨_, rfl, rfl, rfl⟩

/-- C37: `OpenTxnLog` on an existing file succeeds exactly when the file has at least 16
bytes, begins with 5A 4B 4C 47 and continues with 00 00 00 02; the reader then has the
big-endian value of bytes 8..16 as `DbId` and stands at offset 16.  A file of 1 to 3 bytes, a
file with the magic number that ends before byte 8, and a file with the magic number and the
version that ends before byte 16 fail with an IO-category error. -/
theorem open_succeeds_iff (path : String) (content : List Byte) :
    ((∃ reader, OpenTxnLog path (some content) = .ok reader) ↔
      16 ≤ content.length ∧ content.take 4 = [0x5A, 0x4B, 0x4C, 0x47] ∧
        (content.drop 4).take 4 = [0, 0, 0, 2]) ∧
    (∀ reader, OpenTxnLog path (some content) = .ok reader →
      reader.Header.DbId = beUint (slice content 8 16) ∧ reader.CurrentPosition = 16 ∧
      reader.rest = content.drop 16) ∧
    (1 ≤ content.length → content.length ≤ 3 →
      ∃ e, OpenTxnLog path (some content) = .error e ∧ e.category? = some .io) ∧
    (content.take 4 = [0x5A, 0x4B, 0x4C, 0x47] → 4 ≤ content.length → content.length < 8 →
      ∃ e, OpenTxnLog path (some content) = .error e ∧ e.category? = some .io) ∧
    (content.take 4 = [0x5A, 0x4B, 0x4C, 0x47] → (content.drop 4).take 4 = [0, 0, 0, 2] →
      8 ≤ content.length → content.length < 16 →
      ∃ e, OpenTxnLog path (some content) = .error e ∧ e.category? = some .io) := by
  obtain ⟨hmb, hvb⟩ := magic_version_bytes
  have inv : ∀ reader, OpenTxnLog path (some content) = .ok reader →
      16 ≤ content.length ∧ content.take 4 = [0x5A, 0x4B, 0x4C, 0x47] ∧
      (content.drop 4).take 4 = [0, 0, 0, 2] ∧
      reader.Header.DbId = beUint (slice content 8 16) ∧ reader.CurrentPosition = 16 ∧
      reader.rest = content.drop 16 := by
    intro reader h
    obtain ⟨hvalid, hcontent, hpos, -⟩ := OpenTxnLog_ok_inv path content reader h
    obtain ⟨hM, hV, hD⟩ := hvalid
    have hc : content = [0x5A, 0x4B, 0x4C, 0x47] ++ ([0, 0, 0, 2] ++
        (bePut 8 reader.header.DbId ++ reader.rest)) := by
      rw [hcontent]
      unfold headerBytes
      rw [hM, hV, Nat.mod_eq_of_lt hD, ← hmb, ← hvb]
      simp only [List.append_assoc]
      rfl
    have hl8 : (bePut 8 reader.header.DbId).length = 8 := bePut_length _ _
    refine ⟨?_, ?_, ?_, ?_, hpos, ?_⟩
    · rw [hc]
      simp only [List.length_append, List.length_cons, List.length_nil, hl8]
      omega
    · rw [hc]; rfl
    · rw [hc]; rfl
    · show reader.header.DbId = _
      rw [hc]
      have : slice ([0x5A, 0x4B, 0x4C, 0x47] ++ ([0, 0, 0, 2] ++
          (bePut 8 reader.header.DbId ++ reader.rest))) 8 16 = bePut 8 reader.header.DbId := by
        unfold slice
        show ((bePut 8 reader.header.DbId ++ reader.rest)).take 8 = _
        exact List.take_left' hl8
      rw [this, beUint_bePut]
      exact (Nat.mod_eq_of_lt (by norm_num at hD ⊢; omega)).symm
    · rw [hc]
      show reader.rest = (bePut 8 reader.header.DbId ++ reader.rest).drop 8
      exact (List.drop_left' hl8).symm
  refine ⟨⟨?_, ?_⟩, ?_, ?_, ?_, ?_⟩
  · rintro ⟨reader, h⟩
    obtain ⟨h1, h2, h3, -⟩ := inv reader h
    exact ⟨h1, h2, h3⟩
  · rintro ⟨h16, hm, hv⟩
    have hd : ((content.drop 8).take 8).length = 8 := by
      rw [List.length_take, List.length_drop]; omega
    have hc : content = headerBytes ⟨MagicNumber, LogVersion, beUint ((content.drop 8).take 8)⟩
        ++ content.drop 16 := by
      unfold headerBytes
      have hlt := beUint_lt ((content.drop 8).take 8)
      rw [hd] at hlt
      simp only []
      rw [Nat.mod_eq_of_lt (by decide : MagicNumber < 2 ^ 32),
        Nat.mod_eq_of_lt (by decide : LogVersion < 2 ^ 32),
        Nat.mod_eq_of_lt (by norm_num at hlt ⊢; omega), hmb, hvb, ← hm, ← hv]
      have := bePut_beUint ((content.drop 8).take 8)
      rw [hd] at this
      rw [this]
      have e1 : content.take 4 ++ (content.drop 4).take 4 = content.take 8 := by
        rw [← List.take_add]
      have e2 : content.take 8 ++ (content.drop 8).take 8 = content.take 16 := by
        rw [← List.take_add]
      rw [e1, e2, List.take_append_drop]
    have hopen := OpenTxnLog_valid path
      ⟨MagicNumber, LogVersion, beUint ((content.drop 8).take 8)⟩ (content.drop 16)
      ⟨rfl, rfl, by
        have hlt := beUint_lt ((content.drop 8).take 8)
        rw [hd] at hlt
        norm_num at hlt ⊢; omega⟩
    rw [← hc] at hopen
    exact ⟨_, hopen⟩
  · intro reader h
    exact (inv reader h).2.2.2
  · intro h1 h3
    exact ⟨_, OpenTxnLog_short_magic path content h1 h3, rfl⟩
  · intro hm h4 h8
    obtain ⟨e, he, hc, -⟩ := OpenTxnLog_short_version path content (by rw [hm, hmb]) h4 h8
    exact ⟨e, he, hc⟩
  · intro hm hv h8 h16
    obtain ⟨e, he, hc, -⟩ :=
      OpenTxnLog_short_dbid path content (by rw [hm, hmb]) (by rw [hv, hvb]) h8 h16
    exact ⟨e, he, hc⟩

/-- Witness for C37: the sample header opens; the magic number alone, and the magic number
with the version, fail with IO errors. -/
theorem open_succeeds_iff_witness :
    (∃ reader, OpenTxnLog "log.100" (some (headerBytes sampleHeader)) = .ok reader) ∧
    (∃ e, OpenTxnLog "log.100" (some [0x5A, 0x4B]) = .error e ∧ e.category? = some .io) ∧
    (∃ e, OpenTxnLog "log.100" (some [0x5A, 0x4B, 0x4C, 0x47]) = .error e ∧
      e.category? = some .io) ∧
    (∃ e, OpenTxnLog "log.100" (some [0x5A, 0x4B, 0x4C, 0x47, 0, 0, 0, 2, 1, 2, 3]) =
      .error e ∧ e.category? = some .io) :=
  ⟨(open_succeeds_iff "log.100" (headerBytes sampleHeader)).1.2 (by decide),
    (open_succeeds_iff "log.100" [0x5A, 0x4B]).2.2.1 (by decide) (by decide),
    (open_succeeds_iff "log.100" [0x5A, 0x4B, 0x4C, 0x47]).2.2.2.1 (by decide) (by decide)
      (by decide),
    (open_succeeds_iff "log.100" [0x5A, 0x4B, 0x4C, 0x47, 0, 0, 0, 2, 1, 2, 3]).2.2.2.2
      (by decide) (by decide) (by decide) (by decide)⟩

/-! ## The text of an error -/

theorem ctxSet_keys (ctx : List (String × CtxVal)) (k : String) (v : CtxVal) :
    (ctxSet ctx k v).map Prod.fst =
      if k ∈ ctx.map Prod.fst then ctx.map Prod.fst else ctx.map Prod.fst ++ [k] := by
  induction ctx with
  | nil => simp [ctxSet]
  | cons kv rest ih =>
    obtain ⟨k', v'⟩ := kv
    unfold ctxSet
    by_cases h : k' = k
    · subst h
      simp
    · rw [if_neg h]
      simp only [List.map_cons, List.mem_cons, ih]
      have h' : ¬ k = k' := fun e => h e.symm
      by_cases hm : k ∈ rest.map Prod.fst
      · simp [hm]
      · simp [hm, h']

theorem ctxSet_mem (ctx : List (String × CtxVal)) (k : String) (v : CtxVal) :
    (k, v) ∈ ctxSet ctx k v := by
  induction ctx with
  | nil => simp [ctxSet]
  | cons kv rest ih =>
    obtain ⟨k', v'⟩ := kv
    unfold ctxSet
    by_cases h : k' = k
    · rw [if_pos h]; exact List.mem_cons_self _ _
    · rw [if_neg h]; exact List.mem_cons_of_mem _ ih

theorem ctxSet_nodup (ctx : List (String × CtxVal)) (k : String) (v : CtxVal)
    (h : (ctx.map Prod.fst).Nodup) : ((ctxSet ctx k v).map Prod.fst).Nodup := by
  rw [ctxSet_keys]
  by_cases hm : k ∈ ctx.map Prod.fst
  · rw [if_pos hm]; exact h
  · rw [if_neg hm]
    exact List.Nodup.append h (List.nodup_singleton k) (by simpa using hm)

theorem Backup_Error_eq (cause : GoError) (m : String) (c : ErrorCategory)
    (ctx : List (String × CtxVal)) :
    (GoError.Backup cause m c ctx).Error =
      "[" ++ c.String ++ "] " ++ m ++ formatContext ctx ++
        (match cause with
          | .nil => ""
          | e => ": " ++ e.Error) := by
  cases cause <;> rfl

theorem Backup_Errors_eq (cause : GoError) (m : String) (c : ErrorCategory)
    (ctx : List (String × CtxVal)) :
    (GoError.Backup cause m c ctx).Errors =
      ctx.permutations'.flatMap fun p =>
        (match cause with
          | .nil => [""]
          | e => e.Errors.map fun s => ": " ++ s).map fun cs =>
            "[" ++ c.String ++ "] " ++ m ++ formatContext p ++ cs := by
  cases cause <;> rfl

/-- C31 (amended): the texts that `Error()` of a `*BackupError` may return are exactly
"[" + category + "] " + message, then the braced list of the context pairs in some
arrangement (nothing when the context is empty), then ": " and a text of the cause when a
cause is set; the text in insertion order is one of them, and the only one when there is at
most one pair and the cause has one text.  `WithContext` assigns into the map: the key is
listed once, with the value given last. -/
theorem error_text_form (cause : GoError) (m : String) (c : ErrorCategory)
    (ctx : List (String × CtxVal)) :
    (∀ s, s ∈ (GoError.Backup cause m c ctx).Errors ↔
      ∃ p cs, p.Perm ctx ∧
        ((cause = .nil ∧ cs = "") ∨ (cause ≠ .nil ∧ ∃ t ∈ cause.Errors, cs = ": " ++ t)) ∧
        s = "[" ++ c.String ++ "] " ++ m ++ formatContext p ++ cs) ∧
    formatContext [] = "" ∧
    (∀ p : List (String × CtxVal), p ≠ [] →
      formatContext p =
        " \x7b" ++ ", ".intercalate (p.map fun kv => kv.1 ++ "=" ++ kv.2.format) ++ "\x7d") ∧
    (cause.Error ∈ cause.Errors →
      (GoError.Backup cause m c ctx).Error ∈ (GoError.Backup cause m c ctx).Errors) ∧
    (ctx.length ≤ 1 → cause.Errors = [cause.Error] →
      (GoError.Backup cause m c ctx).Errors = [(GoError.Backup cause m c ctx).Error]) ∧
    (∀ k v, (GoError.Backup cause m c ctx).WithContext k v =
        .Backup cause m c (ctxSet ctx k v) ∧ (k, v) ∈ ctxSet ctx k v ∧
      ((ctx.map Prod.fst).Nodup → ((ctxSet ctx k v).map Prod.fst).Nodup)) := by
  have hcauses : ∀ cs, cs ∈ (match cause with
        | .nil => [""]
        | e => e.Errors.map fun s => ": " ++ s) ↔
      ((cause = .nil ∧ cs = "") ∨ (cause ≠ .nil ∧ ∃ t ∈ cause.Errors, cs = ": " ++ t)) := by
    intro cs
    cases cause <;> simp [eq_comm]
  have hErr := Backup_Error_eq cause m c ctx
  have hErrs := Backup_Errors_eq cause m c ctx
  refine ⟨?_, rfl, ?_, ?_, ?_, ?_⟩
  · intro s
    rw [hErrs]
    simp only [List.mem_flatMap, List.mem_map, List.mem_permutations']
    constructor
    · rintro ⟨p, hp, cs, hcs, rfl⟩
      exact ⟨p, cs, hp, (hcauses cs).1 hcs, rfl⟩
    · rintro ⟨p, cs, hp, hcs, rfl⟩
      exact ⟨p, hp, cs, (hcauses cs).2 hcs, rfl⟩
  · intro p hp
    unfold formatContext
    cases p with
    | nil => exact absurd rfl hp
    | cons a t => rfl
  · intro hc
    rw [hErrs, hErr]
    simp only [List.mem_flatMap, List.mem_map, List.mem_permutations']
    refine ⟨ctx, List.Perm.refl _, _, ?_, rfl⟩
    rw [hcauses]
    by_cases hn : cause = .nil
    · left
      subst hn
      exact ⟨rfl, rfl⟩
    · right
      refine ⟨hn, cause.Error, hc, ?_⟩
      cases cause <;> first | rfl | exact absurd rfl hn
  · intro hlen hc
    rw [hErrs, hErr]
    have hperm : ctx.permutations' = [ctx] := by
      match ctx, hlen with
      | [], _ => rfl
      | [a], _ => rfl
      | _ :: _ :: _, h => simp at h
    rw [hperm]
    cases cause with
    | nil => rfl
    | EOF => rfl
    | ErrUnexpectedEOF => rfl
    | PathError a b d => rfl
    | NumError a b d => rfl
    | Backup a b d e =>
      simp only [List.flatMap_cons, List.flatMap_nil, List.append_nil, hc, List.map_cons,
        List.map_nil]
  · intro k v
    exact ⟨rfl, ctxSet_mem ctx k v, ctxSet_nodup ctx k v⟩

/-- Witness for C31: an IO error with the context `path` and a path error as cause has the
one text of the test "with context and cause". -/
theorem error_text_form_witness :
    (GoError.Backup (.PathError "open" "/tmp/file" "file not found") "failed to read" .io
      [("path", .str "/tmp/file")]).Errors =
      [(GoError.Backup (.PathError "open" "/tmp/file" "file not found") "failed to read" .io
        [("path", .str "/tmp/file")]).Error] ∧
    (GoError.Backup (.PathError "open" "/tmp/file" "file not found") "failed to read" .io
      [("path", .str "/tmp/file")]).Error =
      "[IO] failed to read \x7bpath=/tmp/file\x7d: open /tmp/file: file not found" :=
  ⟨(error_text_form (.PathError "open" "/tmp/file" "file not found") "failed to read" .io
      [("path", .str "/tmp/file")]).2.2.2.2.1 (by decide) rfl,
    by decide⟩

/-- Counterexample to C31 as stated: an error to which the context `a` and then `b` were
added may print `b` before `a`; and a key added twice is listed once. -/
theorem error_text_counterexample :
    (((NewIOError "m").WithContext "a" (.str "1")).WithContext "b" (.str "2")).Errors =
      ["[IO] m \x7ba=1, b=2\x7d", "[IO] m \x7bb=2, a=1\x7d"] ∧
    "[IO] m \x7bb=2, a=1\x7d" ≠ "[IO] m \x7ba=1, b=2\x7d" ∧
    (((NewIOError "m").WithContext "a" (.str "1")).WithContext "a" (.str "2")).Errors =
      ["[IO] m \x7ba=2\x7d"] := by
  decide

/-! ## The manifest -/

theorem foldl_append_data {α : Type} (f : α → String) (l : List α) :
    ∀ sb : String, (l.foldl (fun sb x => sb ++ f x) sb).data =
      sb.data ++ l.flatMap fun x => (f x).data := by
  induction l with
  | nil => intro sb; simp
  | cons a t ih =>
    intro sb
    rw [List.foldl_cons, ih, String.data_append, List.flatMap_cons, List.append_assoc]

theorem infix_flatMap_of_mem {α : Type} (f : α → List Char) (l : List α) (x : α)
    (h : x ∈ l) : f x <:+: l.flatMap f := by
  obtain ⟨a, b, rfl⟩ := List.append_of_mem h
  rw [List.flatMap_append, List.flatMap_cons]
  exact ⟨a.flatMap f, b.flatMap f, by simp only [List.append_assoc]⟩

theorem GenerateManifest_data (lib : metadata.Formats) (bi : metadata.BackupInfo) :
    (metadata.GenerateManifest lib bi).data =
      "# ZooKeeper Backup Manifest\n\nBackup ID: ".data ++ bi.BackupID.data ++
        "\nTimestamp: ".data ++ (lib.FormatRFC3339 bi.BackupTimestamp).data ++
        "\nZXID: 0x".data ++ bi.BackupZxid.Hex.data ++ "\n\n## Snapshot Files\n\n".data ++
        (bi.Files.Snapshots.flatMap fun s => (metadata.snapshotLine lib s).data) ++
        "\n## TxnLog Files\n\n".data ++
        (bi.Files.TxnLogs.flatMap fun t => (metadata.txnLogLine lib t).data) := by
  unfold metadata.GenerateManifest
  simp only [foldl_append_data, String.data_append]
  simp only [List.append_assoc]
  rfl
theorem toDigitsCore_no_lf (fuel : Nat) :
    ∀ (n : Nat) (ds : List Char), '\n' ∉ ds → '\n' ∉ Nat.toDigitsCore 10 fuel n ds := by
  induction fuel with
  | zero => intro n ds h; exact h
  | succ f ih =>
    intro n ds h
    have hd : ∀ d < 10, Nat.digitChar d ≠ '\n' := by decide
    have hc : '\n' ∉ Nat.digitChar (n % 10) :: ds := by
      intro hm
      rcases List.mem_cons.1 hm with e | e
      · exact hd (n % 10) (Nat.mod_lt _ (by decide)) e.symm
      · exact h e
    unfold Nat.toDigitsCore
    simp only []
    split
    · exact hc
    · exact ih _ _ hc

theorem oneLine_toString (n : Nat) : oneLine (toString n) := by
  show '\n' ∉ (Nat.toDigits 10 n)
  exact toDigitsCore_no_lf _ _ _ (List.not_mem_nil _)

theorem oneLine_Hex (z : ZXID) : oneLine (ZXID.Hex z) := by
  show '\n' ∉ fmtHex (z % 2 ^ 64)
  intro h
  have := (fmtHex_mem _ _ h).1
  revert this
  decide

theorem oneLine_append (a b : String) (ha : oneLine a) (hb : oneLine b) : oneLine (a ++ b) := by
  unfold oneLine at *
  rw [String.data_append, List.mem_append]
  exact fun h => h.elim ha hb

theorem oneLine_snapshotEntry (lib : metadata.Formats) (s : SnapshotInfo)
    (h1 : oneLine s.Name) (h2 : oneLine (lib.FormatBytes s.Size)) :
    oneLine (metadata.snapshotEntry lib s) := by
  unfold metadata.snapshotEntry
  have hz := oneLine_Hex s.Zxid
  repeat (first | apply oneLine_append | assumption | decide)

theorem oneLine_txnLogEntry (lib : metadata.Formats) (t : TxnLogInfo)
    (h1 : oneLine t.Name) (h2 : oneLine (lib.FormatBytes t.Size)) (h3 : oneLine t.Status) :
    oneLine (metadata.txnLogEntry lib t) := by
  unfold metadata.txnLogEntry
  have hz := oneLine_Hex t.StartZxid
  have hz' := oneLine_Hex t.EndZxid
  have hn := oneLine_toString t.TransactionCount
  repeat (first | apply oneLine_append | assumption | decide)

theorem snapshotLine_entry (lib : metadata.Formats) (s : SnapshotInfo) :
    (metadata.snapshotLine lib s).data = (metadata.snapshotEntry lib s).data ++ ['\n'] := by
  unfold metadata.snapshotLine metadata.snapshotEntry
  simp only [String.data_append, List.append_assoc]
  rfl

theorem txnLogLine_entry (lib : metadata.Formats) (t : TxnLogInfo) :
    (metadata.txnLogLine lib t).data = (metadata.txnLogEntry lib t).data ++ ['\n'] := by
  unfold metadata.txnLogLine metadata.txnLogEntry
  simp only [String.data_append, List.append_assoc]
  rfl

theorem splitChars_line (a b : List Char) (h : '\n' ∉ a) :
    splitChars '\n' (a ++ '\n' :: b) = a :: splitChars '\n' b := by
  rw [splitChars_append, splitChars_not_mem _ _ h]
  rfl

theorem splitChars_entries {α : Type} (body : α → List Char) (l : List α) (rest : List Char)
    (h : ∀ x ∈ l, '\n' ∉ body x) :
    splitChars '\n' ((l.flatMap fun x => body x ++ ['\n']) ++ rest) =
      l.map body ++ splitChars '\n' rest := by
  induction l with
  | nil => rfl
  | cons a t ih =>
    rw [List.flatMap_cons, List.append_assoc, List.append_assoc, List.singleton_append,
      splitChars_line _ _ (h a (List.mem_cons_self _ _)),
      ih (fun x hx => h x (List.mem_cons_of_mem _ hx))]
    rfl

theorem infix_right {α : Type} (A : List α) {X Y : List α} (h : X <:+: Y) : X <:+: A ++ Y :=
  h.trans (List.suffix_append A Y).isInfix

theorem join_data (l : List String) : (String.join l).data = l.flatMap fun s => s.data := by
  have := foldl_append_data (fun s : String => s) l ""
  simpa [String.join] using this

theorem HasPrefix_dash (rest : List Char) :
    strings.HasPrefix (String.mk ('-' :: ' ' :: rest)) "- " = true := by
  simp [strings.HasPrefix, List.isPrefixOf]

theorem snapshotEntry_dash (lib : metadata.Formats) (s : SnapshotInfo) :
    strings.HasPrefix (metadata.snapshotEntry lib s) "- " = true := by
  have : (metadata.snapshotEntry lib s) = String.mk ('-' :: ' ' :: (s.Name ++ " (ZXID: 0x" ++
      ZXID.Hex s.Zxid ++ ", Size: " ++ lib.FormatBytes s.Size ++ ")").data) := by
    apply String.ext
    unfold metadata.snapshotEntry
    simp only [String.data_append, List.append_assoc]
    rfl
  rw [this]
  exact HasPrefix_dash _

theorem txnLogEntry_dash (lib : metadata.Formats) (t : TxnLogInfo) :
    strings.HasPrefix (metadata.txnLogEntry lib t) "- " = true := by
  have : (metadata.txnLogEntry lib t) = String.mk ('-' :: ' ' :: (t.Name ++ " (ZXID: 0x" ++
      ZXID.Hex t.StartZxid ++ " - 0x" ++ ZXID.Hex t.EndZxid ++ ", Txns: " ++
      toString t.TransactionCount ++ ", Size: " ++ lib.FormatBytes t.Size ++ ", Status: " ++
      t.Status ++ ")").data) := by
    apply String.ext
    unfold metadata.txnLogEntry
    simp only [String.data_append, List.append_assoc]
    rfl
  rw [this]
  exact HasPrefix_dash _

theorem manifest_lines (lib : metadata.Formats) (bi : metadata.BackupInfo)
    (hid : oneLine bi.BackupID) (hts : oneLine (lib.FormatRFC3339 bi.BackupTimestamp))
    (hhex : oneLine bi.BackupZxid.Hex)
    (hs : ∀ s ∈ bi.Files.Snapshots, oneLine (metadata.snapshotEntry lib s))
    (ht : ∀ t ∈ bi.Files.TxnLogs, oneLine (metadata.txnLogEntry lib t)) :
    textLines (metadata.GenerateManifest lib bi) =
      ["# ZooKeeper Backup Manifest", "", "Backup ID: " ++ bi.BackupID,
        "Timestamp: " ++ lib.FormatRFC3339 bi.BackupTimestamp, "ZXID: 0x" ++ bi.BackupZxid.Hex,
        "", "## Snapshot Files", ""] ++
      bi.Files.Snapshots.map (metadata.snapshotEntry lib) ++
      ["", "## TxnLog Files", ""] ++
      bi.Files.TxnLogs.map (metadata.txnLogEntry lib) ++ [""] := by
  have hM : (metadata.GenerateManifest lib bi).data =
      "# ZooKeeper Backup Manifest".data ++ '\n' :: ([] ++ '\n' ::
        (("Backup ID: " ++ bi.BackupID).data ++ '\n' ::
        (("Timestamp: " ++ lib.FormatRFC3339 bi.BackupTimestamp).data ++ '\n' ::
        (("ZXID: 0x" ++ bi.BackupZxid.Hex).data ++ '\n' :: ([] ++ '\n' ::
        ("## Snapshot Files".data ++ '\n' :: ([] ++ '\n' ::
        ((bi.Files.Snapshots.flatMap fun s => (metadata.snapshotEntry lib s).data ++ ['\n']) ++
        ([] ++ '\n' :: ("## TxnLog Files".data ++ '\n' :: ([] ++ '\n' ::
        ((bi.Files.TxnLogs.flatMap fun t => (metadata.txnLogEntry lib t).data ++ ['\n']) ++
          [])))))))))))) := by
    rw [GenerateManifest_data]
    simp only [snapshotLine_entry, txnLogLine_entry, String.data_append, List.append_assoc,
      List.nil_append, List.append_nil]
    rfl
  have e1 : '\n' ∉ "# ZooKeeper Backup Manifest".data := by decide
  have e2 : '\n' ∉ ([] : List Char) := List.not_mem_nil _
  have e3 : '\n' ∉ ("Backup ID: " ++ bi.BackupID).data :=
    oneLine_append _ _ (by decide) hid
  have e4 : '\n' ∉ ("Timestamp: " ++ lib.FormatRFC3339 bi.BackupTimestamp).data :=
    oneLine_append _ _ (by decide) hts
  have e5 : '\n' ∉ ("ZXID: 0x" ++ bi.BackupZxid.Hex).data :=
    oneLine_append _ _ (by decide) hhex
  have e6 : '\n' ∉ "## Snapshot Files".data := by decide
  have e7 : '\n' ∉ "## TxnLog Files".data := by decide
  unfold textLines strings.Split
  rw [hM, splitChars_line _ _ e1, splitChars_line _ _ e2, splitChars_line _ _ e3,
    splitChars_line _ _ e4, splitChars_line _ _ e5, splitChars_line _ _ e2,
    splitChars_line _ _ e6, splitChars_line _ _ e2,
    splitChars_entries (fun s => (metadata.snapshotEntry lib s).data) _ _ hs,
    splitChars_line _ _ e2, splitChars_line _ _ e7, splitChars_line _ _ e2,
    splitChars_entries (fun t => (metadata.txnLogEntry lib t).data) _ _ ht]
  simp only [List.map_cons, List.map_append, List.map_map, List.map_nil, splitChars,
    List.cons_append, List.nil_append, List.append_assoc]
  rfl

/-- C32, amended: the manifest contains the backup ID, the name of every snapshot and of every log and,
for each log, "Status: " followed by its status; it is the heading lines followed by one line
per snapshot under "## Snapshot Files" and one line per log under "## TxnLog Files", in list
order; and when no text put into it holds a line feed, its lines that begin with "- " are
exactly those entries, one per snapshot and per log, in list order. -/
theorem manifest_contents (lib : metadata.Formats) (bi : metadata.BackupInfo) :
    strings.Contains (metadata.GenerateManifest lib bi) bi.BackupID ∧
    (∀ s ∈ bi.Files.Snapshots,
      strings.Contains (metadata.GenerateManifest lib bi) s.Name) ∧
    (∀ t ∈ bi.Files.TxnLogs,
      strings.Contains (metadata.GenerateManifest lib bi) t.Name ∧
      strings.Contains (metadata.GenerateManifest lib bi) ("Status: " ++ t.Status)) ∧
    metadata.GenerateManifest lib bi =
      "# ZooKeeper Backup Manifest\n\nBackup ID: " ++ bi.BackupID ++ "\nTimestamp: " ++
        lib.FormatRFC3339 bi.BackupTimestamp ++ "\nZXID: 0x" ++ bi.BackupZxid.Hex ++
        "\n\n## Snapshot Files\n\n" ++
        String.join (bi.Files.Snapshots.map fun s => metadata.snapshotEntry lib s ++ "\n") ++
        "\n## TxnLog Files\n\n" ++
        String.join (bi.Files.TxnLogs.map fun t => metadata.txnLogEntry lib t ++ "\n") ∧
    (oneLine bi.BackupID → oneLine (lib.FormatRFC3339 bi.BackupTimestamp) →
      oneLine bi.BackupZxid.Hex →
      (∀ s ∈ bi.Files.Snapshots, oneLine s.Name ∧ oneLine (lib.FormatBytes s.Size)) →
      (∀ t ∈ bi.Files.TxnLogs,
        oneLine t.Name ∧ oneLine (lib.FormatBytes t.Size) ∧ oneLine t.Status) →
      (textLines (metadata.GenerateManifest lib bi)).filter
          (fun l => strings.HasPrefix l "- ") =
        bi.Files.Snapshots.map (metadata.snapshotEntry lib) ++
          bi.Files.TxnLogs.map (metadata.txnLogEntry lib)) := by
  have hd := GenerateManifest_data lib bi
  refine ⟨?_, ?_, ?_, ?_, ?_⟩
  · unfold strings.Contains
    rw [hd]
    simp only [List.append_assoc]
    repeat (first | exact (List.prefix_append _ _).isInfix | exact List.infix_refl _ | apply infix_right)
  · intro s hs
    have h1 : s.Name.data <:+: (metadata.snapshotLine lib s).data := by
      unfold metadata.snapshotLine
      simp only [String.data_append, List.append_assoc]
      repeat (first | exact (List.prefix_append _ _).isInfix | exact List.infix_refl _ | apply infix_right)
    have h2 := infix_flatMap_of_mem (fun s => (metadata.snapshotLine lib s).data) _ s hs
    have h3 : (bi.Files.Snapshots.flatMap fun s => (metadata.snapshotLine lib s).data) <:+:
        (metadata.GenerateManifest lib bi).data := by
      rw [hd]
      simp only [List.append_assoc]
      repeat (first | exact (List.prefix_append _ _).isInfix | exact List.infix_refl _ | apply infix_right)
    exact (h1.trans h2).trans h3
  · intro t ht
    have h1 : t.Name.data <:+: (metadata.txnLogLine lib t).data := by
      unfold metadata.txnLogLine
      simp only [String.data_append, List.append_assoc]
      repeat (first | exact (List.prefix_append _ _).isInfix | exact List.infix_refl _ | apply infix_right)
    have h1' : ("Status: " ++ t.Status).data <:+: (metadata.txnLogLine lib t).data := by
      unfold metadata.txnLogLine
      have e : ", Status: " = ", " ++ "Status: " := by decide
      rw [e]
      simp only [String.data_append, List.append_assoc]
      repeat (first | exact (List.prefix_append _ _).isInfix | exact List.infix_refl _ | apply infix_right)
    have h2 := infix_flatMap_of_mem (fun t => (metadata.txnLogLine lib t).data) _ t ht
    have h3 : (bi.Files.TxnLogs.flatMap fun t => (metadata.txnLogLine lib t).data) <:+:
        (metadata.GenerateManifest lib bi).data := by
      rw [hd]
      simp only [List.append_assoc]
      repeat (first | exact (List.prefix_append _ _).isInfix | exact List.infix_refl _ | apply infix_right)
    exact ⟨(h1.trans h2).trans h3, (h1'.trans h2).trans h3⟩
  · apply String.ext
    rw [hd]
    simp only [String.data_append, join_data, List.flatMap_map, snapshotLine_entry,
      txnLogLine_entry]
  · intro hid hts hhex hs ht
    have hs' : ∀ s ∈ bi.Files.Snapshots, oneLine (metadata.snapshotEntry lib s) :=
      fun s h => oneLine_snapshotEntry lib s (hs s h).1 (hs s h).2
    have ht' : ∀ t ∈ bi.Files.TxnLogs, oneLine (metadata.txnLogEntry lib t) :=
      fun t h => oneLine_txnLogEntry lib t (ht t h).1 (ht t h).2.1 (ht t h).2.2
    rw [manifest_lines lib bi hid hts hhex hs' ht']
    have hb : strings.HasPrefix ("Backup ID: " ++ bi.BackupID) "- " = false := by
      simp [strings.HasPrefix, String.data_append, List.isPrefixOf]
    have htm : strings.HasPrefix ("Timestamp: " ++ lib.FormatRFC3339 bi.BackupTimestamp) "- "
        = false := by
      simp [strings.HasPrefix, String.data_append, List.isPrefixOf]
    have hz : strings.HasPrefix ("ZXID: 0x" ++ bi.BackupZxid.Hex) "- " = false := by
      simp [strings.HasPrefix, String.data_append, List.isPrefixOf]
    have hfs : (bi.Files.Snapshots.map (metadata.snapshotEntry lib)).filter
        (fun l => strings.HasPrefix l "- ") =
        bi.Files.Snapshots.map (metadata.snapshotEntry lib) := by
      rw [List.filter_eq_self]
      intro l hl
      obtain ⟨s, -, rfl⟩ := List.mem_map.1 hl
      exact snapshotEntry_dash lib s
    have hft : (bi.Files.TxnLogs.map (metadata.txnLogEntry lib)).filter
        (fun l => strings.HasPrefix l "- ") =
        bi.Files.TxnLogs.map (metadata.txnLogEntry lib) := by
      rw [List.filter_eq_self]
      intro l hl
      obtain ⟨t, -, rfl⟩ := List.mem_map.1 hl
      exact txnLogEntry_dash lib t
    have h1 : strings.HasPrefix "# ZooKeeper Backup Manifest" "- " = false := by decide
    have h2 : strings.HasPrefix "" "- " = false := by decide
    have h3 : strings.HasPrefix "## Snapshot Files" "- " = false := by decide
    have h4 : strings.HasPrefix "## TxnLog Files" "- " = false := by decide
    simp only [List.filter_append, List.filter_cons, List.filter_nil, hfs, hft, h1, h2, h3, h4,
      hb, htm, hz, Bool.false_eq_true, if_false, List.nil_append, List.append_nil]

/-! ## The formats of the manifest -/

theorem FormatBytes_tests :
    utils.FormatBytes 0 = "0 B" ∧ utils.FormatBytes 100 = "100 B" ∧
    utils.FormatBytes 500 = "500 B" ∧ utils.FormatBytes 1024 = "1.0 KB" ∧
    utils.FormatBytes (1024 * 1024) = "1.0 MB" ∧
    utils.FormatBytes (1024 * 1024 * 1024) = "1.0 GB" ∧
    utils.FormatBytes (1024 * 1024 * 1024 * 1024) = "1.0 TB" ∧
    utils.FormatBytes (1536 * 1024) = "1.5 MB" ∧
    utils.FormatBytes (512 * 1024) = "512.0 KB" ∧
    utils.FormatBytes 5120 = "5.0 KB" ∧ utils.FormatBytes 10240 = "10.0 KB" := by
  decide

theorem FormatRFC3339_samples :
    time.FormatRFC3339 0 = "1970-01-01T00:00:00Z" ∧
    time.FormatRFC3339 1704067200000000000 = "2024-01-01T00:00:00Z" ∧
    time.FormatRFC3339 1709251199999999999 = "2024-02-29T23:59:59Z" ∧
    time.FormatRFC3339 951782400000000000 = "2000-02-29T00:00:00Z" ∧
    time.FormatRFC3339 (-1) = "1969-12-31T23:59:59Z" := by
  decide

set_option maxRecDepth 100000 in
/-- C32 as stated fails for a name that holds a line feed.  The file name
`snapshot.x<LF>- y.1f` is a snapshot name with ZXID 0x1f; the manifest of the backup
with this one snapshot and no log has two lines that begin with "- ", not one. -/
theorem manifest_line_counterexample :
    DetermineFileType "snapshot.x\n- y.1f" = .Snapshot ∧
    ParseZxidFromFileName "snapshot.x\n- y.1f" = (0x1f, .nil) ∧
    lineFeedBackupInfo.Files.Snapshots.length = 1 ∧
    lineFeedBackupInfo.Files.TxnLogs.length = 0 ∧
    metadata.GenerateManifest sampleFormats lineFeedBackupInfo =
      "# ZooKeeper Backup Manifest\n\nBackup ID: test-backup-456\nTimestamp: 2024-01-01T00:00:00Z\nZXID: 0x1f\n\n## Snapshot Files\n\n- snapshot.x\n- y.1f (ZXID: 0x1f, Size: 5.0 KB)\n\n## TxnLog Files\n\n" ∧
    (textLines (metadata.GenerateManifest sampleFormats lineFeedBackupInfo)).filter
        (fun l => strings.HasPrefix l "- ") =
      ["- snapshot.x", "- y.1f (ZXID: 0x1f, Size: 5.0 KB)"] := by
  decide

set_option maxRecDepth 100000 in
/-- Witness for C32: the backup information of the manifest test. -/
theorem manifest_contents_witness :
    metadata.GenerateManifest sampleFormats sampleBackupInfo =
      "# ZooKeeper Backup Manifest\n\nBackup ID: test-backup-456\nTimestamp: 2024-01-01T00:00:00Z\nZXID: 0x200000000\n\n## Snapshot Files\n\n- snapshot.200000000 (ZXID: 0x200000000, Size: 5.0 KB)\n\n## TxnLog Files\n\n- log.200000000 (ZXID: 0x200000000 - 0x200000020, Txns: 20, Size: 10.0 KB, Status: valid)\n" ∧
    strings.Contains (metadata.GenerateManifest sampleFormats sampleBackupInfo)
      "test-backup-456" ∧
    (textLines (metadata.GenerateManifest sampleFormats sampleBackupInfo)).filter
        (fun l => strings.HasPrefix l "- ") =
      sampleBackupInfo.Files.Snapshots.map (metadata.snapshotEntry sampleFormats) ++
        sampleBackupInfo.Files.TxnLogs.map (metadata.txnLogEntry sampleFormats) :=
  ⟨by decide, (manifest_contents sampleFormats sampleBackupInfo).1,
    (manifest_contents sampleFormats sampleBackupInfo).2.2.2.2 (by decide) (by decide)
      (by decide) (by decide) (by decide)⟩

/-! ## The library sort on short slices -/

theorem lessAt_cons_succ {α : Type} (less : α → α → Bool) (a : α) (xs : List α) (i j : Nat) :
    sort.lessAt less (a :: xs) (i + 1) (j + 1) = sort.lessAt less xs i j := by
  simp only [sort.lessAt, List.getElem?_cons_succ]

theorem swapAt_cons_succ {α : Type} (a : α) (xs : List α) (i j : Nat) :
    sort.swapAt (a :: xs) (i + 1) (j + 1) = a :: sort.swapAt xs i j := by
  simp only [sort.swapAt, List.getElem?_cons_succ]
  cases xs[i]? <;> cases xs[j]? <;> simp [List.set_cons_succ]

theorem lessAt_adjacent {α : Type} (less : α → α → Bool) (p : List α) (x y : α)
    (post : List α) :
    sort.lessAt less (p ++ y :: x :: post) (p.length + 1) p.length = less x y := by
  induction p with
  | nil => simp [sort.lessAt]
  | cons a p ih =>
    simp only [List.cons_append, List.length_cons]
    rw [lessAt_cons_succ, ih]

theorem swapAt_adjacent {α : Type} (p : List α) (x y : α) (post : List α) :
    sort.swapAt (p ++ y :: x :: post) (p.length + 1) p.length = p ++ x :: y :: post := by
  induction p with
  | nil => simp [sort.swapAt]
  | cons a p ih =>
    simp only [List.cons_append, List.length_cons]
    rw [swapAt_cons_succ, ih]

/-- The inner loop of the insertion sort, started on the element after a prefix `p`, puts
the element where `insertDesc` puts it in the reversed prefix. -/
theorem insertionInner_eq {α : Type} (less : α → α → Bool) (x : α) :
    ∀ (j : Nat) (p post : List α), p.length = j →
      sort.insertionInner less 0 j (p ++ x :: post) =
        (sort.insertDesc less x p.reverse).reverse ++ post := by
  intro j
  induction j with
  | zero =>
    intro p post hp
    rw [List.length_eq_zero.mp hp]
    rfl
  | succ j ih =>
    intro p post hp
    rcases List.eq_nil_or_concat p with hnil | ⟨q, y, hq⟩
    · rw [hnil] at hp
      cases hp
    · subst hq
      have hq : q.length = j := by
        simp only [List.concat_eq_append, List.length_append, List.length_cons,
          List.length_nil] at hp
        omega
      have hxs : q.concat y ++ x :: post = q ++ y :: x :: post := by
        simp only [List.concat_eq_append, List.append_assoc, List.cons_append,
          List.nil_append]
      rw [hxs, sort.insertionInner]
      have hless := lessAt_adjacent less q x y post
      have hswap := swapAt_adjacent q x y post
      rw [hq] at hless hswap
      rw [hless, hswap]
      simp only [List.concat_eq_append, List.reverse_append, List.reverse_cons,
        List.reverse_nil, List.nil_append, List.cons_append, sort.insertDesc]
      by_cases hxy : less x y = true
      · rw [if_pos ⟨Nat.succ_pos j, hxy⟩, if_pos hxy, ih q (y :: post) hq]
        simp only [List.reverse_cons, List.append_assoc, List.cons_append, List.nil_append]
      · rw [if_neg (fun h => hxy h.2), if_neg hxy]
        simp only [List.reverse_cons, List.reverse_reverse, List.append_assoc,
          List.cons_append, List.nil_append]

theorem insertDesc_length {α : Type} (less : α → α → Bool) (x : α) (r : List α) :
    (sort.insertDesc less x r).length = r.length + 1 := by
  induction r with
  | nil => rfl
  | cons y r ih =>
    simp only [sort.insertDesc]
    split
    · simp only [List.length_cons, ih]
    · simp only [List.length_cons]

theorem insertDesc_perm {α : Type} (less : α → α → Bool) (x : α) (r : List α) :
    (sort.insertDesc less x r).Perm (x :: r) := by
  induction r with
  | nil => exact List.Perm.refl _
  | cons y r ih =>
    simp only [sort.insertDesc]
    split
    · exact (List.Perm.cons y ih).trans (List.Perm.swap x y r)
    · exact List.Perm.refl _

/-- The outer loop of the insertion sort from a sorted prefix on. -/
theorem insertion_foldl {α : Type} (less : α → α → Bool) :
    ∀ (rest r : List α),
      (List.range' r.length rest.length).foldl
          (fun xs i => sort.insertionInner less 0 i xs) (r.reverse ++ rest) =
        (rest.foldl (fun r x => sort.insertDesc less x r) r).reverse := by
  intro rest
  induction rest with
  | nil =>
    intro r
    simp only [List.length_nil, List.range'_zero, List.foldl_nil, List.append_nil]
  | cons x rest ih =>
    intro r
    simp only [List.length_cons, List.range'_succ, List.foldl_cons]
    have hstep := insertionInner_eq less x r.length r.reverse rest (List.length_reverse r)
    rw [List.reverse_reverse] at hstep
    rw [hstep]
    have := ih (sort.insertDesc less x r)
    rw [insertDesc_length] at this
    exact this

/-- The insertion sort of the library on a whole slice, as a fold of insertions. -/
theorem insertionSort_func_eq {α : Type} (less : α → α → Bool) (xs : List α) :
    sort.insertionSort_func less xs 0 xs.length =
      (xs.foldl (fun r x => sort.insertDesc less x r) []).reverse := by
  cases xs with
  | nil => rfl
  | cons x rest =>
    have h := insertion_foldl less rest [x]
    simp only [List.length_cons, List.length_nil, Nat.zero_add, List.reverse_cons,
      List.reverse_nil, List.nil_append, List.cons_append] at h
    simp only [sort.insertionSort_func, List.length_cons, Nat.zero_add,
      Nat.add_sub_cancel, List.foldl_cons, sort.insertDesc]
    exact h

/-- On a slice of at most 12 elements `sort.Slice` is the insertion sort. -/
theorem Slice_short {α : Type} (less : α → α → Bool) (xs : List α) (h : xs.length ≤ 12) :
    sort.Slice xs less = (xs.foldl (fun r x => sort.insertDesc less x r) []).reverse := by
  have hshort : sort.pdqsort_func less (xs.length + 1) xs 0 xs.length
      (sort.bitsLen xs.length xs.length) true true =
      sort.insertionSort_func less xs 0 xs.length := by
    rw [sort.pdqsort_func]
    exact if_pos h
  unfold sort.Slice
  rw [hshort, insertionSort_func_eq]

theorem mem_insertDesc {α : Type} (less : α → α → Bool) (x v : α) (r : List α) :
    v ∈ sort.insertDesc less x r ↔ v = x ∨ v ∈ r := by
  rw [(insertDesc_perm less x r).mem_iff, List.mem_cons]

/-- Insertion keeps the list in descending order of key, an element behind those of the
same key that came before it. -/
theorem insertDesc_pairwise {α : Type} (key : α → Nat) (R : α → α → Prop) (x : α) :
    ∀ r : List α,
      r.Pairwise (fun u v => key v < key u ∨ (key v = key u ∧ R v u)) →
      (∀ u ∈ r, R u x) →
      (sort.insertDesc (fun a b => decide (key a < key b)) x r).Pairwise
        (fun u v => key v < key u ∨ (key v = key u ∧ R v u)) := by
  intro r
  induction r with
  | nil =>
    intro _ _
    exact List.pairwise_singleton _ _
  | cons y r ih =>
    intro hp hR
    rw [List.pairwise_cons] at hp
    simp only [sort.insertDesc, decide_eq_true_eq]
    by_cases hxy : key x < key y
    · rw [if_pos hxy, List.pairwise_cons]
      refine ⟨?_, ih hp.2 (fun u hu => hR u (List.mem_cons_of_mem _ hu))⟩
      intro v hv
      rcases (mem_insertDesc _ x v r).mp hv with rfl | hv
      · exact Or.inl hxy
      · exact hp.1 v hv
    · rw [if_neg hxy, List.pairwise_cons]
      refine ⟨?_, List.pairwise_cons.mpr hp⟩
      intro v hv
      rcases List.mem_cons.mp hv with rfl | hv
      · rcases Nat.lt_or_ge (key v) (key x) with hlt | hge
        · exact Or.inl hlt
        · exact Or.inr ⟨by omega, hR v (List.mem_cons_self _ _)⟩
      · have hvx : R v x := hR v (List.mem_cons_of_mem _ hv)
        rcases hp.1 v hv with hlt | ⟨heq, -⟩
        · rcases Nat.lt_or_ge (key v) (key x) with hlt' | hge
          · exact Or.inl hlt'
          · exact Or.inr ⟨by omega, hvx⟩
        · rcases Nat.lt_or_ge (key v) (key x) with hlt' | hge
          · exact Or.inl hlt'
          · exact Or.inr ⟨by omega, hvx⟩

theorem foldl_insertDesc {α : Type} (key : α → Nat) (R : α → α → Prop) :
    ∀ (rest r : List α),
      r.Pairwise (fun u v => key v < key u ∨ (key v = key u ∧ R v u)) →
      (∀ u ∈ r, ∀ x ∈ rest, R u x) → rest.Pairwise R →
      (rest.foldl (fun r x => sort.insertDesc (fun a b => decide (key a < key b)) x r)
          r).Perm (rest ++ r) ∧
      (rest.foldl (fun r x => sort.insertDesc (fun a b => decide (key a < key b)) x r)
          r).Pairwise (fun u v => key v < key u ∨ (key v = key u ∧ R v u)) := by
  intro rest
  induction rest with
  | nil =>
    intro r hp _ _
    exact ⟨List.Perm.refl _, hp⟩
  | cons x rest ih =>
    intro r hp hR hrest
    rw [List.pairwise_cons] at hrest
    simp only [List.foldl_cons]
    have hp' := insertDesc_pairwise key R x r hp
      (fun u hu => hR u hu x (List.mem_cons_self _ _))
    have hR' : ∀ u ∈ sort.insertDesc (fun a b => decide (key a < key b)) x r,
        ∀ x' ∈ rest, R u x' := by
      intro u hu x' hx'
      rcases (mem_insertDesc _ x u r).mp hu with rfl | hu
      · exact hrest.1 x' hx'
      · exact hR u hu x' (List.mem_cons_of_mem _ hx')
    obtain ⟨hperm, hsorted⟩ := ih _ hp' hR' hrest.2
    refine ⟨?_, hsorted⟩
    refine hperm.trans ?_
    refine (List.Perm.append_left rest (insertDesc_perm _ x r)).trans ?_
    simp only [List.cons_append]
    exact List.perm_middle

/-- On a slice of at most 12 elements, `sort.Slice` with a comparison of numeric keys
returns a rearrangement in ascending order of key in which elements of equal key keep the
order they had. -/
theorem Slice_short_stable {α : Type} (key : α → Nat) (R : α → α → Prop) (xs : List α)
    (hlen : xs.length ≤ 12) (hR : xs.Pairwise R) :
    (sort.Slice xs fun a b => decide (key a < key b)).Perm xs ∧
    (sort.Slice xs fun a b => decide (key a < key b)).Pairwise
      (fun a b => key a < key b ∨ (key a = key b ∧ R a b)) := by
  rw [Slice_short _ xs hlen]
  obtain ⟨hperm, hsorted⟩ := foldl_insertDesc key R xs [] List.Pairwise.nil
    (fun u hu => absurd hu (List.not_mem_nil u)) hR
  rw [List.append_nil] at hperm
  exact ⟨(List.reverse_perm _).trans hperm, List.pairwise_reverse.mpr hsorted⟩

/-! ## The order of files with equal ZXIDs -/

/-- The joined paths of the listed entries of a directory read in ascending order of name
are in ascending order of their last element. -/
theorem candidates_by_name (join : String → String → String) (dir : String)
    (es : List DirEntry) (f : DirEntry → Bool)
    (hread : es.Pairwise fun e g => e.Name.data < g.Name.data)
    (hjoin : ∀ e ∈ es, filepath.Base (join dir e.Name) = e.Name) :
    ((es.filter f).map fun e => join dir e.Name).Pairwise
      fun p q => (filepath.Base p).data < (filepath.Base q).data := by
  rw [List.pairwise_map]
  refine List.Pairwise.imp_of_mem ?_ (hread.filter f)
  intro a b ha hb hab
  rw [hjoin a (List.mem_of_mem_filter ha), hjoin b (List.mem_of_mem_filter hb)]
  exact hab

theorem listing_stable (join : String → String → String) (dir : String)
    (es : List DirEntry) (f : DirEntry → Bool)
    (hread : es.Pairwise fun e g => e.Name.data < g.Name.data)
    (hjoin : ∀ e ∈ es, filepath.Base (join dir e.Name) = e.Name)
    (hlen : (es.filter f).length ≤ 12) :
    (sort.Slice ((es.filter f).map fun e => join dir e.Name) zxidLess).Perm
      ((es.filter f).map fun e => join dir e.Name) ∧
    (sort.Slice ((es.filter f).map fun e => join dir e.Name) zxidLess).Pairwise
      fun p q =>
        (ParseZxidFromFileName p).1 < (ParseZxidFromFileName q).1 ∨
        ((ParseZxidFromFileName p).1 = (ParseZxidFromFileName q).1 ∧
          (filepath.Base p).data < (filepath.Base q).data) :=
  Slice_short_stable (fun p => (ParseZxidFromFileName p).1)
    (fun p q => (filepath.Base p).data < (filepath.Base q).data) _
    (by rw [List.length_map]; exact hlen) (candidates_by_name join dir es f hread hjoin)

theorem ListTxnLogFiles_goLib (join : String → String → String) (dir : String)
    (es : List DirEntry) :
    ListTxnLogFiles (goLib join) dir (some es) =
      .ok (sort.Slice
        ((es.filter fun e : DirEntry => !e.IsDir && strings.HasPrefix e.Name "log.").map
          fun e => join dir e.Name) zxidLess) := by
  simp only [ListTxnLogFiles, osReadDir, goLib]

theorem ListSnapshotFiles_goLib (join : String → String → String) (dir : String)
    (es : List DirEntry) :
    ListSnapshotFiles (goLib join) dir (some es) =
      .ok (sort.Slice
        ((es.filter fun e : DirEntry =>
          !e.IsDir && strings.HasPrefix e.Name "snapshot.").map
          fun e => join dir e.Name) zxidLess) := by
  simp only [ListSnapshotFiles, osReadDir, goLib]

set_option maxRecDepth 100000 in
/-- C40 as stated fails from thirteen listed files on, where `sort.Slice` leaves the
insertion sort for a partition around a pivot.  In the directory of the logs 100 to b00 and
the backup copies `log.100.bak` and `log.500.bak`, read in ascending order of name, the two
copies parse to ZXID 0 and `ListTxnLogFiles` returns `log.500.bak` before `log.100.bak`;
likewise `ListSnapshotFiles` with snapshots. -/
theorem tie_order_counterexample :
    thirteenLogs.Pairwise (fun e f => e.Name.data < f.Name.data) ∧
    ListTxnLogFiles (goLib fun dir name => dir ++ "/" ++ name) "/data" (some thirteenLogs) =
      .ok ["/data/log.500.bak", "/data/log.100.bak", "/data/log.100", "/data/log.200",
        "/data/log.300", "/data/log.400", "/data/log.500", "/data/log.600", "/data/log.700",
        "/data/log.800", "/data/log.900", "/data/log.a00", "/data/log.b00"] ∧
    (ParseZxidFromFileName "/data/log.500.bak").1 = 0 ∧
    (ParseZxidFromFileName "/data/log.100.bak").1 = 0 ∧
    "log.100.bak".data < "log.500.bak".data ∧
    thirteenSnapshots.Pairwise (fun e f => e.Name.data < f.Name.data) ∧
    ListSnapshotFiles (goLib fun dir name => dir ++ "/" ++ name) "/data"
        (some thirteenSnapshots) =
      .ok ["/data/snapshot.500.bak", "/data/snapshot.100.bak", "/data/snapshot.100",
        "/data/snapshot.200", "/data/snapshot.300", "/data/snapshot.400",
        "/data/snapshot.500", "/data/snapshot.600", "/data/snapshot.700",
        "/data/snapshot.800", "/data/snapshot.900", "/data/snapshot.a00",
        "/data/snapshot.b00"] ∧
    (ParseZxidFromFileName "/data/snapshot.500.bak").1 = 0 ∧
    (ParseZxidFromFileName "/data/snapshot.100.bak").1 = 0 := by
  decide

/-- C40, amended: when at most 12 files are listed, files whose names parse to the same
ZXID appear in ascending order of name.  For a directory read in ascending order of name
(the order of `os.ReadDir`) and a join that keeps the entry name as the last element of the
path, `ListTxnLogFiles` and `ListSnapshotFiles` with the library sort return a rearrangement
of the listed paths in ascending order of ZXID, paths of equal ZXID in ascending order of
name. -/
theorem tie_order_up_to_twelve (join : String → String → String) (dir : String)
    (es : List DirEntry)
    (hread : es.Pairwise fun e g => e.Name.data < g.Name.data)
    (hjoin : ∀ e ∈ es, filepath.Base (join dir e.Name) = e.Name) :
    ((es.filter fun e => !e.IsDir && strings.HasPrefix e.Name "log.").length ≤ 12 →
      ∃ l, ListTxnLogFiles (goLib join) dir (some es) = .ok l ∧
        l.Perm ((es.filter fun e => !e.IsDir && strings.HasPrefix e.Name "log.").map
          fun e => join dir e.Name) ∧
        l.Pairwise fun p q =>
          (ParseZxidFromFileName p).1 < (ParseZxidFromFileName q).1 ∨
          ((ParseZxidFromFileName p).1 = (ParseZxidFromFileName q).1 ∧
            (filepath.Base p).data < (filepath.Base q).data)) ∧
    ((es.filter fun e => !e.IsDir && strings.HasPrefix e.Name "snapshot.").length ≤ 12 →
      ∃ l, ListSnapshotFiles (goLib join) dir (some es) = .ok l ∧
        l.Perm ((es.filter fun e => !e.IsDir && strings.HasPrefix e.Name "snapshot.").map
          fun e => join dir e.Name) ∧
        l.Pairwise fun p q =>
          (ParseZxidFromFileName p).1 < (ParseZxidFromFileName q).1 ∨
          ((ParseZxidFromFileName p).1 = (ParseZxidFromFileName q).1 ∧
            (filepath.Base p).data < (filepath.Base q).data)) := by
  constructor
  · intro hlen
    obtain ⟨hperm, hsorted⟩ := listing_stable join dir es
      (fun e : DirEntry => !e.IsDir && strings.HasPrefix e.Name "log.") hread hjoin hlen
    exact ⟨_, ListTxnLogFiles_goLib join dir es, hperm, hsorted⟩
  · intro hlen
    obtain ⟨hperm, hsorted⟩ := listing_stable join dir es
      (fun e : DirEntry => !e.IsDir && strings.HasPrefix e.Name "snapshot.") hread hjoin hlen
    exact ⟨_, ListSnapshotFiles_goLib join dir es, hperm, hsorted⟩

set_option maxRecDepth 100000 in
/-- Witness for C40: a directory of five logs, among them `log.01` and `log.1` (ZXID 1) and
the unparseable `log.x` and `log.y` (ZXID 0), and the same with snapshots. -/
theorem tie_order_up_to_twelve_witness :
    ListTxnLogFiles (goLib fun dir name => dir ++ "/" ++ name) "/data"
        (some [⟨"log.01", false⟩, ⟨"log.1", false⟩, ⟨"log.2", false⟩, ⟨"log.x", false⟩,
          ⟨"log.y", false⟩, ⟨"snapshot.01", false⟩, ⟨"snapshot.1", false⟩]) =
      .ok ["/data/log.x", "/data/log.y", "/data/log.01", "/data/log.1", "/data/log.2"] ∧
    ListSnapshotFiles (goLib fun dir name => dir ++ "/" ++ name) "/data"
        (some [⟨"log.01", false⟩, ⟨"log.1", false⟩, ⟨"log.2", false⟩, ⟨"log.x", false⟩,
          ⟨"log.y", false⟩, ⟨"snapshot.01", false⟩, ⟨"snapshot.1", false⟩]) =
      .ok ["/data/snapshot.01", "/data/snapshot.1"] ∧
    (∃ l, ListTxnLogFiles (goLib fun dir name => dir ++ "/" ++ name) "/data"
        (some [⟨"log.01", false⟩, ⟨"log.1", false⟩, ⟨"log.2", false⟩, ⟨"log.x", false⟩,
          ⟨"log.y", false⟩, ⟨"snapshot.01", false⟩, ⟨"snapshot.1", false⟩]) = .ok l ∧
      l.Perm (([⟨"log.01", false⟩, ⟨"log.1", false⟩, ⟨"log.2", false⟩, ⟨"log.x", false⟩,
          ⟨"log.y", false⟩, ⟨"snapshot.01", false⟩, ⟨"snapshot.1", false⟩].filter
        fun e : DirEntry => !e.IsDir && strings.HasPrefix e.Name "log.").map
          fun e => "/data" ++ "/" ++ e.Name) ∧
      l.Pairwise fun p q =>
        (ParseZxidFromFileName p).1 < (ParseZxidFromFileName q).1 ∨
        ((ParseZxidFromFileName p).1 = (ParseZxidFromFileName q).1 ∧
          (filepath.Base p).data < (filepath.Base q).data)) :=
  ⟨by decide, by decide,
    (tie_order_up_to_twelve (fun dir name => dir ++ "/" ++ name) "/data"
      [⟨"log.01", false⟩, ⟨"log.1", false⟩, ⟨"log.2", false⟩, ⟨"log.x", false⟩,
        ⟨"log.y", false⟩, ⟨"snapshot.01", false⟩, ⟨"snapshot.1", false⟩]
      (by decide) (by decide)).1 (by decide)⟩

end zkfile
